import Mathlib

/-!
# SkVMBlitter: the per-pixel program built by `Builder`

A shallow embedding of `src/core/SkVMBlitter.cpp`.

`skvm::I32` values are 32-bit lanes; they are embedded as natural numbers kept
below `2^32` by an explicit `% 2^32` in every operation.  The constructor
`Builder::Builder(key)` emits one instruction per call; the embedding evaluates
each instruction on the inputs of one pixel as it is emitted, so that
`Builder.Builder P key env` is either the trap reached while building the program
for `key`, or the value that program stores to the destination when it runs on
the pixel described by `env`.
-/

set_option linter.dupNamespace false

namespace skvm

/-- Modelled from the spec: `skvm::Builder` (src/core/SkVM.h) is not among the
sources.  `add` is the wrapping addition of two 32-bit lanes. -/
def add (x y : Nat) : Nat := (x + y) % 2 ^ 32

/-- Modelled from the spec: wrapping 32-bit subtraction `x - y` of `skvm::Builder`. -/
def sub (x y : Nat) : Nat := (x % 2 ^ 32 + (2 ^ 32 - y % 2 ^ 32)) % 2 ^ 32

/-- Modelled from the spec: wrapping 32-bit multiplication of `skvm::Builder`. -/
def mul (x y : Nat) : Nat := (x * y) % 2 ^ 32

/-- Modelled from the spec: `shl(x, bits)`, left shift of a 32-bit lane. -/
def shl (x : Nat) (bits : Nat) : Nat := (x <<< bits) % 2 ^ 32

/-- Modelled from the spec: `shr(x, bits)`, the logical (zero filling) right shift
of a 32-bit lane, the `>>` of the formula `(v + 128 + ((v+128)>>8)) >> 8`. -/
def shr (x : Nat) (bits : Nat) : Nat := (x % 2 ^ 32) >>> bits

/-- Modelled from the spec: bitwise and of two 32-bit lanes. -/
def bit_and (x y : Nat) : Nat := (x &&& y) % 2 ^ 32

/-- Modelled from the spec: bitwise or of two 32-bit lanes. -/
def bit_or (x y : Nat) : Nat := (x ||| y) % 2 ^ 32

/-- Modelled from the spec: `splat(n)`, the lane holding the 32-bit constant `n`. -/
def splat (n : Nat) : Nat := n % 2 ^ 32

/-- Modelled from the spec: `extract(x, bits, z)` is `(x >> bits) & z`. -/
def extract (x : Nat) (bits : Nat) (z : Nat) : Nat := bit_and (shr x bits) z

/-- Modelled from the spec: `pack(x, y, bits)` is `x | (y << bits)`; the shifted
operand is not masked. -/
def pack (x y : Nat) (bits : Nat) : Nat := bit_or x (shl y bits)

/-- The signed reading of a 32-bit lane. -/
def toInt32 (x : Nat) : Int :=
  if x % 2 ^ 32 < 2 ^ 31 then ((x % 2 ^ 32 : Nat) : Int) else ((x % 2 ^ 32 : Nat) : Int) - 2 ^ 32

/-- Modelled from the spec: `lt(x, y)`, the signed comparison of two 32-bit
lanes, all ones when it holds and zero when it does not. -/
def lt (x y : Nat) : Nat := if toInt32 x < toInt32 y then 0xffffffff else 0

/-- Modelled from the spec: `gt(x, y)`, signed comparison, all ones or zero. -/
def gt (x y : Nat) : Nat := if toInt32 x > toInt32 y then 0xffffffff else 0

/-- Modelled from the spec: `select(cond, t, f)` is `(cond & t) | (~cond & f)`. -/
def select (cond t f : Nat) : Nat :=
  bit_or (bit_and cond t) (bit_and (0xffffffff - cond % 2 ^ 32) f)

/-- Modelled from the spec: the value of a `uint32_t` field of the uniform
block, as `uniform32` loads it. -/
def uniform32 (field : Nat) : Nat := field % 2 ^ 32

/-- Modelled from the spec: the value of a `uint8_t` field of the uniform block,
as `uniform8` loads it (zero extended). -/
def uniform8 (field : Nat) : Nat := field % 2 ^ 8

/-- Modelled from the spec: `load8`, one byte behind a pointer, zero extended. -/
def load8 (datum : Nat) : Nat := datum % 2 ^ 8

/-- Modelled from the spec: `load16`, 16 bits behind a pointer, zero extended. -/
def load16 (datum : Nat) : Nat := datum % 2 ^ 16

/-- Modelled from the spec: `load32`, 32 bits behind a pointer. -/
def load32 (datum : Nat) : Nat := datum % 2 ^ 32

/-- Modelled from the spec: `store16`, the low 16 bits of the lane reach memory. -/
def store16 (v : Nat) : Nat := v % 2 ^ 16

/-- Modelled from the spec: `store32`, the 32 bits of the lane reach memory. -/
def store32 (v : Nat) : Nat := v % 2 ^ 32

end skvm

/-- The coverage modes, `enum class Coverage`. -/
inductive Coverage where
  | Full
  | UniformA8
  | MaskA8
  | MaskLCD16
  | Mask3D
  deriving DecidableEq, Repr

/-- Modelled from the spec: `SkColorType` is declared outside the sources; the
three enumerators the blitter names, and `other` for every enumerator it does
not name. -/
inductive SkColorType where
  | kRGB_565_SkColorType
  | kRGBA_8888_SkColorType
  | kBGRA_8888_SkColorType
  | other (raw : Nat)
  deriving DecidableEq, Repr

/-- Modelled from the spec: `SkAlphaType` is declared outside the sources
(premultiplied, unpremultiplied, opaque, and the unknown tag). -/
inductive SkAlphaType where
  | kUnknown_SkAlphaType
  | kOpaque_SkAlphaType
  | kPremul_SkAlphaType
  | kUnpremul_SkAlphaType
  deriving DecidableEq, Repr

/-- Modelled from the spec: `SkBlendMode` is declared outside the sources; the
two enumerators the blitter names, and `other` for every mode it does not. -/
inductive SkBlendMode where
  | kSrc
  | kSrcOver
  | other (raw : Nat)
  deriving DecidableEq, Repr

/-- The header of the uniform block, `struct Uniforms`. -/
structure Uniforms where
  paint_color : Nat
  coverage : Nat
  deriving DecidableEq, Repr

/-- What one evaluation of a program sees for one pixel: the uniform header, the
tail of the uniform block that belongs to the shader, and `arg ix`, the datum at
the current pixel behind the pointer bound to argument `ix` of the program
(argument 0 is the uniform block itself, argument 1 the destination, the
varyings follow in the order the Builder declares them). -/
structure Env where
  uniforms : Uniforms
  extra : List Nat
  arg : Nat → Nat

/-- A colour space object; a key holds a reference to it, only its identity is
observed. -/
structure SkColorSpace where
  addr : Nat
  deriving DecidableEq, Repr

/-- A colour filter object; only its presence and identity are observed. -/
structure SkColorFilter where
  addr : Nat
  deriving DecidableEq, Repr

/-- Four lanes, `struct Color { skvm::I32 r,g,b,a; }`. -/
structure Color where
  r : Nat
  g : Nat
  b : Nat
  a : Nat
  deriving DecidableEq, Repr

/-- Modelled from the spec: `SkShaderBase::program` is declared outside the
sources.  `program p dstCS uniforms offset c` is the virtual call
`program(p, dstCS, uniforms, offset, &r, &g, &b, &a)`: `p = none` is the call
with a null builder (the probe of `CanBuild`), `p = some env` the call with the
builder under construction, whose emitted lanes are evaluated on `env`; `c` is
what the four lanes hold before the call, the result is the returned flag and
what they hold after it. -/
structure SkShader where
  addr : Nat
  program : Option Env → Option SkColorSpace → Nat → Nat → Color → Bool × Color

/-- The program key, `struct Key`. -/
structure Key where
  colorType : SkColorType
  alphaType : SkAlphaType
  coverage : Coverage
  blendMode : SkBlendMode
  colorSpace : Option SkColorSpace
  shader : Option SkShader
  colorFilter : Option SkColorFilter

/-- `Key::withCoverage`. -/
def Key.withCoverage (k : Key) (c : Coverage) : Key := { k with coverage := c }

/-- The traps of `Builder::Builder`: failed assertions, `TODO` and
`SkUNREACHABLE`. -/
inductive Trap where
  | assertCanBuild
  | assertShaderProgram
  | todoColorFilter
  | assertDstLoaded
  | todoColorType
  | todoUnpremul
  | todoBlendMode
  | unreachableStore
  deriving DecidableEq, Repr

namespace Builder
open skvm

/-- `Builder::div255`. -/
def div255 (v : Nat) : Nat :=
  let v128 := add v (splat 128)
  shr (add v128 (shr v128 8)) 8

/-- `Builder::scale_unorm8`. -/
def scale_unorm8 (x y : Nat) : Nat := div255 (mul x y)

/-- `Builder::lerp_unorm8`. -/
def lerp_unorm8 (x y t : Nat) : Nat :=
  div255 (add (mul x (sub (splat 255) t)) (mul y t))

/-- `Builder::unpack_8888`. -/
def unpack_8888 (rgba : Nat) : Color :=
  { r := extract rgba 0 (splat 0xff)
    g := extract rgba 8 (splat 0xff)
    b := extract rgba 16 (splat 0xff)
    a := extract rgba 24 (splat 0xff) }

/-- `Builder::pack_8888`. -/
def pack_8888 (c : Color) : Nat :=
  pack (pack c.r c.g 8) (pack c.b c.a 8) 16

/-- `Builder::unpack_565`. -/
def unpack_565 (bgr : Nat) : Color :=
  let r := extract bgr 11 (splat 0b011111)
  let g := extract bgr 5 (splat 0b111111)
  let b := extract bgr 0 (splat 0b011111)
  { r := bit_or (shl r 3) (shr r 2)
    g := bit_or (shl g 2) (shr g 4)
    b := bit_or (shl b 3) (shr b 2)
    a := splat 0xff }

/-- `Builder::pack_565`. -/
def pack_565 (c : Color) : Nat :=
  let r := scale_unorm8 c.r (splat 31)
  let g := scale_unorm8 c.g (splat 63)
  let b := scale_unorm8 c.b (splat 31)
  pack (pack b g 5) r 11

/-- `Builder::min`. -/
def min (x y : Nat) : Nat := select (lt x y) x y

/-- `Builder::max`. -/
def max (x y : Nat) : Nat := select (gt x y) x y

/-- `Builder::CanBuild`. -/
def CanBuild (key : Key) : Bool :=
  let shaderOk : Bool :=
    match key.shader with
    | some sh => (sh.program none key.colorSpace 0 0 ⟨0, 0, 0, 0⟩).1
    | none => true
  if shaderOk = false then false
  else if key.colorFilter.isSome then false
  else
    match key.colorType with
    | .kRGB_565_SkColorType | .kRGBA_8888_SkColorType | .kBGRA_8888_SkColorType =>
      if key.alphaType = .kUnpremul_SkAlphaType then false
      else
        match key.blendMode with
        | .kSrc | .kSrcOver => true
        | _ => false
    | _ => false

/-- `sizeof(Uniforms)`: a `uint32_t` and a `uint8_t`, padded to the alignment of
the first. -/
def sizeof_Uniforms : Nat := 8

/-- Modelled from the spec: `skvm::Builder::arg` (and `uniform`, `varying`, which
call it) hands out the argument indices in the order of the calls; `nargs` is
the number handed out so far, the result is the new index and the new count. -/
def arg (nargs : Nat) : Nat × Nat := (nargs, nargs + 1)

/-- Lines 193-207 of `Builder::Builder`: a shader, when the key has one, emits
the lanes that replace the paint colour; the call is under `SkAssertResult`. -/
def shade (key : Key) (env : Env) (uniforms : Nat) (src : Color) : Except Trap Color :=
  match key.shader with
  | some sh =>
    let paint_alpha := src.a
    let res := sh.program (some env) key.colorSpace uniforms sizeof_Uniforms src
    if res.1 = false then .error .assertShaderProgram
    else
      let src := res.2
      .ok (if false then
             { r := scale_unorm8 src.r paint_alpha
               g := scale_unorm8 src.g paint_alpha
               b := scale_unorm8 src.b paint_alpha
               a := scale_unorm8 src.a paint_alpha }
           else src)
  | none => .ok src

/-- Lines 210-217 of `Builder::Builder`: the two planes of a 3D mask. -/
def mask3D (key : Key) (env : Env) (nargs : Nat) (src : Color) : Color × Nat :=
  if key.coverage = .Mask3D then
    let vM := arg nargs
    let M := load8 (env.arg vM.1)
    let vA := arg vM.2
    let A := load8 (env.arg vA.1)
    ({ r := min (add (scale_unorm8 src.r M) A) src.a
       g := min (add (scale_unorm8 src.g M) A) src.a
       b := min (add (scale_unorm8 src.b M) A) src.a
       a := src.a }, vA.2)
  else (src, nargs)

/-- The lambda `load_coverage` of `Builder::Builder`; `none` for the coverage is
its `false` result.  `src` is the source colour at the time of the call; `dst`
is `none` as long as the destination has not been loaded (`dst_loaded`). -/
def load_coverage (key : Key) (env : Env) (nargs : Nat) (src : Color) (dst : Option Color) :
    Except Trap (Option Color × Nat) :=
  match key.coverage with
  | .Full => .ok (none, nargs)
  | .UniformA8 =>
    let c := uniform8 env.uniforms.coverage
    .ok (some ⟨c, c, c, c⟩, nargs)
  | .Mask3D | .MaskA8 =>
    let v := arg nargs
    let c := load8 (env.arg v.1)
    .ok (some ⟨c, c, c, c⟩, v.2)
  | .MaskLCD16 =>
    match dst with
    | none => .error .assertDstLoaded
    | some dst =>
      let v := arg nargs
      let cov := unpack_565 (load16 (env.arg v.1))
      .ok (some { r := cov.r
                  g := cov.g
                  b := cov.b
                  a := select (lt src.a dst.a) (min cov.r (min cov.g cov.b))
                                               (max cov.r (max cov.g cov.b)) }, v.2)

/-- Lines 253-264 of `Builder::Builder`: coverage folded into the source before
the blend.  The result is the source, the argument count, and
`lerp_coverage_post_blend`. -/
def preScaleCoverage (shouldPreScale : SkBlendMode → Bool → Bool) (key : Key) (env : Env)
    (nargs : Nat) (src : Color) : Except Trap (Color × Nat × Bool) :=
  if shouldPreScale key.blendMode (decide (key.coverage = .MaskLCD16)) then
    match load_coverage key env nargs src none with
    | .error e => .error e
    | .ok (some cov, n) =>
      .ok ({ r := scale_unorm8 src.r cov.r
             g := scale_unorm8 src.g cov.g
             b := scale_unorm8 src.b cov.b
             a := scale_unorm8 src.a cov.a }, n, false)
    | .ok (none, n) => .ok (src, n, false)
  else .ok (src, nargs, true)

/-- Lines 268-275 of `Builder::Builder`: the destination colour. -/
def loadDst (key : Key) (env : Env) (dst_ptr : Nat) : Except Trap Color :=
  match key.colorType with
  | .kRGB_565_SkColorType => .ok (unpack_565 (load16 (env.arg dst_ptr)))
  | .kRGBA_8888_SkColorType => .ok (unpack_8888 (load32 (env.arg dst_ptr)))
  | .kBGRA_8888_SkColorType =>
    let dst := unpack_8888 (load32 (env.arg dst_ptr))
    .ok { r := dst.b, g := dst.g, b := dst.r, a := dst.a }
  | .other _ => .error .todoColorType

/-- Lines 287-299 of `Builder::Builder`: the blend. -/
def blend (key : Key) (src dst : Color) : Except Trap Color :=
  match key.blendMode with
  | .kSrc => .ok src
  | .kSrcOver =>
    let invA := sub (splat 255) src.a
    .ok { r := add src.r (scale_unorm8 dst.r invA)
          g := add src.g (scale_unorm8 dst.g invA)
          b := add src.b (scale_unorm8 dst.b invA)
          a := add src.a (scale_unorm8 dst.a invA) }
  | .other _ => .error .todoBlendMode

/-- Lines 302-308 of `Builder::Builder`: the lerp with coverage after the blend. -/
def lerpCoverage (key : Key) (env : Env) (nargs : Nat) (lerp_coverage_post_blend : Bool)
    (src dst : Color) : Except Trap Color :=
  if lerp_coverage_post_blend then
    match load_coverage key env nargs src (some dst) with
    | .error e => .error e
    | .ok (some cov, _) =>
      .ok { r := lerp_unorm8 dst.r src.r cov.r
            g := lerp_unorm8 dst.g src.g cov.g
            b := lerp_unorm8 dst.b src.b cov.b
            a := lerp_unorm8 dst.a src.a cov.a }
    | .ok (none, _) => .ok src
  else .ok src

/-- Lines 313-320 of `Builder::Builder`: pack and store; the result is what
reaches the destination. -/
def storeDst (key : Key) (src : Color) : Except Trap Nat :=
  match key.colorType with
  | .kRGB_565_SkColorType => .ok (store16 (pack_565 src))
  | .kBGRA_8888_SkColorType =>
    .ok (store32 (pack_8888 { r := src.b, g := src.g, b := src.r, a := src.a }))
  | .kRGBA_8888_SkColorType => .ok (store32 (pack_8888 src))
  | .other _ => .error .unreachableStore

/-- The constructor `Builder::Builder(key)`, with assertions enabled.
`shouldPreScale` stands for `SkBlendMode_ShouldPreScaleCoverage`, which is
defined outside the sources. -/
def Builder (shouldPreScale : SkBlendMode → Bool → Bool) (key : Key) (env : Env) :
    Except Trap Nat :=
  if CanBuild key = false then .error .assertCanBuild
  else
    let uniforms := arg 0
    let dst_ptr := arg uniforms.2
    let paint := unpack_8888 (uniform32 env.uniforms.paint_color)
    match shade key env uniforms.1 paint with
    | .error e => .error e
    | .ok src =>
      if key.colorFilter.isSome then .error .todoColorFilter
      else
        let m := mask3D key env dst_ptr.2 src
        match preScaleCoverage shouldPreScale key env m.2 m.1 with
        | .error e => .error e
        | .ok (src, nargs, lerp_coverage_post_blend) =>
          match loadDst key env dst_ptr.1 with
          | .error e => .error e
          | .ok dst =>
            let force_opaque : Bool := true && decide (key.alphaType = .kOpaque_SkAlphaType)
            let dst : Color := if force_opaque then { dst with a := splat 0xff } else dst
            if key.alphaType = .kUnpremul_SkAlphaType then .error .todoUnpremul
            else
              match blend key src dst with
              | .error e => .error e
              | .ok src =>
                match lerpCoverage key env nargs lerp_coverage_post_blend src dst with
                | .error e => .error e
                | .ok src =>
                  let src : Color := if force_opaque then { src with a := splat 0xff } else src
                  storeDst key src

end Builder

/-! ## Fixtures for the concrete instances -/

/-- A shader that accepts every colour space and emits the colour `c`: what the
red/green/blue/white child shader of the runtime-effect test emits at one of its
four pixels. -/
def solidShader (c : Color) : SkShader :=
  { addr := 1, program := fun _ _ _ _ _ => (true, c) }

/-- A premultiplied RGBA_8888 key with full coverage. -/
def premulKey (blendMode : SkBlendMode) (shader : Option SkShader) : Key :=
  { colorType := .kRGBA_8888_SkColorType, alphaType := .kPremul_SkAlphaType, coverage := .Full,
    blendMode := blendMode, colorSpace := none, shader := shader, colorFilter := none }

/-- One pixel: the paint colour, the coverage byte, the destination bits and the
datum behind every varying. -/
def pixelEnv (paint coverage dst varying : Nat) : Env :=
  { uniforms := ⟨paint, coverage⟩, extra := [], arg := fun ix => if ix = 1 then dst else varying }

/-! ## Keys, programs, the program cache and the blitter -/

/-- Modelled from the spec: `sk_sp<T>::get`, the address a reference holds; the
null reference holds none.  Two references denote the same object exactly when
they hold the same address. -/
def SkColorSpace.get (p : Option SkColorSpace) : Option Nat := p.map fun o => o.addr

/-- Modelled from the spec: `sk_sp<SkShader>::get`, as `SkColorSpace.get`. -/
def SkShader.get (p : Option SkShader) : Option Nat := p.map fun o => o.addr

/-- Modelled from the spec: `sk_sp<SkColorFilter>::get`, as `SkColorSpace.get`. -/
def SkColorFilter.get (p : Option SkColorFilter) : Option Nat := p.map fun o => o.addr

/-- `operator==(const Key&, const Key&)`: the four enumerated fields by value,
the three references by the address they hold. -/
def Key.beq (x y : Key) : Bool :=
  decide (x.colorType = y.colorType)
    && decide (x.alphaType = y.alphaType)
    && decide (x.coverage = y.coverage)
    && decide (x.blendMode = y.blendMode)
    && decide (SkColorSpace.get x.colorSpace = SkColorSpace.get y.colorSpace)
    && decide (SkShader.get x.shader = SkShader.get y.shader)
    && decide (SkColorFilter.get x.colorFilter = SkColorFilter.get y.colorFilter)

/-- Modelled from the spec: `skvm::Program` is declared outside the sources.  A
program is empty (not yet built, or moved from), or it is what
`Builder{key}.done()` returned, which the key determines: `built` is that key.
The traps of the constructor surface when the program is evaluated on a pixel. -/
structure Program where
  built : Option Key

/-- Modelled from the spec: `skvm::Program::empty`. -/
def Program.empty (p : Program) : Bool := p.built.isNone

/-- Modelled from the spec: `Builder builder{key}; builder.done(...)`, the program
built for `key`. -/
def Builder.done (key : Key) : Program := { built := some key }

/-- Modelled from the spec: evaluating a program on one pixel stores what the
constructor of its key emitted; the empty program stores nothing. -/
def Program.eval (shouldPreScale : SkBlendMode → Bool → Bool) (p : Program) (env : Env) :
    Option (Except Trap Nat) :=
  p.built.map fun key => Builder.Builder shouldPreScale key env

/-- Modelled from the spec: `SkLRUCache<Key, skvm::Program>` (src/core/SkLRUCache.h)
is not among the sources: a bounded associative store with strict
least-recently-used eviction on lookup and insert.  `fLRU` lists the entries,
the most recently used first; keys are compared with `operator==`. -/
structure SkLRUCache where
  fMaxCount : Nat
  fLRU : List (Key × Program)

/-- Modelled from the spec: `SkLRUCache::find`: the value of the entry for `key`,
if there is one, and the cache with that entry moved to the head of the list. -/
def SkLRUCache.find (c : SkLRUCache) (key : Key) : Option Program × SkLRUCache :=
  match c.fLRU.find? fun e => e.1.beq key with
  | some e => (some e.2, { c with fLRU := e :: c.fLRU.eraseP fun e => e.1.beq key })
  | none => (none, c)

/-- Modelled from the spec: an assignment `*found = value` through the pointer
that `find` returned: `find` has moved the entry to the head of the list. -/
def SkLRUCache.assign (c : SkLRUCache) (value : Program) : SkLRUCache :=
  match c.fLRU with
  | e :: rest => { c with fLRU := (e.1, value) :: rest }
  | [] => c

/-- Modelled from the spec: `SkLRUCache::insert`: a new entry at the head of the
list, and the least recently used entries evicted while there are more than
`fMaxCount`. -/
def SkLRUCache.insert (c : SkLRUCache) (key : Key) (value : Program) : SkLRUCache :=
  { c with fLRU := ((key, value) :: c.fLRU).take c.fMaxCount }

/-- `try_acquire_program_cache`, at its first call on a thread: the cache of
eight entries (no cache where thread-local storage is not available). -/
def try_acquire_program_cache (threadLocal : Bool) : Option SkLRUCache :=
  if threadLocal then some { fMaxCount := 8, fLRU := [] } else none

/-- Modelled from the spec: `SkPixmap` is declared outside the sources; what the
blitter reads of the device. -/
structure SkPixmap where
  colorType : SkColorType
  alphaType : SkAlphaType
  colorSpace : Option SkColorSpace

/-- Modelled from the spec: `SkColor4f` and `SkColorSpaceXformSteps` are declared
outside the sources and compute in floating point, which is not embedded.  Of
the paint colour, once transformed to the device colour space, the constructor
observes `fitsInBytes()` and `premul().toBytes_RGBA()`: a colour is embedded as
these two observations. -/
structure SkColor4f where
  fitsInBytes : Bool
  premul_toBytes_RGBA : Nat

/-- Modelled from the spec: `SkPaint` is declared outside the sources; what the
blitter reads of the paint.  `color4f cs` is `getColor4f()` after
`SkColorSpaceXformSteps` has taken it from sRGB to the colour space `cs`. -/
structure SkPaint where
  blendMode : SkBlendMode
  shader : Option SkShader
  colorFilter : Option SkColorFilter
  color4f : Option SkColorSpace → SkColor4f

/-- The class `Blitter`: its fields.  `fUniforms` is embedded as the header of
the uniform block (the byte vector and its allocation are not embedded); before
the constructor writes it the header is taken as zero. -/
structure Blitter where
  ok : Bool
  fDevice : SkPixmap
  fKey : Key
  fUniforms : Uniforms
  fBlitH : Program
  fBlitAntiH : Program
  fBlitMaskA8 : Program
  fBlitMask3D : Program
  fBlitMaskLCD16 : Program

/-- The constructor `Blitter::Blitter(device, paint)`. -/
def Blitter.ctor (device : SkPixmap) (paint : SkPaint) : Blitter :=
  let fKey : Key :=
    { colorType := device.colorType
      alphaType := device.alphaType
      coverage := .Full
      blendMode := paint.blendMode
      colorSpace := device.colorSpace
      shader := paint.shader
      colorFilter := paint.colorFilter }
  let fUniforms : Uniforms := { paint_color := 0, coverage := 0 }
  let color := paint.color4f device.colorSpace
  let written : Bool := color.fitsInBytes && Builder.CanBuild fKey
  { ok := written
    fDevice := device
    fKey := fKey
    fUniforms :=
      if written then { fUniforms with paint_color := color.premul_toBytes_RGBA } else fUniforms
    fBlitH := { built := none }
    fBlitAntiH := { built := none }
    fBlitMaskA8 := { built := none }
    fBlitMask3D := { built := none }
    fBlitMaskLCD16 := { built := none } }

/-- The program slot that serves a coverage mode: `fBlitH` for Full, `fBlitAntiH`
for UniformA8, `fBlitMaskA8`, `fBlitMask3D` and `fBlitMaskLCD16` for the masks. -/
def Blitter.slot (b : Blitter) (coverage : Coverage) : Program :=
  match coverage with
  | .Full => b.fBlitH
  | .UniformA8 => b.fBlitAntiH
  | .MaskA8 => b.fBlitMaskA8
  | .Mask3D => b.fBlitMask3D
  | .MaskLCD16 => b.fBlitMaskLCD16

/-- Assignment to the program slot of a coverage mode. -/
def Blitter.setSlot (b : Blitter) (coverage : Coverage) (p : Program) : Blitter :=
  match coverage with
  | .Full => { b with fBlitH := p }
  | .UniformA8 => { b with fBlitAntiH := p }
  | .MaskA8 => { b with fBlitMaskA8 := p }
  | .Mask3D => { b with fBlitMask3D := p }
  | .MaskLCD16 => { b with fBlitMaskLCD16 := p }

/-- `Blitter::buildProgram(coverage)`: the program, and the cache of the thread
after the call.  The cached program is moved out of its entry, which stays in
the cache holding the empty program. -/
def Blitter.buildProgram (b : Blitter) (cache : Option SkLRUCache) (coverage : Coverage) :
    Program × Option SkLRUCache :=
  let key := b.fKey.withCoverage coverage
  let looked : Program × Option SkLRUCache :=
    match cache with
    | some c =>
      match c.find key with
      | (some found, c1) => (found, some (c1.assign { built := none }))
      | (none, c1) => ({ built := none }, some c1)
    | none => ({ built := none }, none)
  if looked.1.empty = false then looked
  else (Builder.done key, looked.2)

/-- The lambda `cache_program` of `Blitter::~Blitter`. -/
def Blitter.cache_program (b : Blitter) (cache : SkLRUCache) (program : Program)
    (coverage : Coverage) : SkLRUCache :=
  if program.empty = false then
    let key := b.fKey.withCoverage coverage
    match cache.find key with
    | (some _, c1) => c1.assign program
    | (none, c1) => c1.insert key program
  else cache

/-- The destructor `Blitter::~Blitter`: the cache of the thread after it. -/
def Blitter.destructor (b : Blitter) (cache : Option SkLRUCache) : Option SkLRUCache :=
  match cache with
  | some c =>
    let c := b.cache_program c b.fBlitH .Full
    let c := b.cache_program c b.fBlitAntiH .UniformA8
    let c := b.cache_program c b.fBlitMaskA8 .MaskA8
    let c := b.cache_program c b.fBlitMask3D .Mask3D
    let c := b.cache_program c b.fBlitMaskLCD16 .MaskLCD16
    some c
  | none => none

/-- The first statement of `blitH` (coverage Full), of `blitAntiH` (UniformA8) and
of the cases of `blitMask` (Mask3D, MaskA8, MaskLCD16): the program of the slot
is built on first use.  What follows it in a blit evaluates the program, which
writes pixels and touches neither the slots nor the cache. -/
def Blitter.selectProgram (b : Blitter) (cache : Option SkLRUCache) (coverage : Coverage) :
    Blitter × Option SkLRUCache :=
  if (b.slot coverage).empty then
    let r := b.buildProgram cache coverage
    (b.setSlot coverage r.1, r.2)
  else (b, cache)

/-- `SkCreateSkVMBlitter`: the blitter, or none for the null pointer. -/
def SkCreateSkVMBlitter (device : SkPixmap) (paint : SkPaint) : Option Blitter :=
  let blitter := Blitter.ctor device paint
  if blitter.ok then some blitter else none

/-- One thread: its program cache and the blitters alive on it. -/
structure Thread where
  cache : Option SkLRUCache
  blitters : List Blitter

/-- What happens on a thread: a blitter is constructed, a blitter that
`SkCreateSkVMBlitter` returned blits with some coverage mode, a blitter is torn
down. -/
inductive Op where
  | construct (device : SkPixmap) (paint : SkPaint)
  | blit (i : Nat) (coverage : Coverage)
  | teardown (i : Nat)

/-- One operation on a thread. -/
def Thread.step (t : Thread) : Op → Thread
  | .construct device paint =>
    { t with blitters := t.blitters ++ [Blitter.ctor device paint] }
  | .blit i coverage =>
    match t.blitters.get? i with
    | some b =>
      if b.ok then
        let r := b.selectProgram t.cache coverage
        { cache := r.2, blitters := t.blitters.set i r.1 }
      else t
    | none => t
  | .teardown i =>
    match t.blitters.get? i with
    | some b => { cache := b.destructor t.cache, blitters := t.blitters.eraseIdx i }
    | none => t

/-- A sequence of operations on a thread. -/
def Thread.run (t : Thread) (ops : List Op) : Thread := ops.foldl Thread.step t

/-- A thread before anything happened on it. -/
def Thread.start (threadLocal : Bool) : Thread :=
  { cache := try_acquire_program_cache threadLocal, blitters := [] }

/-- A program that is not empty is one that `Builder` produced for a key equal
to `key`. -/
def Program.builtFor (p : Program) (key : Key) : Prop :=
  ∀ k, p.built = some k → k.beq key = true

/-- Every program stored in the cache is empty or was built for a key equal to
the key it is stored under. -/
def SkLRUCache.sound (c : SkLRUCache) : Prop :=
  ∀ e ∈ c.fLRU, e.2.builtFor e.1

/-- Cache soundness on a thread: every program in the cache and every program in
a slot of a live blitter is empty or was built for a key equal to its own. -/
def Thread.sound (t : Thread) : Prop :=
  (∀ c, t.cache = some c → c.sound)
    ∧ ∀ b ∈ t.blitters, ∀ coverage, (b.slot coverage).builtFor (b.fKey.withCoverage coverage)

/-- The first entry for a key equal to `key` is among the first `n + 1` entries
of the cache and holds the program `p`. -/
def SkLRUCache.holds (c : SkLRUCache) (key : Key) (p : Program) (n : Nat) : Prop :=
  ∃ e, (c.fLRU.take (n + 1)).find? (fun e => e.1.beq key) = some e ∧ e.2 = p

/-- A premultiplied RGBA_8888 device without a colour space. -/
def rgbaDevice : SkPixmap :=
  { colorType := .kRGBA_8888_SkColorType, alphaType := .kPremul_SkAlphaType, colorSpace := none }

/-- A paint without shader or colour filter whose colour fits in bytes, with
premultiplied bytes `rgba`, in every colour space. -/
def solidPaint (blendMode : SkBlendMode) (rgba : Nat) : SkPaint :=
  { blendMode := blendMode, shader := none, colorFilter := none,
    color4f := fun _ => { fitsInBytes := true, premul_toBytes_RGBA := rgba } }

/-! ## The blits: spans, runs of coverage and masks -/

/-- Modelled from the spec: `SkMask::Format` is declared outside the sources; the
four enumerators `blitMask` names, and `other` for the formats it does not name
(ARGB32 and SDF). -/
inductive SkMask.Format where
  | kBW_Format
  | kA8_Format
  | k3D_Format
  | kLCD16_Format
  | other (raw : Nat)
  deriving DecidableEq, Repr

/-- Modelled from the spec: `SkMask` is declared outside the sources; what
`blitMask` reads of a mask: its format, `getAddr(x, y)`, the byte address of the
mask datum of the pixel (x, y), and `computeImageSize()`, the size in bytes of
one plane. -/
structure SkMask where
  fFormat : SkMask.Format
  getAddr : Int → Int → Int
  computeImageSize : Nat

/-- Modelled from the spec: `SkIRect` is declared outside the sources; its four
edges. -/
structure SkIRect where
  fLeft : Int
  fTop : Int
  fRight : Int
  fBottom : Int
  deriving DecidableEq, Repr

/-- Modelled from the spec: `SkIRect::left`. -/
def SkIRect.left (r : SkIRect) : Int := r.fLeft

/-- Modelled from the spec: `SkIRect::top`. -/
def SkIRect.top (r : SkIRect) : Int := r.fTop

/-- Modelled from the spec: `SkIRect::bottom`. -/
def SkIRect.bottom (r : SkIRect) : Int := r.fBottom

/-- Modelled from the spec: `SkIRect::width`, the right edge less the left. -/
def SkIRect.width (r : SkIRect) : Int := r.fRight - r.fLeft

/-- A pointer handed to a program: `fDevice.addr(x, y)` (or `writable_addr`), the
address of the device pixel (x, y), or a byte address in the memory of a mask. -/
inductive Ptr where
  | device (x y : Int)
  | mask (addr : Int)
  deriving DecidableEq, Repr

/-- One call `program.eval(n, fUniforms.data(), args...)`: the program, the
number of pixels, the header of the uniform block at the time of the call, and
the pointers that follow the uniform block, the destination first. -/
structure Eval where
  program : Program
  n : Int
  uniforms : Uniforms
  args : List Ptr

/-- A blitter at work on its thread: the blitter, the program cache of the
thread, and the evaluations made so far, the oldest first. -/
structure BlitState where
  blitter : Blitter
  cache : Option SkLRUCache
  evals : List Eval

/-- How a blit stops short of returning: the `SkUNREACHABLE` of `blitMask`, or a
run array whose end was not met within the steps allowed. -/
inductive Stop where
  | unreachableMaskFormat
  | outOfFuel
  deriving DecidableEq, Repr

/-- `Blitter::blitH(x, y, w)`.  `updateUniforms` rewrites the tail of the uniform
block, which belongs to the shader and is not part of the header. -/
def Blitter.blitH (s : BlitState) (x y w : Int) : BlitState :=
  let r := s.blitter.selectProgram s.cache .Full
  { blitter := r.1
    cache := r.2
    evals := s.evals ++ [{ program := r.1.fBlitH, n := w, uniforms := r.1.fUniforms,
                           args := [.device x y] }] }

/-- The loop of `Blitter::blitAntiH`.  `cov` and `runs` are the two arrays as
seen from the two pointers (`runs 0` is `*runs`), so that advancing a pointer by
`run` shifts the array; `fuel` bounds the number of times the condition is
evaluated. -/
def Blitter.blitAntiH_runs :
    Nat → BlitState → Int → Int → (Nat → Nat) → (Nat → Int) → Except Stop BlitState
  | 0, _, _, _, _, _ => .error .outOfFuel
  | fuel + 1, s, x, y, cov, runs =>
    let run := runs 0
    if run > 0 then
      let b : Blitter :=
        { s.blitter with fUniforms := { s.blitter.fUniforms with coverage := cov 0 } }
      let s : BlitState :=
        { s with
          blitter := b
          evals := s.evals ++ [{ program := b.fBlitAntiH, n := run, uniforms := b.fUniforms,
                                 args := [.device x y] }] }
      Blitter.blitAntiH_runs fuel s (x + run) y (fun j => cov (j + run.toNat))
        (fun j => runs (j + run.toNat))
    else .ok s

/-- `Blitter::blitAntiH(x, y, cov, runs)`. -/
def Blitter.blitAntiH (fuel : Nat) (s : BlitState) (x y : Int) (cov : Nat → Nat)
    (runs : Nat → Int) : Except Stop BlitState :=
  let r := s.blitter.selectProgram s.cache .UniformA8
  Blitter.blitAntiH_runs fuel { s with blitter := r.1, cache := r.2 } x y cov runs

/-- Modelled from the spec: the generic `SkBlitter::blitMask` is outside the
sources.  The blitter is driven from outside by calls that describe a
full-coverage span or a run-length span of coverage; the base class has no
access to the device or to the program slots, which are private to `Blitter`,
so what it does with a mask reaches the blitter as calls of these two virtual
entry points. -/
inductive Call where
  | blitH (x y w : Int)
  | blitAntiH (x y : Int) (cov : Nat → Nat) (runs : Nat → Int)

/-- One call from outside into the blitter. -/
def Blitter.call (fuel : Nat) (s : BlitState) : Call → Except Stop BlitState
  | .blitH x y w => .ok (Blitter.blitH s x y w)
  | .blitAntiH x y cov runs => Blitter.blitAntiH fuel s x y cov runs

/-- A sequence of calls from outside into the blitter. -/
def Blitter.calls (fuel : Nat) (s : BlitState) : List Call → Except Stop BlitState
  | [] => .ok s
  | c :: cs =>
    match Blitter.call fuel s c with
    | .error e => .error e
    | .ok s1 => Blitter.calls fuel s1 cs

/-- The row loop of `Blitter::blitMask`: one evaluation for each row of the clip,
from the top; `is3D` is the test `program == &fBlitMask3D`. -/
def Blitter.maskRows (program : Program) (uniforms : Uniforms) (mask : SkMask) (clip : SkIRect)
    (is3D : Bool) : List Eval :=
  (List.range (clip.bottom - clip.top).toNat).map fun (j : Nat) =>
    let y : Int := clip.top + j
    let dptr := Ptr.device clip.left y
    let mptr := mask.getAddr clip.left y
    if is3D then
      let plane : Int := mask.computeImageSize
      { program := program, n := clip.width, uniforms := uniforms,
        args := [dptr, .mask (mptr + 1 * plane), .mask (mptr + 2 * plane),
                 .mask (mptr + 0 * plane)] }
    else
      { program := program, n := clip.width, uniforms := uniforms, args := [dptr, .mask mptr] }

/-- The coverage mode whose program `blitMask` selects for a mask format; none
for the formats that meet `SkUNREACHABLE` (and for BW, which is delegated before
the switch). -/
def Blitter.maskCoverage : SkMask.Format → Option Coverage
  | .k3D_Format => some .Mask3D
  | .kA8_Format => some .MaskA8
  | .kLCD16_Format => some .MaskLCD16
  | _ => none

/-- `Blitter::blitMask(mask, clip)`.  `generic mask clip` is what the generic
`SkBlitter::blitMask` does with this mask and clip: the calls it makes back into
the blitter. -/
def Blitter.blitMask (generic : SkMask → SkIRect → List Call) (fuel : Nat) (s : BlitState)
    (mask : SkMask) (clip : SkIRect) : Except Stop BlitState :=
  if mask.fFormat = .kBW_Format then Blitter.calls fuel s (generic mask clip)
  else
    match Blitter.maskCoverage mask.fFormat with
    | none => .error .unreachableMaskFormat
    | some coverage =>
      let r := s.blitter.selectProgram s.cache coverage
      .ok { blitter := r.1
            cache := r.2
            evals := s.evals
              ++ Blitter.maskRows (r.1.slot coverage) r.1.fUniforms mask clip
                   (decide (coverage = .Mask3D)) }

/-- Where a pointer points after `j` pixels: the device pointer moves along its
row, a mask pointer by `stride` bytes for each pixel. -/
def Ptr.advance (p : Ptr) (j : Nat) (stride : Nat) : Ptr :=
  match p with
  | .device x y => .device (x + j) y
  | .mask addr => .mask (addr + j * stride)

/-- What the program of an evaluation sees at its pixel `j`: argument 0 is the
uniform block, argument `ix + 1` the datum behind the pointer `ix` of the call,
advanced by `j` pixels; `mem` is the memory, `stride` the size of a datum of
the mask. -/
def Eval.env (mem : Ptr → Nat) (stride : Nat) (e : Eval) (j : Nat) : Env :=
  { uniforms := e.uniforms
    extra := []
    arg := fun ix =>
      match ix with
      | 0 => 0
      | ix + 1 =>
        match e.args.get? ix with
        | some p => mem (p.advance j stride)
        | none => 0 }

/-- The spans that the claim on `blitAntiH` describes, for the run lengths `rs`:
span `i` has the length `rs[i]`, starts at `x` plus the lengths before it, on the
row `y`, and carries the coverage byte found that many entries into `cov`. -/
def Blitter.runSpans (b : Blitter) (x y : Int) (cov : Nat → Nat) (rs : List Nat) : List Eval :=
  (List.range rs.length).map fun i =>
    { program := b.fBlitAntiH
      n := (rs.getD i 0 : Nat)
      uniforms := { b.fUniforms with coverage := cov (rs.take i).sum }
      args := [.device (x + ((rs.take i).sum : Nat)) y] }

/-- A run array that holds the positive lengths `rs`, each found as many entries
after the one before as that one says, and then an entry that is not positive. -/
def Blitter.laidOut (runs : Nat → Int) : Nat → List Nat → Prop
  | i, [] => runs i ≤ 0
  | i, r :: rs => 0 < r ∧ runs i = (r : Int) ∧ Blitter.laidOut runs (i + r) rs

/-- A blit, as the clip engine asks for it: a span, a run-length span of
coverage, or a mask. -/
inductive Blit where
  | blitH (x y w : Int)
  | blitAntiH (x y : Int) (cov : Nat → Nat) (runs : Nat → Int)
  | blitMask (mask : SkMask) (clip : SkIRect)

/-- One blit on a blitter. -/
def Blitter.blit (generic : SkMask → SkIRect → List Call) (fuel : Nat) (s : BlitState) :
    Blit → Except Stop BlitState
  | .blitH x y w => .ok (Blitter.blitH s x y w)
  | .blitAntiH x y cov runs => Blitter.blitAntiH fuel s x y cov runs
  | .blitMask mask clip => Blitter.blitMask generic fuel s mask clip

/-- A sequence of blits on a blitter. -/
def Blitter.blits (generic : SkMask → SkIRect → List Call) (fuel : Nat) (s : BlitState) :
    List Blit → Except Stop BlitState
  | [] => .ok s
  | op :: ops =>
    match Blitter.blit generic fuel s op with
    | .error e => .error e
    | .ok s1 => Blitter.blits generic fuel s1 ops

/-- A colour whose four channels are bytes. -/
def Color.unorm8 (c : Color) : Prop := c.r ≤ 255 ∧ c.g ≤ 255 ∧ c.b ≤ 255 ∧ c.a ≤ 255

/-- A premultiplied colour: no colour channel exceeds the alpha. -/
def Color.premul (c : Color) : Prop := c.r ≤ c.a ∧ c.g ≤ c.a ∧ c.b ≤ c.a

/-- Exchange of bits 0-7 with bits 16-23 of a 32-bit pixel. -/
def swapRB (p : Nat) : Nat :=
  p / 2 ^ 16 % 2 ^ 8 + p / 2 ^ 8 % 2 ^ 8 * 2 ^ 8 + p % 2 ^ 8 * 2 ^ 16 + p / 2 ^ 24 % 2 ^ 8 * 2 ^ 24

/-- A key told from others by the colour space it refers to. -/
def keyOf (n : Nat) : Key := { premulKey .kSrcOver none with colorSpace := some ⟨n⟩ }

/-- A full program cache of eight entries, the keys `keyOf 0` (most recently
used) to `keyOf 7` (least recently used). -/
def fullCache : SkLRUCache :=
  { fMaxCount := 8, fLRU := (List.range 8).map fun n => (keyOf n, Builder.done (keyOf n)) }

/-- A generic blitter that draws a mask as one full-coverage span on the first
row of the clip. -/
def spanGeneric (_mask : SkMask) (clip : SkIRect) : List Call :=
  [.blitH clip.left clip.top clip.width]

/-- A run array with the two runs 2 and 3 and the terminating zero. -/
def twoRuns (j : Nat) : Int := if j = 0 then 2 else if j = 2 then 3 else 0

/-- A coverage array: 7 for the first run, 9 for the second. -/
def twoCoverages (j : Nat) : Nat := if j = 0 then 7 else if j = 2 then 9 else 0

/-- A blitter for a solid paint on the RGBA device, before its first blit, on a
thread without a program cache. -/
def freshState : BlitState :=
  { blitter := Blitter.ctor rgbaDevice (solidPaint .kSrcOver 0xff0000ff), cache := none,
    evals := [] }

/-- A mask of the given format whose planes of 64 bytes start at address 1000,
eight bytes to a row. -/
def maskOf (format : SkMask.Format) : SkMask :=
  { fFormat := format, getAddr := fun x y => 1000 + 8 * y + x, computeImageSize := 64 }

/-- A clip of two rows of three pixels, from (1, 2). -/
def smallClip : SkIRect := { fLeft := 1, fTop := 2, fRight := 4, fBottom := 4 }

/-! ## The raster clip: a region, an antialiased clip and the cached flags -/

/-- Modelled from the spec: `SkIRect::isEmpty` is declared outside the sources: no
pixel lies between the edges. -/
def SkIRect.isEmpty (r : SkIRect) : Bool := decide (r.fRight ≤ r.fLeft ∨ r.fBottom ≤ r.fTop)

/-- The pixels of a rectangle: left and top edge inclusive, right and bottom
edge exclusive. -/
def SkIRect.pixels (r : SkIRect) : Finset (Int × Int) :=
  Finset.Ico r.fLeft r.fRight ×ˢ Finset.Ico r.fTop r.fBottom

/-- The bounds of a set of pixels: the least rectangle that holds them, and the
empty rectangle at the origin for no pixel. -/
def pixelBounds (s : Finset (Int × Int)) : SkIRect :=
  if h : s.Nonempty then
    { fLeft := (s.image Prod.fst).min' (h.image _)
      fTop := (s.image Prod.snd).min' (h.image _)
      fRight := (s.image Prod.fst).max' (h.image _) + 1
      fBottom := (s.image Prod.snd).max' (h.image _) + 1 }
  else { fLeft := 0, fTop := 0, fRight := 0, fBottom := 0 }

/-- Modelled from the spec: `SkRegion` (include/core/SkRegion.h) is not among the
sources: a finite set of pixels.  The encoding in runs is not embedded, nor the
sentinel coordinate. -/
structure SkRegion where
  pixels : Finset (Int × Int)

/-- Modelled from the spec: `SkRegion::Op`, declared outside the sources. -/
inductive SkRegion.Op where
  | kDifference_Op
  | kIntersect_Op
  | kUnion_Op
  | kXOR_Op
  | kReverseDifference_Op
  | kReplace_Op
  deriving DecidableEq, Repr

/-- Modelled from the spec: `SkRegion::isEmpty`. -/
def SkRegion.isEmpty (rgn : SkRegion) : Bool := decide (rgn.pixels = ∅)

/-- Modelled from the spec: `SkRegion::getBounds`. -/
def SkRegion.getBounds (rgn : SkRegion) : SkIRect := pixelBounds rgn.pixels

/-- Modelled from the spec: `SkRegion::isRect`: the region is one non-empty
rectangle. -/
def SkRegion.isRect (rgn : SkRegion) : Bool :=
  !rgn.isEmpty && decide (rgn.pixels = rgn.getBounds.pixels)

/-- Modelled from the spec: `SkRegion::isComplex`: neither empty nor a
rectangle. -/
def SkRegion.isComplex (rgn : SkRegion) : Bool := !rgn.isEmpty && !rgn.isRect

/-- Modelled from the spec: `SkRegion::setEmpty`: the region after the call and
the returned flag. -/
def SkRegion.setEmpty (_rgn : SkRegion) : SkRegion × Bool := ({ pixels := ∅ }, false)

/-- Modelled from the spec: `SkRegion::setRect`: the region after the call and
the returned flag, true when the result is not empty. -/
def SkRegion.setRect (_rgn : SkRegion) (r : SkIRect) : SkRegion × Bool :=
  ({ pixels := r.pixels }, !r.isEmpty)

/-- The set operation an `SkRegion::Op` names, on the pixels of the region `a`
and of the operand `b`. -/
def SkRegion.Op.apply (op : SkRegion.Op) (a b : Finset (Int × Int)) : Finset (Int × Int) :=
  match op with
  | .kDifference_Op => a \ b
  | .kIntersect_Op => a ∩ b
  | .kUnion_Op => a ∪ b
  | .kXOR_Op => (a \ b) ∪ (b \ a)
  | .kReverseDifference_Op => b \ a
  | .kReplace_Op => b

/-- Modelled from the spec: `SkRegion::op(const SkIRect&, Op)`: the region after
the call and the returned flag, true when the result is not empty. -/
def SkRegion.op (rgn : SkRegion) (rect : SkIRect) (op : SkRegion.Op) : SkRegion × Bool :=
  ({ pixels := op.apply rgn.pixels rect.pixels },
   !decide (op.apply rgn.pixels rect.pixels = ∅))

/-- Modelled from the spec: `SkRegion::translate(dx, dy, dst)`: what `dst` holds
after the call. -/
def SkRegion.translate (rgn : SkRegion) (dx dy : Int) : SkRegion :=
  { pixels := rgn.pixels.image fun p => (p.1 + dx, p.2 + dy) }

/-- Modelled from the spec: `SkAAClip` (src/core/SkAAClip.h) is not among the
sources: the pixels it covers, and the coverage of each, from 1 to 255. -/
structure SkAAClip where
  pixels : Finset (Int × Int)
  alpha : Int × Int → Nat

/-- Modelled from the spec: `SkAAClip::isEmpty`. -/
def SkAAClip.isEmpty (aa : SkAAClip) : Bool := decide (aa.pixels = ∅)

/-- Modelled from the spec: `SkAAClip::getBounds`. -/
def SkAAClip.getBounds (aa : SkAAClip) : SkIRect := pixelBounds aa.pixels

/-- Modelled from the spec: `SkAAClip::isRect`: the clip is one non-empty
rectangle of full coverage. -/
def SkAAClip.isRect (aa : SkAAClip) : Bool :=
  !aa.isEmpty && decide (aa.pixels = aa.getBounds.pixels)
    && decide (∀ p ∈ aa.pixels, aa.alpha p = 255)

/-- Modelled from the spec: `SkAAClip::setEmpty`. -/
def SkAAClip.setEmpty (_aa : SkAAClip) : SkAAClip := { pixels := ∅, alpha := fun _ => 0 }

/-- Modelled from the spec: `SkAAClip::setRegion`: the pixels of the region, each
fully covered. -/
def SkAAClip.setRegion (_aa : SkAAClip) (rgn : SkRegion) : SkAAClip :=
  { pixels := rgn.pixels, alpha := fun _ => 255 }

/-- Modelled from the spec: `SkAAClip::translate(dx, dy, dst)`: what `dst` holds
after the call. -/
def SkAAClip.translate (aa : SkAAClip) (dx dy : Int) : SkAAClip :=
  { pixels := aa.pixels.image fun p => (p.1 + dx, p.2 + dy)
    alpha := fun p => aa.alpha (p.1 - dx, p.2 - dy) }

/-- Modelled from the spec: `SkRect` is declared outside the sources; its four
edges are of type `SkScalar`, a float, which is embedded as the rational number
it denotes: the arithmetic is exact, and there is neither NaN nor infinity. -/
structure SkRect where
  fLeft : ℚ
  fTop : ℚ
  fRight : ℚ
  fBottom : ℚ

/-- Modelled from the spec: `SkRect::roundOut`: left and top rounded down, right
and bottom rounded up. -/
def SkRect.roundOut (r : SkRect) : SkIRect :=
  { fLeft := ⌊r.fLeft⌋, fTop := ⌊r.fTop⌋, fRight := ⌈r.fRight⌉, fBottom := ⌈r.fBottom⌉ }

/-- Modelled from the spec: `SkRect::round`: each edge rounded to the nearest
integer, `SkScalarRoundToInt`, the floor of the edge plus one half. -/
def SkRect.round (r : SkRect) : SkIRect :=
  { fLeft := ⌊r.fLeft + 1 / 2⌋, fTop := ⌊r.fTop + 1 / 2⌋
    fRight := ⌊r.fRight + 1 / 2⌋, fBottom := ⌊r.fBottom + 1 / 2⌋ }

/-- Modelled from the spec: `SkMatrix` is declared outside the sources; what
`SkRasterClip::op` reads of a matrix. -/
structure SkMatrix where
  isScaleTranslate : Bool
  mapRect : SkRect → SkRect

/-- The fields of the class `SkRasterClip`, which SkRasterClip.h declares. -/
structure SkRasterClip where
  fBW : SkRegion
  fAA : SkAAClip
  fIsBW : Bool
  fIsEmpty : Bool
  fIsRect : Bool
  fShader : Option SkShader

/-- Modelled from the spec: `SkRasterClip::isBW`, defined in the header, outside
the sources. -/
def SkRasterClip.isBW (c : SkRasterClip) : Bool := c.fIsBW

/-- Modelled from the spec: `SkRasterClip::computeIsEmpty`, defined in the header,
outside the sources. -/
def SkRasterClip.computeIsEmpty (c : SkRasterClip) : Bool :=
  if c.fIsBW then c.fBW.isEmpty else c.fAA.isEmpty

/-- Modelled from the spec: `SkRasterClip::computeIsRect`, defined in the header,
outside the sources. -/
def SkRasterClip.computeIsRect (c : SkRasterClip) : Bool :=
  if c.fIsBW then c.fBW.isRect else c.fAA.isRect

/-- Modelled from the spec: `SkRasterClip::isEmpty`, defined in the header,
outside the sources: the cached flag. -/
def SkRasterClip.isEmpty (c : SkRasterClip) : Bool := c.fIsEmpty

/-- Modelled from the spec: `SkRasterClip::isRect`, defined in the header, outside
the sources: the cached flag. -/
def SkRasterClip.isRect (c : SkRasterClip) : Bool := c.fIsRect

/-- Modelled from the spec: `SkRasterClip::updateCacheAndReturnNonEmpty`, defined
in the header, outside the sources: the empty flag is computed; an antialiased
clip that is a rectangle of full coverage is turned back into a BW clip when
`detectAARect` is set; the rect flag is computed. -/
def SkRasterClip.updateCacheAndReturnNonEmpty (c : SkRasterClip) (detectAARect : Bool) :
    SkRasterClip × Bool :=
  let c : SkRasterClip := { c with fIsEmpty := c.computeIsEmpty }
  let c : SkRasterClip :=
    if detectAARect && !c.fIsEmpty && !c.fIsBW && c.fAA.isRect then
      { c with fBW := (c.fBW.setRect c.fAA.getBounds).1, fAA := c.fAA.setEmpty, fIsBW := true }
    else c
  let c : SkRasterClip := { c with fIsRect := c.computeIsRect }
  (c, !c.fIsEmpty)

/-- `SkRasterClip::validate`: the conjunction of what it asserts.
`SkRegionPriv::Validate` and `SkAAClip::validate` check the encodings of the
region and of the antialiased clip, which are not embedded. -/
def SkRasterClip.validate (c : SkRasterClip) : Bool :=
  (if c.fIsBW then c.fAA.isEmpty else true)
    && (c.computeIsEmpty == c.fIsEmpty)
    && (c.computeIsRect == c.fIsRect)

/-- The copy constructor `SkRasterClip::SkRasterClip(const SkRasterClip&)`; the
member that is not assigned is default-constructed, empty. -/
def SkRasterClip.ctorCopy (that : SkRasterClip) : SkRasterClip :=
  { fIsBW := that.fIsBW
    fIsEmpty := that.fIsEmpty
    fIsRect := that.fIsRect
    fShader := that.fShader
    fBW := if that.fIsBW then that.fBW else { pixels := ∅ }
    fAA := if that.fIsBW then { pixels := ∅, alpha := fun _ => 0 } else that.fAA }

/-- `SkRasterClip::operator=`: the clip assigned to, after the assignment. -/
def SkRasterClip.assign (c that : SkRasterClip) : SkRasterClip :=
  let c : SkRasterClip := { c with fIsBW := that.fIsBW }
  let c : SkRasterClip := if c.fIsBW then { c with fBW := that.fBW } else { c with fAA := that.fAA }
  { c with fIsEmpty := that.isEmpty, fIsRect := that.isRect, fShader := that.fShader }

/-- The constructor `SkRasterClip::SkRasterClip(const SkRegion&)`. -/
def SkRasterClip.ctorRegion (rgn : SkRegion) : SkRasterClip :=
  let c : SkRasterClip :=
    { fBW := rgn, fAA := { pixels := ∅, alpha := fun _ => 0 }, fIsBW := true, fIsEmpty := false,
      fIsRect := false, fShader := none }
  let c : SkRasterClip := { c with fIsEmpty := c.computeIsEmpty }
  { c with fIsRect := !c.fIsEmpty }

/-- The constructor `SkRasterClip::SkRasterClip(const SkIRect&)`; `SkRegion(bounds)`
is the region `setRect(bounds)` leaves. -/
def SkRasterClip.ctorRect (bounds : SkIRect) : SkRasterClip :=
  let c : SkRasterClip :=
    { fBW := { pixels := bounds.pixels }, fAA := { pixels := ∅, alpha := fun _ => 0 },
      fIsBW := true, fIsEmpty := false, fIsRect := false, fShader := none }
  let c : SkRasterClip := { c with fIsEmpty := c.computeIsEmpty }
  { c with fIsRect := !c.fIsEmpty }

/-- The default constructor `SkRasterClip::SkRasterClip()`. -/
def SkRasterClip.ctor : SkRasterClip :=
  { fBW := { pixels := ∅ }, fAA := { pixels := ∅, alpha := fun _ => 0 }, fIsBW := true,
    fIsEmpty := true, fIsRect := false, fShader := none }

/-- `SkRasterClip::isComplex`. -/
def SkRasterClip.isComplex (c : SkRasterClip) : Bool :=
  if c.fIsBW then c.fBW.isComplex else !c.fAA.isEmpty

/-- `SkRasterClip::getBounds`. -/
def SkRasterClip.getBounds (c : SkRasterClip) : SkIRect :=
  if c.fIsBW then c.fBW.getBounds else c.fAA.getBounds

/-- `SkRasterClip::setEmpty`: the clip after the call and the returned flag. -/
def SkRasterClip.setEmpty (c : SkRasterClip) : SkRasterClip × Bool :=
  ({ c with fIsBW := true, fBW := c.fBW.setEmpty.1, fAA := c.fAA.setEmpty, fIsEmpty := true,
            fIsRect := false }, false)

/-- `SkRasterClip::setRect`: the clip after the call and the returned flag. -/
def SkRasterClip.setRect (c : SkRasterClip) (rect : SkIRect) : SkRasterClip × Bool :=
  let c : SkRasterClip := { c with fIsBW := true, fAA := c.fAA.setEmpty }
  let r := c.fBW.setRect rect
  let c : SkRasterClip := { c with fBW := r.1, fIsRect := r.2 }
  ({ c with fIsEmpty := !c.fIsRect }, c.fIsRect)

/-- `SkRasterClip::setConservativeRect`: the clip after the call and the returned
flag. -/
def SkRasterClip.setConservativeRect (c : SkRasterClip) (r : SkRect) (clipR : SkIRect)
    (isInverse : Bool) : SkRasterClip × Bool :=
  let op : SkRegion.Op := if isInverse then .kDifference_Op else .kIntersect_Op
  let c : SkRasterClip := { c with fBW := (c.fBW.setRect clipR).1 }
  let c : SkRasterClip := { c with fBW := (c.fBW.op r.roundOut op).1 }
  c.updateCacheAndReturnNonEmpty true

/-- `SkRasterClip::convertToAA`, without its `SkASSERT(fIsBW)`. -/
def SkRasterClip.convertToAA (c : SkRasterClip) : SkRasterClip :=
  let c : SkRasterClip := { c with fAA := c.fAA.setRegion c.fBW }
  let c : SkRasterClip := { c with fIsBW := false }
  (c.updateCacheAndReturnNonEmpty false).1

/-- `SkRasterClip::translate(dx, dy, dst)`: what `dst` points to after the call;
`none` is the null pointer. -/
def SkRasterClip.translate (c : SkRasterClip) (dx dy : Int) (dst : Option SkRasterClip) :
    Option SkRasterClip :=
  match dst with
  | none => none
  | some dst =>
    if c.isEmpty then some dst.setEmpty.1
    else if 0 = Int.lor dx dy then some (dst.assign c)
    else
      let dst : SkRasterClip := { dst with fIsBW := c.fIsBW }
      let dst : SkRasterClip :=
        if c.fIsBW then { dst with fBW := c.fBW.translate dx dy, fAA := dst.fAA.setEmpty }
        else { dst with fAA := c.fAA.translate dx dy, fBW := dst.fBW.setEmpty.1 }
      some (dst.updateCacheAndReturnNonEmpty true).1

/-- The static function `nearly_integral`, over the rationals. -/
def nearly_integral (x : ℚ) : Bool :=
  let domain : ℚ := 1 / 4
  let halfDomain : ℚ := domain / 2
  let x := x + halfDomain
  decide (x - (⌊x⌋ : ℚ) < domain)

/-- `SkRasterClip::op(const SkRect&, const SkMatrix&, const SkIRect&, SkRegion::Op,
bool)`: the clip after the call and the returned flag.  `opPath` stands for the
overload that takes a path, to which a matrix that is not scale-translate sends
the rectangle, and `aaOp` for `SkAAClip::op(const SkRect&, SkRegion::Op, bool)`;
the scan conversion behind both is outside the sources. -/
def SkRasterClip.op
    (opPath : SkRasterClip → SkRect → SkMatrix → SkIRect → SkRegion.Op → Bool →
      SkRasterClip × Bool)
    (aaOp : SkAAClip → SkRect → SkRegion.Op → Bool → SkAAClip)
    (c : SkRasterClip) (localRect : SkRect) (matrix : SkMatrix) (devBounds : SkIRect)
    (op : SkRegion.Op) (doAA : Bool) : SkRasterClip × Bool :=
  let isScaleTrans := matrix.isScaleTranslate
  if !isScaleTrans then opPath c localRect matrix devBounds op doAA
  else
    let devRect := matrix.mapRect localRect
    let doAA : Bool :=
      if c.fIsBW && doAA then
        if nearly_integral devRect.fLeft && nearly_integral devRect.fTop
            && nearly_integral devRect.fRight && nearly_integral devRect.fBottom then false
        else doAA
      else doAA
    if c.fIsBW && !doAA then
      let ir := devRect.round
      let c : SkRasterClip := { c with fBW := (c.fBW.op ir op).1 }
      c.updateCacheAndReturnNonEmpty true
    else
      let c : SkRasterClip := if c.fIsBW then c.convertToAA else c
      let c : SkRasterClip := { c with fAA := aaOp c.fAA devRect op doAA }
      c.updateCacheAndReturnNonEmpty true

/-- A region of two rectangles on one row: the pixels (0,0), (1,0) and (5,0). -/
def twoRects : SkRegion :=
  { pixels := (SkIRect.mk 0 0 2 1).pixels ∪ (SkIRect.mk 5 0 6 1).pixels }

/-- An antialiased clip of one pixel, half covered. -/
def halfPixel : SkAAClip := { pixels := {(0, 0)}, alpha := fun _ => 128 }

/-- A clip in the antialiased state, as `setPath` with antialiasing leaves a
default-constructed clip: it holds `halfPixel`. -/
def aaClip : SkRasterClip :=
  { fBW := { pixels := ∅ }, fAA := halfPixel, fIsBW := false, fIsEmpty := false,
    fIsRect := false, fShader := none }

/-- The identity matrix. -/
def identityMatrix : SkMatrix := { isScaleTranslate := true, mapRect := fun r => r }

/-! ## Arithmetic reading of the lane operations -/

namespace skvm

theorem lor_shifted (x y k : Nat) (hx : x < 2 ^ k) : x ||| y * 2 ^ k = x + y * 2 ^ k := by
  rw [Nat.lor_comm, Nat.mul_comm, ← Nat.mul_add_lt_is_or hx y, Nat.add_comm]

theorem land_ff (x : Nat) : x &&& 255 = x % 256 := Nat.and_pow_two_sub_one_eq_mod x 8

theorem land_1f (x : Nat) : x &&& 31 = x % 32 := Nat.and_pow_two_sub_one_eq_mod x 5

theorem land_3f (x : Nat) : x &&& 63 = x % 64 := Nat.and_pow_two_sub_one_eq_mod x 6

end skvm

namespace Builder
open skvm

theorem div255_eq_of_le (v : Nat) (h : v ≤ 65025) : div255 v = (v + 127) / 255 := by
  simp only [div255, add, shr, splat, Nat.shiftRight_eq_div_pow]
  have e1 : (v + 128 % 2 ^ 32) % 2 ^ 32 = v + 128 := by omega
  have e2 : (v + 128) % 2 ^ 32 = v + 128 := by omega
  have e3 : (v + 128 + (v + 128) / 2 ^ 8) % 2 ^ 32 = v + 128 + (v + 128) / 2 ^ 8 := by omega
  rw [e1, e2, e3, e3]
  omega

theorem scale_unorm8_eq (x y : Nat) (hx : x ≤ 255) (hy : y ≤ 255) :
    scale_unorm8 x y = (x * y + 127) / 255 := by
  have h : x * y ≤ 65025 := Nat.mul_le_mul hx hy
  have e : mul x y = x * y := by
    simp only [mul]
    omega
  rw [scale_unorm8, e, div255_eq_of_le _ h]

theorem extract_ff (x s : Nat) : extract x s (splat 0xff) = (x % 2 ^ 32) / 2 ^ s % 256 := by
  simp only [extract, bit_and, shr, splat, Nat.shiftRight_eq_div_pow]
  have : (255 : Nat) % 2 ^ 32 = 255 := by norm_num
  rw [this, land_ff]
  omega

theorem extract_1f (x s : Nat) : extract x s (splat 0b011111) = (x % 2 ^ 32) / 2 ^ s % 32 := by
  simp only [extract, bit_and, shr, splat, Nat.shiftRight_eq_div_pow]
  have : (31 : Nat) % 2 ^ 32 = 31 := by norm_num
  rw [this, land_1f]
  omega

theorem extract_3f (x s : Nat) : extract x s (splat 0b111111) = (x % 2 ^ 32) / 2 ^ s % 64 := by
  simp only [extract, bit_and, shr, splat, Nat.shiftRight_eq_div_pow]
  have : (63 : Nat) % 2 ^ 32 = 63 := by norm_num
  rw [this, land_3f]
  omega

theorem unpack_8888_eq (p : Nat) :
    unpack_8888 p
      = ⟨p % 256, p % 2 ^ 32 / 2 ^ 8 % 256, p % 2 ^ 32 / 2 ^ 16 % 256, p % 2 ^ 32 / 2 ^ 24⟩ := by
  simp only [unpack_8888, extract_ff]
  congr 1 <;> omega

theorem pack_8888_eq (c : Color) (hr : c.r ≤ 255) (hg : c.g ≤ 255) (hb : c.b ≤ 255)
    (ha : c.a ≤ 255) : pack_8888 c = c.r + c.g * 2 ^ 8 + c.b * 2 ^ 16 + c.a * 2 ^ 24 := by
  simp only [pack_8888, pack, bit_or, shl, Nat.shiftLeft_eq]
  have e1 : c.g * 2 ^ 8 % 2 ^ 32 = c.g * 2 ^ 8 := by omega
  have e2 : c.a * 2 ^ 8 % 2 ^ 32 = c.a * 2 ^ 8 := by omega
  rw [e1, e2, lor_shifted c.r c.g 8 (by omega), lor_shifted c.b c.a 8 (by omega)]
  have e3 : (c.r + c.g * 2 ^ 8) % 2 ^ 32 = c.r + c.g * 2 ^ 8 := by omega
  have e4 : (c.b + c.a * 2 ^ 8) % 2 ^ 32 = c.b + c.a * 2 ^ 8 := by omega
  have e5 : (c.b + c.a * 2 ^ 8) * 2 ^ 16 % 2 ^ 32 = (c.b + c.a * 2 ^ 8) * 2 ^ 16 := by omega
  rw [e3, e4, e5, lor_shifted _ _ 16 (by omega)]
  omega

/-- Widening a 5-bit field: `(x << 3) | (x >> 2)`. -/
theorem widen5 (x : Nat) (hx : x < 32) : bit_or (shl x 3) (shr x 2) = x * 8 + x / 4 := by
  simp only [bit_or, shl, shr, Nat.shiftLeft_eq, Nat.shiftRight_eq_div_pow]
  have e1 : x * 2 ^ 3 % 2 ^ 32 = x * 2 ^ 3 := by omega
  have e2 : x % 2 ^ 32 / 2 ^ 2 = x / 4 := by omega
  rw [e1, e2, Nat.lor_comm, lor_shifted _ _ 3 (by omega)]
  omega

/-- Widening a 6-bit field: `(x << 2) | (x >> 4)`. -/
theorem widen6 (x : Nat) (hx : x < 64) : bit_or (shl x 2) (shr x 4) = x * 4 + x / 16 := by
  simp only [bit_or, shl, shr, Nat.shiftLeft_eq, Nat.shiftRight_eq_div_pow]
  have e1 : x * 2 ^ 2 % 2 ^ 32 = x * 2 ^ 2 := by omega
  have e2 : x % 2 ^ 32 / 2 ^ 4 = x / 16 := by omega
  rw [e1, e2, Nat.lor_comm, lor_shifted _ _ 2 (by omega)]
  omega

theorem unpack_565_eq (p : Nat) :
    unpack_565 p
      = ⟨(p % 2 ^ 32 / 2 ^ 11 % 32) * 8 + (p % 2 ^ 32 / 2 ^ 11 % 32) / 4,
         (p % 2 ^ 32 / 2 ^ 5 % 64) * 4 + (p % 2 ^ 32 / 2 ^ 5 % 64) / 16,
         (p % 32) * 8 + (p % 32) / 4, 255⟩ := by
  simp only [unpack_565, extract_1f, extract_3f]
  rw [widen5 _ (Nat.mod_lt _ (by norm_num)), widen6 _ (Nat.mod_lt _ (by norm_num)),
    widen5 _ (Nat.mod_lt _ (by norm_num))]
  have e : p % 2 ^ 32 / 2 ^ 0 % 32 = p % 32 := by omega
  rw [e]
  rfl

theorem pack_565_eq (c : Color) (hr : c.r ≤ 255) (hg : c.g ≤ 255) (hb : c.b ≤ 255) :
    pack_565 c
      = (c.b * 31 + 127) / 255 + (c.g * 63 + 127) / 255 * 2 ^ 5 + (c.r * 31 + 127) / 255 * 2 ^ 11 := by
  have s31 : splat 31 = 31 := by decide
  have s63 : splat 63 = 63 := by decide
  simp only [pack_565, s31, s63]
  rw [scale_unorm8_eq _ _ hr (by norm_num), scale_unorm8_eq _ _ hg (by norm_num),
    scale_unorm8_eq _ _ hb (by norm_num)]
  simp only [pack, bit_or, shl, Nat.shiftLeft_eq]
  have e1 : (c.g * 63 + 127) / 255 * 2 ^ 5 % 2 ^ 32 = (c.g * 63 + 127) / 255 * 2 ^ 5 := by omega
  have e2 : (c.r * 31 + 127) / 255 * 2 ^ 11 % 2 ^ 32 = (c.r * 31 + 127) / 255 * 2 ^ 11 := by omega
  rw [e1, e2, lor_shifted _ _ 5 (by omega)]
  have e3 : ((c.b * 31 + 127) / 255 + (c.g * 63 + 127) / 255 * 2 ^ 5) % 2 ^ 32
      = (c.b * 31 + 127) / 255 + (c.g * 63 + 127) / 255 * 2 ^ 5 := by omega
  rw [e3, lor_shifted _ _ 11 (by omega)]
  omega

end Builder

/-! ## The constructor, stage by stage -/

namespace Builder
open skvm

/-- What an accepted key looks like. -/
theorem CanBuild_true (key : Key) (h : CanBuild key = true) :
    (∀ sh, key.shader = some sh → (sh.program none key.colorSpace 0 0 ⟨0, 0, 0, 0⟩).1 = true)
      ∧ key.colorFilter = none
      ∧ (key.colorType = .kRGB_565_SkColorType ∨ key.colorType = .kRGBA_8888_SkColorType
          ∨ key.colorType = .kBGRA_8888_SkColorType)
      ∧ key.alphaType ≠ .kUnpremul_SkAlphaType
      ∧ (key.blendMode = .kSrc ∨ key.blendMode = .kSrcOver) := by
  obtain ⟨ct, alpha, cov, bm, cs, sh, cf⟩ := key
  revert h
  cases sh <;> cases cf <;> cases ct <;> cases alpha <;> cases bm <;> simp [CanBuild]

/-- The stages of the constructor, chained: when every stage yields a value, the
constructor stores what `storeDst` packs. -/
theorem Builder_eq_of_stages (shouldPreScale : SkBlendMode → Bool → Bool) (key : Key) (env : Env)
    (src src1 src2 src3 dst : Color) (n : Nat) (lp : Bool)
    (h : CanBuild key = true)
    (h1 : shade key env 0 (unpack_8888 (uniform32 env.uniforms.paint_color)) = .ok src)
    (h2 : preScaleCoverage shouldPreScale key env (mask3D key env 2 src).2 (mask3D key env 2 src).1
            = .ok (src1, n, lp))
    (h3 : loadDst key env 1 = .ok dst)
    (h4 : blend key src1
            (if (true && decide (key.alphaType = .kOpaque_SkAlphaType)) = true
              then { dst with a := splat 0xff } else dst) = .ok src2)
    (h5 : lerpCoverage key env n lp src2
            (if (true && decide (key.alphaType = .kOpaque_SkAlphaType)) = true
              then { dst with a := splat 0xff } else dst) = .ok src3) :
    Builder shouldPreScale key env
      = storeDst key (if (true && decide (key.alphaType = .kOpaque_SkAlphaType)) = true
                        then { src3 with a := splat 0xff } else src3) := by
  obtain ⟨-, hcf, -, hat, -⟩ := CanBuild_true key h
  simp only [Builder, h, arg, h1, hcf, h2, h3, h4, h5]
  simp [hat]

theorem Builder_of_shade_error (shouldPreScale : SkBlendMode → Bool → Bool) (key : Key)
    (env : Env) (e : Trap) (h : CanBuild key = true)
    (h1 : shade key env 0 (unpack_8888 (uniform32 env.uniforms.paint_color)) = .error e) :
    Builder shouldPreScale key env = .error e := by
  simp only [Builder, h, arg, h1]
  simp

theorem Builder_of_preScale_error (shouldPreScale : SkBlendMode → Bool → Bool) (key : Key)
    (env : Env) (src : Color) (e : Trap) (h : CanBuild key = true)
    (h1 : shade key env 0 (unpack_8888 (uniform32 env.uniforms.paint_color)) = .ok src)
    (h2 : preScaleCoverage shouldPreScale key env (mask3D key env 2 src).2 (mask3D key env 2 src).1
            = .error e) :
    Builder shouldPreScale key env = .error e := by
  obtain ⟨-, hcf, -, -, -⟩ := CanBuild_true key h
  simp only [Builder, h, arg, h1, hcf, h2]
  simp

theorem shade_cases (key : Key) (env : Env) (u : Nat) (p : Color) :
    (∃ s, shade key env u p = .ok s)
      ∨ (shade key env u p = .error .assertShaderProgram
          ∧ ∃ sh, key.shader = some sh
              ∧ (sh.program (some env) key.colorSpace u sizeof_Uniforms p).1 = false) := by
  unfold shade
  rcases hsh : key.shader with _ | sh
  · exact Or.inl ⟨p, rfl⟩
  · cases hp : (sh.program (some env) key.colorSpace u sizeof_Uniforms p).1
    · right
      simp [hp]
    · left
      simp [hp]

theorem load_coverage_loaded (key : Key) (env : Env) (n : Nat) (src dst : Color) :
    ∃ r, load_coverage key env n src (some dst) = .ok r := by
  unfold load_coverage
  cases key.coverage <;> simp

theorem preScaleCoverage_cases (shouldPreScale : SkBlendMode → Bool → Bool) (key : Key)
    (env : Env) (n : Nat) (src : Color) :
    (∃ r, preScaleCoverage shouldPreScale key env n src = .ok r)
      ∨ (preScaleCoverage shouldPreScale key env n src = .error .assertDstLoaded
          ∧ key.coverage = .MaskLCD16 ∧ shouldPreScale key.blendMode true = true) := by
  unfold preScaleCoverage load_coverage
  cases hc : key.coverage <;> cases hP : shouldPreScale key.blendMode _ <;> simp_all

theorem loadDst_ok (key : Key) (env : Env) (p : Nat)
    (hct : key.colorType = .kRGB_565_SkColorType ∨ key.colorType = .kRGBA_8888_SkColorType
          ∨ key.colorType = .kBGRA_8888_SkColorType) :
    ∃ d, loadDst key env p = .ok d := by
  unfold loadDst
  rcases hct with h | h | h <;> rw [h] <;> exact ⟨_, rfl⟩

theorem blend_ok (key : Key) (src dst : Color)
    (hbm : key.blendMode = .kSrc ∨ key.blendMode = .kSrcOver) :
    ∃ s, blend key src dst = .ok s := by
  unfold blend
  rcases hbm with h | h <;> rw [h] <;> exact ⟨_, rfl⟩

theorem lerpCoverage_ok (key : Key) (env : Env) (n : Nat) (lp : Bool) (src dst : Color) :
    ∃ s, lerpCoverage key env n lp src dst = .ok s := by
  unfold lerpCoverage
  cases lp
  · exact ⟨src, by simp⟩
  · obtain ⟨⟨cov, m⟩, hr⟩ := load_coverage_loaded key env n src dst
    rw [hr]
    cases cov <;> simp

theorem storeDst_ok (key : Key) (src : Color)
    (hct : key.colorType = .kRGB_565_SkColorType ∨ key.colorType = .kRGBA_8888_SkColorType
          ∨ key.colorType = .kBGRA_8888_SkColorType) :
    ∃ px, storeDst key src = .ok px := by
  unfold storeDst
  rcases hct with h | h | h <;> rw [h] <;> exact ⟨_, rfl⟩

/-- An accepted key either yields a stored pixel, or stops at one of the two
assertions on what lies outside the constructor. -/
theorem Builder_cases (shouldPreScale : SkBlendMode → Bool → Bool) (key : Key) (env : Env)
    (h : CanBuild key = true) :
    (∃ px, Builder shouldPreScale key env = .ok px)
      ∨ (Builder shouldPreScale key env = .error .assertShaderProgram
          ∧ ∃ sh, key.shader = some sh
              ∧ (sh.program (some env) key.colorSpace 0 sizeof_Uniforms
                  (unpack_8888 (uniform32 env.uniforms.paint_color))).1 = false)
      ∨ (Builder shouldPreScale key env = .error .assertDstLoaded
          ∧ key.coverage = .MaskLCD16 ∧ shouldPreScale key.blendMode true = true) := by
  obtain ⟨-, -, hct, -, hbm⟩ := CanBuild_true key h
  rcases shade_cases key env 0 (unpack_8888 (uniform32 env.uniforms.paint_color)) with
    ⟨src, h1⟩ | ⟨h1, hsh⟩
  · rcases preScaleCoverage_cases shouldPreScale key env (mask3D key env 2 src).2
        (mask3D key env 2 src).1 with ⟨⟨src1, n, lp⟩, h2⟩ | ⟨h2, hl⟩
    · obtain ⟨dst, h3⟩ := loadDst_ok key env 1 hct
      obtain ⟨src2, h4⟩ := blend_ok key src1
        (if (true && decide (key.alphaType = .kOpaque_SkAlphaType)) = true
              then { dst with a := splat 0xff } else dst) hbm
      obtain ⟨src3, h5⟩ := lerpCoverage_ok key env n lp src2
        (if (true && decide (key.alphaType = .kOpaque_SkAlphaType)) = true
              then { dst with a := splat 0xff } else dst)
      left
      rw [Builder_eq_of_stages shouldPreScale key env src src1 src2 src3 dst n lp h h1 h2 h3 h4 h5]
      exact storeDst_ok key _ hct
    · right; right
      exact ⟨Builder_of_preScale_error shouldPreScale key env src _ h h1 h2, hl⟩
  · right; left
    exact ⟨Builder_of_shade_error shouldPreScale key env _ h h1, hsh⟩

/-- With coverage `Full` no coverage is loaded, before or after the blend. -/
theorem Builder_Full (shouldPreScale : SkBlendMode → Bool → Bool) (key : Key) (env : Env)
    (src src2 dst : Color) (h : CanBuild key = true) (hcov : key.coverage = .Full)
    (h1 : shade key env 0 (unpack_8888 (uniform32 env.uniforms.paint_color)) = .ok src)
    (h3 : loadDst key env 1 = .ok dst)
    (h4 : blend key src
            (if (true && decide (key.alphaType = .kOpaque_SkAlphaType)) = true
              then { dst with a := splat 0xff } else dst) = .ok src2) :
    Builder shouldPreScale key env
      = storeDst key (if (true && decide (key.alphaType = .kOpaque_SkAlphaType)) = true
                        then { src2 with a := splat 0xff } else src2) := by
  have hm : mask3D key env 2 src = (src, 2) := by simp [mask3D, hcov]
  cases hP : shouldPreScale key.blendMode false
  · refine Builder_eq_of_stages shouldPreScale key env src src src2 src2 dst 2 true h h1 ?_ h3 h4 ?_
    · simp [preScaleCoverage, hP, hm, hcov]
    · simp [lerpCoverage, load_coverage, hcov]
  · refine Builder_eq_of_stages shouldPreScale key env src src src2 src2 dst 2 false h h1 ?_ h3 h4 ?_
    · simp [preScaleCoverage, hP, hm, load_coverage, hcov]
    · simp [lerpCoverage]

theorem blend_SrcOver_opaque_source (key : Key) (src dst : Color)
    (hbm : key.blendMode = .kSrcOver) (ha : src.a = 255)
    (hr : src.r ≤ 255) (hg : src.g ≤ 255) (hb : src.b ≤ 255) :
    blend key src dst = .ok src := by
  have e0 : sub (splat 255) 255 = 0 := by decide
  have e1 : ∀ d, scale_unorm8 d 0 = 0 := by
    intro d
    have : mul d 0 = 0 := by simp [mul]
    rw [scale_unorm8, this]
    decide
  have e2 : ∀ x, x ≤ 255 → add x 0 = x := by
    intro x hx
    simp only [add]
    omega
  obtain ⟨r, g, b, a⟩ := src
  simp only at ha hr hg hb
  subst ha
  simp only [blend, hbm, e0, e1, e2 r hr, e2 g hg, e2 b hb, e2 255 (le_refl _)]

theorem blend_SrcOver_transparent_source (key : Key) (dst : Color)
    (hbm : key.blendMode = .kSrcOver)
    (hr : dst.r ≤ 255) (hg : dst.g ≤ 255) (hb : dst.b ≤ 255) (ha : dst.a ≤ 255) :
    blend key ⟨0, 0, 0, 0⟩ dst = .ok dst := by
  have e0 : sub (splat 255) 0 = 255 := by decide
  have e1 : ∀ d, d ≤ 255 → add 0 (scale_unorm8 d 255) = d := by
    intro d hd
    rw [scale_unorm8_eq d 255 hd (le_refl _)]
    simp only [add]
    omega
  simp only [blend, hbm, e0, e1 _ hr, e1 _ hg, e1 _ hb, e1 _ ha]

theorem blend_Src (key : Key) (src dst : Color) (hbm : key.blendMode = .kSrc) :
    blend key src dst = .ok src := by
  simp only [blend, hbm]

theorem narrow5_widen5 (x : Nat) (hx : x < 32) : ((x * 8 + x / 4) * 31 + 127) / 255 = x := by
  omega

theorem narrow6_widen6 (x : Nat) (hx : x < 64) : ((x * 4 + x / 16) * 63 + 127) / 255 = x := by
  omega

theorem pack_565_unpack_565 (p : Nat) (hp : p < 65536) : pack_565 (unpack_565 p) = p := by
  rw [unpack_565_eq, pack_565_eq _ (by dsimp only; omega) (by dsimp only; omega)
      (by dsimp only; omega)]
  dsimp only
  rw [narrow5_widen5 _ (Nat.mod_lt _ (by norm_num)), narrow6_widen6 _ (Nat.mod_lt _ (by norm_num)),
    narrow5_widen5 _ (Nat.mod_lt _ (by norm_num))]
  omega

theorem pack_8888_unpack_8888 (p : Nat) (hp : p < 2 ^ 32) : pack_8888 (unpack_8888 p) = p := by
  rw [unpack_8888_eq, pack_8888_eq _ (by dsimp only; omega) (by dsimp only; omega)
    (by dsimp only; omega) (by dsimp only; omega)]
  dsimp only
  omega

theorem pack_8888_lor (c : Color) (hr : c.r ≤ 255) (hg : c.g ≤ 255) (hb : c.b ≤ 255)
    (ha : c.a ≤ 255) :
    store32 (pack_8888 c) = c.r ||| c.g <<< 8 ||| c.b <<< 16 ||| c.a <<< 24 := by
  rw [pack_8888_eq c hr hg hb ha]
  simp only [store32, Nat.shiftLeft_eq]
  rw [lor_shifted c.r c.g 8 (by omega), lor_shifted _ c.b 16 (by omega),
    lor_shifted _ c.a 24 (by omega)]
  omega

/-- The destination colour has 8-bit channels. -/
theorem loadDst_le (key : Key) (env : Env) (p : Nat) (dst : Color)
    (h3 : loadDst key env p = .ok dst) :
    dst.r ≤ 255 ∧ dst.g ≤ 255 ∧ dst.b ≤ 255 ∧ dst.a ≤ 255 := by
  unfold loadDst at h3
  cases hct : key.colorType <;> rw [hct] at h3 <;> simp only [reduceCtorEq] at h3
  · have := Except.ok.inj h3
    subst this
    rw [unpack_565_eq]
    dsimp only
    omega
  · have := Except.ok.inj h3
    subst this
    rw [unpack_8888_eq]
    dsimp only [load32]
    omega
  · have := Except.ok.inj h3
    subst this
    rw [unpack_8888_eq]
    dsimp only [load32]
    omega

/-- Packing the destination colour as it was loaded stores the bits that were
loaded. -/
theorem storeDst_loadDst (key : Key) (env : Env) (p : Nat) (dst : Color)
    (h3 : loadDst key env p = .ok dst) :
    storeDst key dst
      = .ok (if key.colorType = .kRGB_565_SkColorType then load16 (env.arg p)
             else load32 (env.arg p)) := by
  unfold loadDst at h3
  unfold storeDst
  cases hct : key.colorType <;> rw [hct] at h3 <;> simp only [reduceCtorEq] at h3
  · have := Except.ok.inj h3
    subst this
    have hl : load16 (env.arg p) < 65536 := Nat.mod_lt _ (by norm_num)
    simp only [if_true, pack_565_unpack_565 _ hl, store16]
    rw [Nat.mod_eq_of_lt (by simpa using hl)]
  · have := Except.ok.inj h3
    subst this
    have hl : load32 (env.arg p) < 2 ^ 32 := Nat.mod_lt _ (by norm_num)
    simp only [reduceCtorEq, if_false, pack_8888_unpack_8888 _ hl, store32]
    rw [Nat.mod_eq_of_lt hl]
  · have := Except.ok.inj h3
    subst this
    have hl : load32 (env.arg p) < 2 ^ 32 := Nat.mod_lt _ (by norm_num)
    simp only [reduceCtorEq, if_false, store32]
    have e : ({ r := (unpack_8888 (load32 (env.arg p))).r, g := (unpack_8888 (load32 (env.arg p))).g,
                b := (unpack_8888 (load32 (env.arg p))).b, a := (unpack_8888 (load32 (env.arg p))).a }
              : Color) = unpack_8888 (load32 (env.arg p)) := rfl
    rw [e, pack_8888_unpack_8888 _ hl, Nat.mod_eq_of_lt hl]

/-- The colour recovered from a packed 565 pixel, in terms of the three rounded
fields. -/
theorem unpack_565_pack_565 (c : Color) (hr : c.r ≤ 255) (hg : c.g ≤ 255) (hb : c.b ≤ 255) :
    unpack_565 (pack_565 c)
      = ⟨(c.r * 31 + 127) / 255 * 8 + (c.r * 31 + 127) / 255 / 4,
         (c.g * 63 + 127) / 255 * 4 + (c.g * 63 + 127) / 255 / 16,
         (c.b * 31 + 127) / 255 * 8 + (c.b * 31 + 127) / 255 / 4, 255⟩ := by
  rw [pack_565_eq c hr hg hb, unpack_565_eq]
  have hR : (c.r * 31 + 127) / 255 ≤ 31 := by omega
  have hG : (c.g * 63 + 127) / 255 ≤ 63 := by omega
  have hB : (c.b * 31 + 127) / 255 ≤ 31 := by omega
  generalize (c.r * 31 + 127) / 255 = R at hR
  generalize (c.g * 63 + 127) / 255 = G at hG
  generalize (c.b * 31 + 127) / 255 = B at hB
  have e1 : (B + G * 2 ^ 5 + R * 2 ^ 11) % 2 ^ 32 / 2 ^ 11 % 32 = R := by omega
  have e2 : (B + G * 2 ^ 5 + R * 2 ^ 11) % 2 ^ 32 / 2 ^ 5 % 64 = G := by omega
  have e3 : (B + G * 2 ^ 5 + R * 2 ^ 11) % 32 = B := by omega
  rw [e1, e2, e3]

theorem sub_255 (y : Nat) (hy : y ≤ 255) : sub (splat 255) y = 255 - y := by
  simp only [sub, splat]
  omega

theorem add_eq (x y : Nat) (h : x + y < 2 ^ 32) : add x y = x + y := by
  simp only [add]
  exact Nat.mod_eq_of_lt h

theorem scale_unorm8_le (x y : Nat) (hx : x ≤ 255) (hy : y ≤ 255) : scale_unorm8 x y ≤ y := by
  rw [scale_unorm8_eq x y hx hy]
  have h : x * y ≤ 255 * y := Nat.mul_le_mul_right y hx
  generalize x * y = p at h
  omega

theorem lerp_unorm8_eq (x y t : Nat) (hx : x ≤ 255) (hy : y ≤ 255) (ht : t ≤ 255) :
    lerp_unorm8 x y t = (x * (255 - t) + y * t + 127) / 255 := by
  have h1 : x * (255 - t) ≤ 255 * (255 - t) := Nat.mul_le_mul_right _ hx
  have h2 : y * t ≤ 255 * t := Nat.mul_le_mul_right _ hy
  have e1 : mul x (255 - t) = x * (255 - t) := by
    simp only [mul]
    generalize x * (255 - t) = p at h1
    omega
  have e2 : mul y t = y * t := by
    simp only [mul]
    generalize y * t = p at h2
    omega
  have e3 : add (x * (255 - t)) (y * t) = x * (255 - t) + y * t := by
    apply add_eq
    generalize x * (255 - t) = p at h1
    generalize y * t = q at h2
    omega
  rw [lerp_unorm8, sub_255 t ht, e1, e2, e3, div255_eq_of_le]
  generalize x * (255 - t) = p at h1
  generalize y * t = q at h2
  omega

/-- Rounded quotients by 255 commute with the two coverage orders up to two
units: the integer core of the comparison of pre-scaling with the lerp. -/
theorem coverage_order_core (s a d c A C B E R : ℤ)
    (hd0 : 0 ≤ d) (hd : d ≤ 255) (hc0 : 0 ≤ c) (hc : c ≤ 255)
    (hA1 : 255 * A ≤ s * c + 127) (hA2 : s * c + 127 < 255 * A + 255)
    (hC1 : 255 * C ≤ a * c + 127) (hC2 : a * c + 127 < 255 * C + 255)
    (hB1 : 255 * B ≤ d * (255 - C) + 127) (hB2 : d * (255 - C) + 127 < 255 * B + 255)
    (hE1 : 255 * E ≤ d * (255 - a) + 127) (hE2 : d * (255 - a) + 127 < 255 * E + 255)
    (hR1 : 255 * R ≤ d * (255 - c) + (s + E) * c + 127)
    (hR2 : d * (255 - c) + (s + E) * c + 127 < 255 * R + 255) :
    A + B ≤ R + 2 ∧ R ≤ A + B + 2 := by
  obtain ⟨t1, ht1⟩ : ∃ t, t = 255 * A - s * c := ⟨_, rfl⟩
  obtain ⟨t2, ht2⟩ : ∃ t, t = 255 * C - a * c := ⟨_, rfl⟩
  obtain ⟨t3, ht3⟩ : ∃ t, t = 255 * B - d * (255 - C) := ⟨_, rfl⟩
  obtain ⟨t4, ht4⟩ : ∃ t, t = 255 * E - d * (255 - a) := ⟨_, rfl⟩
  obtain ⟨t5, ht5⟩ : ∃ t, t = 255 * R - (d * (255 - c) + (s + E) * c) := ⟨_, rfl⟩
  have key : 65025 * (A + B - R) = 255 * t1 + 255 * t3 - d * t2 - c * t4 - 255 * t5 := by
    subst ht1 ht2 ht3 ht4 ht5
    ring
  have b1 : -127 ≤ t1 ∧ t1 ≤ 127 := by constructor <;> linarith
  have b2 : -127 ≤ t2 ∧ t2 ≤ 127 := by constructor <;> linarith
  have b3 : -127 ≤ t3 ∧ t3 ≤ 127 := by constructor <;> linarith
  have b4 : -127 ≤ t4 ∧ t4 ≤ 127 := by constructor <;> linarith
  have b5 : -127 ≤ t5 ∧ t5 ≤ 127 := by constructor <;> linarith
  have p2 : d * t2 ≤ 255 * 127 ∧ -(255 * 127) ≤ d * t2 := by
    have u1 := mul_le_mul_of_nonneg_left b2.2 hd0
    have u2 := mul_le_mul_of_nonneg_left b2.1 hd0
    constructor <;> linarith
  have p4 : c * t4 ≤ 255 * 127 ∧ -(255 * 127) ≤ c * t4 := by
    have u1 := mul_le_mul_of_nonneg_left b4.2 hc0
    have u2 := mul_le_mul_of_nonneg_left b4.1 hc0
    constructor <;> linarith
  generalize d * t2 = u at key p2
  generalize c * t4 = w at key p4
  omega

end Builder

/-! ## The claims -/

namespace Builder
open skvm

/-- C1: for every `v` with `0 ≤ v ≤ 255 * 255`, `div255 v` is `⌊(v + 127) / 255⌋`,
which is `v / 255` rounded to the nearest integer; the distance to `v / 255` is
strictly less than one half, so no tie occurs. -/
theorem div255_rounds_to_nearest (v : Nat) (h : v ≤ 255 * 255) :
    div255 v = (v + 127) / 255
      ∧ round ((v : ℚ) / 255) = (div255 v : ℤ)
      ∧ |(v : ℚ) / 255 - (div255 v : ℚ)| < 1 / 2 := by
  have e := div255_eq_of_le v h
  have h1 : 255 * ((v + 127) / 255) ≤ v + 127 := Nat.mul_div_le _ _
  have h2 : v + 128 ≤ 255 * ((v + 127) / 255) + 255 := by omega
  rw [e]
  generalize (v + 127) / 255 = q at h1 h2
  have h1q : (255 : ℚ) * (q : ℚ) ≤ (v : ℚ) + 127 := by exact_mod_cast h1
  have h2q : (v : ℚ) + 128 ≤ 255 * (q : ℚ) + 255 := by exact_mod_cast h2
  refine ⟨rfl, ?_, ?_⟩
  · rw [round_eq, Int.floor_eq_iff]
    push_cast
    constructor
    · linarith
    · linarith
  · rw [abs_lt]
    constructor
    · linarith
    · linarith

/-- The instance `v = 255 * 255` of C1. -/
theorem div255_rounds_to_nearest_witness :
    (65025 : Nat) ≤ 255 * 255
      ∧ (div255 65025 = (65025 + 127) / 255
        ∧ round (((65025 : Nat) : ℚ) / 255) = (div255 65025 : ℤ)
        ∧ |((65025 : Nat) : ℚ) / 255 - (div255 65025 : ℚ)| < 1 / 2) :=
  ⟨by decide, div255_rounds_to_nearest 65025 (by decide)⟩

/-- C2: `CanBuild key` is true exactly when the key has no shader or the probe
call of the shader (null builder, the colour space of the key) returns true, the
key has no colour filter, the colour type is RGB_565, RGBA_8888 or BGRA_8888, the
alpha type is not Unpremul, and the blend mode is Src or SrcOver; in every other
case it is false. -/
theorem CanBuild_iff (key : Key) :
    CanBuild key = true ↔
      ((key.shader = none ∨
          ∃ sh, key.shader = some sh ∧ (sh.program none key.colorSpace 0 0 ⟨0, 0, 0, 0⟩).1 = true)
        ∧ key.colorFilter = none
        ∧ (key.colorType = .kRGB_565_SkColorType ∨ key.colorType = .kRGBA_8888_SkColorType
            ∨ key.colorType = .kBGRA_8888_SkColorType)
        ∧ key.alphaType ≠ .kUnpremul_SkAlphaType
        ∧ (key.blendMode = .kSrc ∨ key.blendMode = .kSrcOver)) := by
  obtain ⟨ct, alpha, cov, bm, cs, sh, cf⟩ := key
  cases sh <;> cases cf <;> cases ct <;> cases alpha <;> cases bm <;> simp [CanBuild]

/-- C3: for every key that `CanBuild` accepts, with any of the five coverage
modes, the constructor does not stop at `SkASSERT(CanBuild(key))` nor at any of
the `TODO` / `SkUNREACHABLE` traps (colour filter, unknown colour type on load or
on store, unpremul alpha, unknown blend mode), whatever the shader and the
pre-scale predicate do; and it runs to completion, storing a pixel, as soon as
the two assertions on what lies outside the constructor hold (the shader emits
its lanes when asked to, and LCD coverage is not loaded before the destination). -/
theorem Builder_runs_to_completion (shouldPreScale : SkBlendMode → Bool → Bool) (key : Key)
    (c : Coverage) (env : Env) (h : CanBuild key = true) :
    (Builder shouldPreScale (key.withCoverage c) env ≠ .error .assertCanBuild
      ∧ Builder shouldPreScale (key.withCoverage c) env ≠ .error .todoColorFilter
      ∧ Builder shouldPreScale (key.withCoverage c) env ≠ .error .todoColorType
      ∧ Builder shouldPreScale (key.withCoverage c) env ≠ .error .todoUnpremul
      ∧ Builder shouldPreScale (key.withCoverage c) env ≠ .error .todoBlendMode
      ∧ Builder shouldPreScale (key.withCoverage c) env ≠ .error .unreachableStore)
    ∧ ((∀ sh, key.shader = some sh →
          (sh.program (some env) key.colorSpace 0 sizeof_Uniforms
            (unpack_8888 (uniform32 env.uniforms.paint_color))).1 = true) →
        ¬ (c = .MaskLCD16 ∧ shouldPreScale key.blendMode true = true) →
        ∃ px, Builder shouldPreScale (key.withCoverage c) env = .ok px) := by
  have hc : CanBuild (key.withCoverage c) = true := h
  rcases Builder_cases shouldPreScale (key.withCoverage c) env hc with
    ⟨px, hpx⟩ | ⟨he, sh, hsh, hp⟩ | ⟨he, hl, hP⟩
  · rw [hpx]
    simp
  · rw [he]
    refine ⟨by simp, fun hs _ => ?_⟩
    have := hs sh hsh
    simp only [Key.withCoverage] at hp
    rw [hp] at this
    exact absurd this (by simp)
  · rw [he]
    refine ⟨by simp, fun _ hn => ?_⟩
    exact absurd ⟨hl, hP⟩ hn

/-- An instance of C3: a SrcOver key with a shader, specialised to LCD coverage. -/
theorem Builder_runs_to_completion_witness :
    CanBuild (premulKey .kSrcOver (some (solidShader ⟨255, 0, 0, 255⟩))) = true
      ∧ Builder (fun _ rgb_coverage => !rgb_coverage)
          ((premulKey .kSrcOver (some (solidShader ⟨255, 0, 0, 255⟩))).withCoverage .MaskLCD16)
          (pixelEnv 0xff000000 255 0xff00ff00 0xffff) ≠ .error .assertCanBuild
      ∧ ∃ px, Builder (fun _ rgb_coverage => !rgb_coverage)
          ((premulKey .kSrcOver (some (solidShader ⟨255, 0, 0, 255⟩))).withCoverage .MaskLCD16)
          (pixelEnv 0xff000000 255 0xff00ff00 0xffff) = .ok px :=
  ⟨rfl,
   (Builder_runs_to_completion (fun _ rgb_coverage => !rgb_coverage)
      (premulKey .kSrcOver (some (solidShader ⟨255, 0, 0, 255⟩))) .MaskLCD16
      (pixelEnv 0xff000000 255 0xff00ff00 0xffff) rfl).1.1,
   (Builder_runs_to_completion (fun _ rgb_coverage => !rgb_coverage)
      (premulKey .kSrcOver (some (solidShader ⟨255, 0, 0, 255⟩))) .MaskLCD16
      (pixelEnv 0xff000000 255 0xff00ff00 0xffff) rfl).2
      (by intro sh hsh; simp only [premulKey, Option.some.injEq] at hsh; subst hsh; rfl)
      (by simp)⟩

/-- C4: with blend mode SrcOver and coverage Full, for every destination pixel
and every source colour with alpha 255 and channels in [0,255], each blended
channel is the source channel, so the constructor stores the source colour
(for RGBA_8888 the word `r | g<<8 | b<<16 | a<<24`). -/
theorem SrcOver_Full_opaque_source (shouldPreScale : SkBlendMode → Bool → Bool) (key : Key)
    (env : Env) (src : Color) (h : CanBuild key = true)
    (hbm : key.blendMode = .kSrcOver) (hcov : key.coverage = .Full)
    (h1 : shade key env 0 (unpack_8888 (uniform32 env.uniforms.paint_color)) = .ok src)
    (ha : src.a = 255) (hr : src.r ≤ 255) (hg : src.g ≤ 255) (hb : src.b ≤ 255) :
    (∀ dst, blend key src dst = .ok src)
      ∧ Builder shouldPreScale key env = storeDst key src
      ∧ (key.colorType = .kRGBA_8888_SkColorType →
          Builder shouldPreScale key env
            = .ok (src.r ||| src.g <<< 8 ||| src.b <<< 16 ||| src.a <<< 24)) := by
  have hbl := fun dst => blend_SrcOver_opaque_source key src dst hbm ha hr hg hb
  obtain ⟨-, -, hct, -, -⟩ := CanBuild_true key h
  obtain ⟨dst, h3⟩ := loadDst_ok key env 1 hct
  have hB := Builder_Full shouldPreScale key env src src dst h hcov h1 h3 (hbl _)
  have hf : (if (true && decide (key.alphaType = .kOpaque_SkAlphaType)) = true
              then { src with a := splat 0xff } else src) = src := by
    obtain ⟨r, g, b, a⟩ := src
    simp only at ha
    subst ha
    split <;> rfl
  rw [hf] at hB
  refine ⟨hbl, hB, fun hrgba => ?_⟩
  rw [hB]
  simp only [storeDst, hrgba]
  rw [pack_8888_lor src hr hg hb (by omega)]

/-- An instance of C4: the opaque red, green, blue and white of the test shader,
each drawn SrcOver onto itself, is stored unchanged. -/
theorem SrcOver_Full_opaque_source_witness :
    CanBuild (premulKey .kSrcOver (some (solidShader ⟨255, 0, 0, 255⟩))) = true
      ∧ Builder (fun _ _ => true) (premulKey .kSrcOver (some (solidShader ⟨255, 0, 0, 255⟩)))
          (pixelEnv 0 0 0xff0000ff 0) = .ok 0xff0000ff
      ∧ Builder (fun _ _ => true) (premulKey .kSrcOver (some (solidShader ⟨0, 255, 0, 255⟩)))
          (pixelEnv 0 0 0xff00ff00 0) = .ok 0xff00ff00
      ∧ Builder (fun _ _ => true) (premulKey .kSrcOver (some (solidShader ⟨0, 0, 255, 255⟩)))
          (pixelEnv 0 0 0xffff0000 0) = .ok 0xffff0000
      ∧ Builder (fun _ _ => true) (premulKey .kSrcOver (some (solidShader ⟨255, 255, 255, 255⟩)))
          (pixelEnv 0 0 0xffffffff 0) = .ok 0xffffffff :=
  ⟨rfl,
   (SrcOver_Full_opaque_source (fun _ _ => true)
      (premulKey .kSrcOver (some (solidShader ⟨255, 0, 0, 255⟩))) (pixelEnv 0 0 0xff0000ff 0)
      ⟨255, 0, 0, 255⟩ rfl rfl rfl rfl rfl (by decide) (by decide) (by decide)).2.2 rfl,
   (SrcOver_Full_opaque_source (fun _ _ => true)
      (premulKey .kSrcOver (some (solidShader ⟨0, 255, 0, 255⟩))) (pixelEnv 0 0 0xff00ff00 0)
      ⟨0, 255, 0, 255⟩ rfl rfl rfl rfl rfl (by decide) (by decide) (by decide)).2.2 rfl,
   (SrcOver_Full_opaque_source (fun _ _ => true)
      (premulKey .kSrcOver (some (solidShader ⟨0, 0, 255, 255⟩))) (pixelEnv 0 0 0xffff0000 0)
      ⟨0, 0, 255, 255⟩ rfl rfl rfl rfl rfl (by decide) (by decide) (by decide)).2.2 rfl,
   (SrcOver_Full_opaque_source (fun _ _ => true)
      (premulKey .kSrcOver (some (solidShader ⟨255, 255, 255, 255⟩))) (pixelEnv 0 0 0xffffffff 0)
      ⟨255, 255, 255, 255⟩ rfl rfl rfl rfl rfl (by decide) (by decide) (by decide)).2.2 rfl⟩

/-- C5: with blend mode SrcOver and coverage Full, the fully transparent source
(r = g = b = a = 0) over any destination with channels in [0,255] gives the
destination back: every blended channel `0 + div255(d * 255)` is `d` exactly;
and the constructor stores the bits it loaded (for a destination tagged opaque,
whose alpha is forced to 255, when it is 565 or its alpha byte is 255). -/
theorem SrcOver_Full_transparent_source (shouldPreScale : SkBlendMode → Bool → Bool) (key : Key)
    (env : Env) (h : CanBuild key = true)
    (hbm : key.blendMode = .kSrcOver) (hcov : key.coverage = .Full)
    (h1 : shade key env 0 (unpack_8888 (uniform32 env.uniforms.paint_color)) = .ok ⟨0, 0, 0, 0⟩) :
    (∀ dst : Color, dst.r ≤ 255 → dst.g ≤ 255 → dst.b ≤ 255 → dst.a ≤ 255 →
        blend key ⟨0, 0, 0, 0⟩ dst = .ok dst)
      ∧ ((key.alphaType ≠ .kOpaque_SkAlphaType ∨ key.colorType = .kRGB_565_SkColorType
            ∨ load32 (env.arg 1) / 2 ^ 24 = 255) →
          Builder shouldPreScale key env
            = .ok (if key.colorType = .kRGB_565_SkColorType then load16 (env.arg 1)
                   else load32 (env.arg 1))) := by
  have hbl := fun (dst : Color) hr hg hb ha =>
    blend_SrcOver_transparent_source key dst hbm hr hg hb ha
  refine ⟨hbl, fun hop => ?_⟩
  obtain ⟨-, -, hct, -, -⟩ := CanBuild_true key h
  obtain ⟨dst, h3⟩ := loadDst_ok key env 1 hct
  obtain ⟨dr, dg, db, da⟩ := loadDst_le key env 1 dst h3
  have hf : (if (true && decide (key.alphaType = .kOpaque_SkAlphaType)) = true
              then { dst with a := splat 0xff } else dst) = dst := by
    split
    · rename_i hopq
      have hopq : key.alphaType = .kOpaque_SkAlphaType := by simpa using hopq
      have hda : dst.a = 255 := by
        rcases hop with hn | h565 | h255
        · exact absurd hopq hn
        · simp only [loadDst, h565] at h3
          have := Except.ok.inj h3
          subst this
          rfl
        · unfold loadDst at h3
          rcases hct with hc | hc | hc <;> rw [hc] at h3 <;> have := Except.ok.inj h3 <;>
            subst this
          · rfl
          · rw [unpack_8888_eq]
            simp only [load32] at h255 ⊢
            omega
          · rw [unpack_8888_eq]
            simp only [load32] at h255 ⊢
            omega
      obtain ⟨r, g, b, a⟩ := dst
      simp only at hda
      subst hda
      rfl
    · rfl
  have hB := Builder_Full shouldPreScale key env ⟨0, 0, 0, 0⟩ dst dst h hcov h1 h3
    (by rw [hf]; exact hbl dst dr dg db da)
  rw [hB, hf]
  exact storeDst_loadDst key env 1 dst h3

/-- An instance of C5: a transparent paint over the pixel `0x80402010`. -/
theorem SrcOver_Full_transparent_source_witness :
    CanBuild (premulKey .kSrcOver none) = true
      ∧ blend (premulKey .kSrcOver none) ⟨0, 0, 0, 0⟩ ⟨16, 32, 64, 128⟩ = .ok ⟨16, 32, 64, 128⟩
      ∧ Builder (fun _ _ => true) (premulKey .kSrcOver none) (pixelEnv 0 0 0x80402010 0)
          = .ok 0x80402010 :=
  ⟨rfl,
   (SrcOver_Full_transparent_source (fun _ _ => true) (premulKey .kSrcOver none)
      (pixelEnv 0 0 0x80402010 0) rfl rfl rfl rfl).1 ⟨16, 32, 64, 128⟩
      (by decide) (by decide) (by decide) (by decide),
   (SrcOver_Full_transparent_source (fun _ _ => true) (premulKey .kSrcOver none)
      (pixelEnv 0 0 0x80402010 0) rfl rfl rfl rfl).2 (Or.inl (by decide))⟩

/-- C6: for every buildable key with blend mode Src and coverage Full, the pixel
the constructor stores is `storeDst` of the source colour (its alpha forced to
255 for a destination tagged opaque): it is the same for any two pixels with the
same source colour, whatever the destination held; for a premultiplied
RGBA_8888 destination and channels in [0,255] it is `r | g<<8 | b<<16 | a<<24`. -/
theorem Src_Full_stores_source (shouldPreScale : SkBlendMode → Bool → Bool) (key : Key)
    (env : Env) (src : Color) (h : CanBuild key = true)
    (hbm : key.blendMode = .kSrc) (hcov : key.coverage = .Full)
    (h1 : shade key env 0 (unpack_8888 (uniform32 env.uniforms.paint_color)) = .ok src) :
    Builder shouldPreScale key env
        = storeDst key (if (true && decide (key.alphaType = .kOpaque_SkAlphaType)) = true
                          then { src with a := splat 0xff } else src)
      ∧ (∀ env2 : Env,
          shade key env2 0 (unpack_8888 (uniform32 env2.uniforms.paint_color)) = .ok src →
          Builder shouldPreScale key env2 = Builder shouldPreScale key env)
      ∧ (key.colorType = .kRGBA_8888_SkColorType → key.alphaType = .kPremul_SkAlphaType →
          src.r ≤ 255 → src.g ≤ 255 → src.b ≤ 255 → src.a ≤ 255 →
          Builder shouldPreScale key env
            = .ok (src.r ||| src.g <<< 8 ||| src.b <<< 16 ||| src.a <<< 24)) := by
  obtain ⟨-, -, hct, -, -⟩ := CanBuild_true key h
  have hB : ∀ env2 : Env,
      shade key env2 0 (unpack_8888 (uniform32 env2.uniforms.paint_color)) = .ok src →
      Builder shouldPreScale key env2
        = storeDst key (if (true && decide (key.alphaType = .kOpaque_SkAlphaType)) = true
                          then { src with a := splat 0xff } else src) := by
    intro env2 h2
    obtain ⟨dst, h3⟩ := loadDst_ok key env2 1 hct
    exact Builder_Full shouldPreScale key env2 src src dst h hcov h2 h3 (blend_Src key src _ hbm)
  refine ⟨hB env h1, fun env2 h2 => by rw [hB env2 h2, hB env h1], ?_⟩
  intro hrgba hpm hr hg hb ha
  rw [hB env h1]
  simp only [storeDst, hrgba, hpm]
  simp only [reduceCtorEq, decide_False, Bool.and_false, Bool.false_eq_true, if_false]
  rw [pack_8888_lor src hr hg hb ha]

/-- An instance of C6: the red, green, blue and white of the test shader drawn
with kSrc are read back as `0xFF0000FF`, `0xFF00FF00`, `0xFFFF0000`, `0xFFFFFFFF`. -/
theorem Src_Full_stores_source_witness :
    CanBuild (premulKey .kSrc (some (solidShader ⟨255, 0, 0, 255⟩))) = true
      ∧ Builder (fun _ _ => false) (premulKey .kSrc (some (solidShader ⟨255, 0, 0, 255⟩)))
          (pixelEnv 0xff000000 0 0x12345678 0) = .ok 0xFF0000FF
      ∧ Builder (fun _ _ => false) (premulKey .kSrc (some (solidShader ⟨0, 255, 0, 255⟩)))
          (pixelEnv 0xff000000 0 0x12345678 0) = .ok 0xFF00FF00
      ∧ Builder (fun _ _ => false) (premulKey .kSrc (some (solidShader ⟨0, 0, 255, 255⟩)))
          (pixelEnv 0xff000000 0 0x12345678 0) = .ok 0xFFFF0000
      ∧ Builder (fun _ _ => false) (premulKey .kSrc (some (solidShader ⟨255, 255, 255, 255⟩)))
          (pixelEnv 0xff000000 0 0x12345678 0) = .ok 0xFFFFFFFF :=
  ⟨rfl,
   (Src_Full_stores_source (fun _ _ => false)
      (premulKey .kSrc (some (solidShader ⟨255, 0, 0, 255⟩))) (pixelEnv 0xff000000 0 0x12345678 0)
      ⟨255, 0, 0, 255⟩ rfl rfl rfl rfl).2.2 rfl rfl (by decide) (by decide) (by decide)
      (by decide),
   (Src_Full_stores_source (fun _ _ => false)
      (premulKey .kSrc (some (solidShader ⟨0, 255, 0, 255⟩))) (pixelEnv 0xff000000 0 0x12345678 0)
      ⟨0, 255, 0, 255⟩ rfl rfl rfl rfl).2.2 rfl rfl (by decide) (by decide) (by decide)
      (by decide),
   (Src_Full_stores_source (fun _ _ => false)
      (premulKey .kSrc (some (solidShader ⟨0, 0, 255, 255⟩))) (pixelEnv 0xff000000 0 0x12345678 0)
      ⟨0, 0, 255, 255⟩ rfl rfl rfl rfl).2.2 rfl rfl (by decide) (by decide) (by decide)
      (by decide),
   (Src_Full_stores_source (fun _ _ => false)
      (premulKey .kSrc (some (solidShader ⟨255, 255, 255, 255⟩)))
      (pixelEnv 0xff000000 0 0x12345678 0)
      ⟨255, 255, 255, 255⟩ rfl rfl rfl rfl).2.2 rfl rfl (by decide) (by decide) (by decide)
      (by decide)⟩

/-- C7: `unpack_8888` and `pack_8888` are mutually inverse: for every 32-bit
word `p`, `pack_8888 (unpack_8888 p) = p`, and for channels `r, g, b, a` in
[0,255], `unpack_8888 (pack_8888 (r,g,b,a)) = (r,g,b,a)`, with `r` in bits 0-7,
`g` in bits 8-15, `b` in bits 16-23 and `a` in bits 24-31 of the packed word. -/
theorem pack_unpack_8888_inverse (p r g b a : Nat) (hp : p < 2 ^ 32) (hr : r ≤ 255)
    (hg : g ≤ 255) (hb : b ≤ 255) (ha : a ≤ 255) :
    pack_8888 (unpack_8888 p) = p
      ∧ unpack_8888 (pack_8888 ⟨r, g, b, a⟩) = ⟨r, g, b, a⟩
      ∧ pack_8888 ⟨r, g, b, a⟩ % 2 ^ 8 = r
      ∧ pack_8888 ⟨r, g, b, a⟩ >>> 8 % 2 ^ 8 = g
      ∧ pack_8888 ⟨r, g, b, a⟩ >>> 16 % 2 ^ 8 = b
      ∧ pack_8888 ⟨r, g, b, a⟩ >>> 24 = a := by
  refine ⟨pack_8888_unpack_8888 p hp, ?_⟩
  rw [unpack_8888_eq, pack_8888_eq ⟨r, g, b, a⟩ hr hg hb ha]
  simp only [Nat.shiftRight_eq_div_pow]
  refine ⟨?_, ?_, ?_, ?_, ?_⟩
  · congr 1 <;> omega
  all_goals omega

/-- An instance of C7. -/
theorem pack_unpack_8888_inverse_witness :
    pack_8888 (unpack_8888 0xff0000ff) = 0xff0000ff
      ∧ unpack_8888 (pack_8888 ⟨1, 2, 3, 4⟩) = ⟨1, 2, 3, 4⟩
      ∧ pack_8888 ⟨1, 2, 3, 4⟩ % 2 ^ 8 = 1
      ∧ pack_8888 ⟨1, 2, 3, 4⟩ >>> 8 % 2 ^ 8 = 2
      ∧ pack_8888 ⟨1, 2, 3, 4⟩ >>> 16 % 2 ^ 8 = 3
      ∧ pack_8888 ⟨1, 2, 3, 4⟩ >>> 24 = 4 :=
  pack_unpack_8888_inverse 0xff0000ff 1 2 3 4 (by decide) (by decide) (by decide) (by decide)
    (by decide)

/-- C8: for every 16-bit RGB565 pixel `p`, `pack_565 (unpack_565 p) = p`:
widening each 5/6/5 field to 8 bits and scaling it back with `div255(c*31)` /
`div255(c*63)` recovers every field exactly. -/
theorem pack_unpack_565_roundtrip (p : Nat) (hp : p < 65536) :
    pack_565 (unpack_565 p) = p
      ∧ scale_unorm8 (unpack_565 p).r (splat 31) = p >>> 11
      ∧ scale_unorm8 (unpack_565 p).g (splat 63) = p >>> 5 % 64
      ∧ scale_unorm8 (unpack_565 p).b (splat 31) = p % 32 := by
  refine ⟨pack_565_unpack_565 p hp, ?_⟩
  have s31 : splat 31 = 31 := by decide
  have s63 : splat 63 = 63 := by decide
  rw [unpack_565_eq, s31, s63]
  dsimp only
  rw [scale_unorm8_eq _ 31 (by omega) (by norm_num), scale_unorm8_eq _ 63 (by omega) (by norm_num),
    scale_unorm8_eq _ 31 (by omega) (by norm_num),
    narrow5_widen5 _ (Nat.mod_lt _ (by norm_num)), narrow6_widen6 _ (Nat.mod_lt _ (by norm_num)),
    narrow5_widen5 _ (Nat.mod_lt _ (by norm_num))]
  simp only [Nat.shiftRight_eq_div_pow]
  exact ⟨by omega, by omega, trivial⟩

/-- An instance of C8. -/
theorem pack_unpack_565_roundtrip_witness :
    (0x1234 : Nat) < 65536 ∧ pack_565 (unpack_565 0x1234) = 0x1234 :=
  ⟨by decide, (pack_unpack_565_roundtrip 0x1234 (by decide)).1⟩

/-- C9, as amended: for every 8-bit colour, the top 5 bits of r and b and the top
6 bits of g of `unpack_565 (pack_565 (r,g,b))` are the fields `pack_565` stored,
the channel scaled to 5 or 6 bits and rounded to nearest (`div255(c*31)`,
`div255(c*63)`); they differ from the top bits of the input by at most one. -/
theorem unpack_pack_565_top_bits (r g b a : Nat) (hr : r ≤ 255) (hg : g ≤ 255) (hb : b ≤ 255) :
    ((unpack_565 (pack_565 ⟨r, g, b, a⟩)).r >>> 3 = scale_unorm8 r (splat 31)
        ∧ (unpack_565 (pack_565 ⟨r, g, b, a⟩)).g >>> 2 = scale_unorm8 g (splat 63)
        ∧ (unpack_565 (pack_565 ⟨r, g, b, a⟩)).b >>> 3 = scale_unorm8 b (splat 31))
      ∧ ((unpack_565 (pack_565 ⟨r, g, b, a⟩)).r >>> 3 ≤ r >>> 3 + 1
        ∧ r >>> 3 ≤ (unpack_565 (pack_565 ⟨r, g, b, a⟩)).r >>> 3 + 1)
      ∧ ((unpack_565 (pack_565 ⟨r, g, b, a⟩)).g >>> 2 ≤ g >>> 2 + 1
        ∧ g >>> 2 ≤ (unpack_565 (pack_565 ⟨r, g, b, a⟩)).g >>> 2 + 1)
      ∧ ((unpack_565 (pack_565 ⟨r, g, b, a⟩)).b >>> 3 ≤ b >>> 3 + 1
        ∧ b >>> 3 ≤ (unpack_565 (pack_565 ⟨r, g, b, a⟩)).b >>> 3 + 1) := by
  have s31 : splat 31 = 31 := by decide
  have s63 : splat 63 = 63 := by decide
  rw [unpack_565_pack_565 ⟨r, g, b, a⟩ hr hg hb, s31, s63,
    scale_unorm8_eq r 31 hr (by norm_num), scale_unorm8_eq g 63 hg (by norm_num),
    scale_unorm8_eq b 31 hb (by norm_num)]
  simp only [Nat.shiftRight_eq_div_pow]
  refine ⟨⟨?_, ?_, ?_⟩, ⟨?_, ?_⟩, ⟨?_, ?_⟩, ⟨?_, ?_⟩⟩ <;> omega

/-- An instance of the amended C9. -/
theorem unpack_pack_565_top_bits_witness :
    (unpack_565 (pack_565 ⟨5, 3, 248, 255⟩)).r >>> 3 ≤ 5 >>> 3 + 1
      ∧ 5 >>> 3 ≤ (unpack_565 (pack_565 ⟨5, 3, 248, 255⟩)).r >>> 3 + 1 :=
  (unpack_pack_565_top_bits 5 3 248 255 (by decide) (by decide) (by decide)).2.1

/-- C9 as stated fails: for the colour (5, 3, 248) the recovered colour is
(8, 4, 247); the top 5 bits of r are 1, not 0, the top 6 bits of g are 1, not
0, and the top 5 bits of b are 30, not 31. -/
theorem top_bits_565_not_kept :
    unpack_565 (pack_565 ⟨5, 3, 248, 255⟩) = ⟨8, 4, 247, 255⟩
      ∧ (unpack_565 (pack_565 ⟨5, 3, 248, 255⟩)).r >>> 3 ≠ 5 >>> 3
      ∧ (unpack_565 (pack_565 ⟨5, 3, 248, 255⟩)).g >>> 2 ≠ 3 >>> 2
      ∧ (unpack_565 (pack_565 ⟨5, 3, 248, 255⟩)).b >>> 3 ≠ 248 >>> 3 := by
  decide

/-- C10, as amended: for every premultiplied source channel (`s ≤ a ≤ 255`),
destination channel `d` and coverage `c` in [0,255], SrcOver with the coverage
folded into the source, `div255(s*c) + div255(d*(255 - div255(a*c)))`, and
SrcOver followed by the lerp, `lerp_unorm8(d, s + div255(d*(255 - a)), c)`,
are equal at `c = 0` and at `c = 255`, and differ by at most two units at every
coverage. -/
theorem coverage_order_within_two (s a d c : Nat) (hsa : s ≤ a) (ha : a ≤ 255) (hd : d ≤ 255)
    (hc : c ≤ 255) :
    ((c = 0 ∨ c = 255) →
        add (scale_unorm8 s c) (scale_unorm8 d (sub (splat 255) (scale_unorm8 a c)))
          = lerp_unorm8 d (add s (scale_unorm8 d (sub (splat 255) a))) c)
      ∧ add (scale_unorm8 s c) (scale_unorm8 d (sub (splat 255) (scale_unorm8 a c)))
          ≤ lerp_unorm8 d (add s (scale_unorm8 d (sub (splat 255) a))) c + 2
      ∧ lerp_unorm8 d (add s (scale_unorm8 d (sub (splat 255) a))) c
          ≤ add (scale_unorm8 s c) (scale_unorm8 d (sub (splat 255) (scale_unorm8 a c))) + 2 := by
  have hs : s ≤ 255 := le_trans hsa ha
  have hAc : scale_unorm8 s c ≤ c := scale_unorm8_le s c hs hc
  have hCc : scale_unorm8 a c ≤ c := scale_unorm8_le a c ha hc
  have hB : scale_unorm8 d (255 - scale_unorm8 a c) ≤ 255 - scale_unorm8 a c :=
    scale_unorm8_le _ _ hd (by omega)
  have hE : scale_unorm8 d (255 - a) ≤ 255 - a := scale_unorm8_le _ _ hd (by omega)
  rw [sub_255 _ (le_trans hCc hc), sub_255 a ha, add_eq _ _ (by omega), add_eq s _ (by omega),
    lerp_unorm8_eq d _ c hd (by omega) hc]
  rw [scale_unorm8_eq s c hs hc, scale_unorm8_eq a c ha hc,
    scale_unorm8_eq d (255 - a) hd (by omega)] at *
  rw [scale_unorm8_eq d _ hd (by omega)] at *
  constructor
  · rintro (rfl | rfl)
    · simp only [Nat.mul_zero, Nat.zero_add, Nat.sub_zero, Nat.add_zero]
      omega
    · clear hAc hCc hB hE
      have ea : (a * 255 + 127) / 255 = a := by omega
      have es : (s * 255 + 127) / 255 = s := by omega
      rw [ea, es]
      simp only [Nat.sub_self, Nat.mul_zero, Nat.zero_add]
      generalize (d * (255 - a) + 127) / 255 = q
      omega
  · have := coverage_order_core s a d c ((s * c + 127) / 255 : ℕ) ((a * c + 127) / 255 : ℕ)
      ((d * (255 - (a * c + 127) / 255) + 127) / 255 : ℕ) ((d * (255 - a) + 127) / 255 : ℕ)
      ((d * (255 - c) + (s + (d * (255 - a) + 127) / 255) * c + 127) / 255 : ℕ)
      (by positivity) (by exact_mod_cast hd) (by positivity) (by exact_mod_cast hc)
      (by exact_mod_cast Nat.mul_div_le (s * c + 127) 255)
      (by exact_mod_cast Nat.lt_mul_div_succ (s * c + 127) (by norm_num : 0 < 255))
      (by exact_mod_cast Nat.mul_div_le (a * c + 127) 255)
      (by exact_mod_cast Nat.lt_mul_div_succ (a * c + 127) (by norm_num : 0 < 255))
      (by
        have := Nat.mul_div_le (d * (255 - (a * c + 127) / 255) + 127) 255
        have e : ((255 - (a * c + 127) / 255 : ℕ) : ℤ) = 255 - (((a * c + 127) / 255 : ℕ) : ℤ) := by
          omega
        rw [← e]
        exact_mod_cast this)
      (by
        have := Nat.lt_mul_div_succ (d * (255 - (a * c + 127) / 255) + 127) (by norm_num : 0 < 255)
        have e : ((255 - (a * c + 127) / 255 : ℕ) : ℤ) = 255 - (((a * c + 127) / 255 : ℕ) : ℤ) := by
          omega
        rw [← e]
        exact_mod_cast this)
      (by
        have := Nat.mul_div_le (d * (255 - a) + 127) 255
        have e : ((255 - a : ℕ) : ℤ) = 255 - (a : ℤ) := by omega
        rw [← e]
        exact_mod_cast this)
      (by
        have := Nat.lt_mul_div_succ (d * (255 - a) + 127) (by norm_num : 0 < 255)
        have e : ((255 - a : ℕ) : ℤ) = 255 - (a : ℤ) := by omega
        rw [← e]
        exact_mod_cast this)
      (by
        have := Nat.mul_div_le (d * (255 - c) + (s + (d * (255 - a) + 127) / 255) * c + 127) 255
        have e : ((255 - c : ℕ) : ℤ) = 255 - (c : ℤ) := by omega
        rw [← e]
        exact_mod_cast this)
      (by
        have := Nat.lt_mul_div_succ (d * (255 - c) + (s + (d * (255 - a) + 127) / 255) * c + 127)
          (by norm_num : 0 < 255)
        have e : ((255 - c : ℕ) : ℤ) = 255 - (c : ℤ) := by omega
        rw [← e]
        exact_mod_cast this)
    constructor
    · exact_mod_cast this.1
    · exact_mod_cast this.2

/-- An instance of the amended C10, where the two orders are two units apart. -/
theorem coverage_order_within_two_witness :
    (27 : Nat) ≤ 228
      ∧ lerp_unorm8 251 (add 27 (scale_unorm8 251 (sub (splat 255) 228))) 33
          ≤ add (scale_unorm8 27 33) (scale_unorm8 251 (sub (splat 255) (scale_unorm8 228 33))) + 2
      ∧ add (scale_unorm8 27 33) (scale_unorm8 251 (sub (splat 255) (scale_unorm8 228 33))) = 224
      ∧ lerp_unorm8 251 (add 27 (scale_unorm8 251 (sub (splat 255) 228))) 33 = 226 :=
  ⟨by decide,
   (coverage_order_within_two 27 228 251 33 (by decide) (by decide) (by decide) (by decide)).2.2,
   by decide, by decide⟩

/-- C10 as stated fails: for `s = 0`, `a = 128`, `d = 128` and coverage 1 the
pre-scaled order gives 127 and the lerp gives 128 (the two orders also differ at
coverage 127 and at coverage 128); on the SrcOver UniformA8 program for a
premultiplied RGBA_8888 destination the stored words are `0x807F7F7F` and
`0x80808080`. -/
theorem coverage_orders_differ :
    add (scale_unorm8 0 1) (scale_unorm8 128 (sub (splat 255) (scale_unorm8 128 1))) = 127
      ∧ lerp_unorm8 128 (add 0 (scale_unorm8 128 (sub (splat 255) 128))) 1 = 128
      ∧ add (scale_unorm8 0 127) (scale_unorm8 128 (sub (splat 255) (scale_unorm8 2 127)))
          ≠ lerp_unorm8 128 (add 0 (scale_unorm8 128 (sub (splat 255) 2))) 127
      ∧ add (scale_unorm8 0 128) (scale_unorm8 64 (sub (splat 255) (scale_unorm8 2 128)))
          ≠ lerp_unorm8 64 (add 0 (scale_unorm8 64 (sub (splat 255) 2))) 128
      ∧ Builder (fun _ _ => true) ((premulKey .kSrcOver none).withCoverage .UniformA8)
          (pixelEnv 0x80000000 1 0x80808080 0) = .ok 0x807F7F7F
      ∧ Builder (fun _ _ => false) ((premulKey .kSrcOver none).withCoverage .UniformA8)
          (pixelEnv 0x80000000 1 0x80808080 0) = .ok 0x80808080 :=
  ⟨by decide, by decide, by decide, by decide, rfl, rfl⟩

end Builder

/-! ## Masks, LCD coverage and the alpha byte -/

namespace Builder
open skvm

theorem toInt32_eq (x : Nat) (hx : x < 2 ^ 31) : toInt32 x = (x : Int) := by
  have e : x % 2 ^ 32 = x := Nat.mod_eq_of_lt (by omega)
  simp only [toInt32, e]
  rw [if_pos hx]

theorem select_true (t f : Nat) (ht : t < 2 ^ 32) : select 0xffffffff t f = t := by
  have e : (0xffffffff : Nat) = 2 ^ 32 - 1 := by norm_num
  simp only [select, bit_or, bit_and]
  rw [Nat.land_comm 0xffffffff t, e, Nat.and_pow_two_sub_one_eq_mod]
  have e2 : (2 ^ 32 - 1) % 2 ^ 32 = 2 ^ 32 - 1 := by norm_num
  rw [e2, Nat.sub_self, Nat.zero_and]
  simp only [Nat.mod_mod, Nat.zero_mod, Nat.or_zero]
  omega

theorem select_false (t f : Nat) (hf : f < 2 ^ 32) : select 0 t f = f := by
  have e : (0xffffffff : Nat) - 0 % 2 ^ 32 = 2 ^ 32 - 1 := by norm_num
  simp only [select, bit_or, bit_and]
  rw [e, Nat.zero_and, Nat.land_comm, Nat.and_pow_two_sub_one_eq_mod]
  simp only [Nat.mod_mod, Nat.zero_mod, Nat.zero_or]
  omega

theorem min_eq (x y : Nat) (hx : x < 2 ^ 31) (hy : y < 2 ^ 31) :
    min x y = if x < y then x else y := by
  simp only [min, lt, toInt32_eq x hx, toInt32_eq y hy, Nat.cast_lt]
  split
  · exact select_true x y (by omega)
  · exact select_false x y (by omega)

theorem max_eq (x y : Nat) (hx : x < 2 ^ 31) (hy : y < 2 ^ 31) :
    max x y = if x > y then x else y := by
  simp only [max, gt, toInt32_eq x hx, toInt32_eq y hy, gt_iff_lt, Nat.cast_lt]
  split
  · exact select_true x y (by omega)
  · exact select_false x y (by omega)

/-- An accepted key that stores a pixel went through every stage. -/
theorem Builder_ok_stages (shouldPreScale : SkBlendMode → Bool → Bool) (key : Key) (env : Env)
    (px : Nat) (h : CanBuild key = true) (hpx : Builder shouldPreScale key env = .ok px) :
    ∃ src src1 src2 src3 dst n lp,
      shade key env 0 (unpack_8888 (uniform32 env.uniforms.paint_color)) = .ok src
        ∧ preScaleCoverage shouldPreScale key env (mask3D key env 2 src).2 (mask3D key env 2 src).1
            = .ok (src1, n, lp)
        ∧ loadDst key env 1 = .ok dst
        ∧ blend key src1
            (if (true && decide (key.alphaType = .kOpaque_SkAlphaType)) = true
              then { dst with a := splat 0xff } else dst) = .ok src2
        ∧ lerpCoverage key env n lp src2
            (if (true && decide (key.alphaType = .kOpaque_SkAlphaType)) = true
              then { dst with a := splat 0xff } else dst) = .ok src3
        ∧ storeDst key (if (true && decide (key.alphaType = .kOpaque_SkAlphaType)) = true
                        then { src3 with a := splat 0xff } else src3) = .ok px := by
  obtain ⟨-, -, hct, -, hbm⟩ := CanBuild_true key h
  rcases shade_cases key env 0 (unpack_8888 (uniform32 env.uniforms.paint_color)) with
    ⟨src, h1⟩ | ⟨h1, -⟩
  · rcases preScaleCoverage_cases shouldPreScale key env (mask3D key env 2 src).2
        (mask3D key env 2 src).1 with ⟨⟨src1, n, lp⟩, h2⟩ | ⟨h2, -⟩
    · obtain ⟨dst, h3⟩ := loadDst_ok key env 1 hct
      obtain ⟨src2, h4⟩ := blend_ok key src1
        (if (true && decide (key.alphaType = .kOpaque_SkAlphaType)) = true
              then { dst with a := splat 0xff } else dst) hbm
      obtain ⟨src3, h5⟩ := lerpCoverage_ok key env n lp src2
        (if (true && decide (key.alphaType = .kOpaque_SkAlphaType)) = true
              then { dst with a := splat 0xff } else dst)
      refine ⟨src, src1, src2, src3, dst, n, lp, h1, h2, h3, h4, h5, ?_⟩
      rw [← Builder_eq_of_stages shouldPreScale key env src src1 src2 src3 dst n lp h h1 h2 h3 h4 h5]
      exact hpx
    · rw [Builder_of_preScale_error shouldPreScale key env src _ h h1 h2] at hpx
      exact absurd hpx (by simp)
  · rw [Builder_of_shade_error shouldPreScale key env _ h h1] at hpx
    exact absurd hpx (by simp)

theorem testBit_255 (j : Nat) : Nat.testBit 255 j = decide (j < 8) := by
  have e : (255 : Nat) = 2 ^ 8 - 1 := by norm_num
  rw [e, Nat.testBit_two_pow_sub_one]

/-- The top byte of a packed 8888 word whose alpha lane holds 255 is 255,
whatever the other three lanes hold. -/
theorem pack_8888_alpha_ff (r g b : Nat) :
    store32 (pack_8888 ⟨r, g, b, splat 0xff⟩) >>> 24 = 255 := by
  have e : splat 0xff = 255 := by decide
  simp only [store32, pack_8888, pack, bit_or, shl, e, Nat.mod_mod]
  apply Nat.eq_of_testBit_eq
  intro i
  simp only [Nat.testBit_shiftRight, Nat.testBit_mod_two_pow, Nat.testBit_or,
    Nat.testBit_shiftLeft, testBit_255]
  by_cases hi : i < 8
  · have h1 : 24 + i < 32 := by omega
    have h2 : 24 + i ≥ 16 := by omega
    have h3 : 24 + i - 16 < 32 := by omega
    have h4 : 24 + i - 16 ≥ 8 := by omega
    have h5 : 24 + i - 16 - 8 < 8 := by omega
    simp [hi, h1, h2, h3, h4, h5]
  · have h1 : ¬ 24 + i < 32 := by omega
    simp [hi, h1]

theorem unpack_565_le (p : Nat) :
    (unpack_565 p).r ≤ 255 ∧ (unpack_565 p).g ≤ 255 ∧ (unpack_565 p).b ≤ 255
      ∧ (unpack_565 p).a = 255 := by
  rw [unpack_565_eq]
  dsimp only
  omega

/-- LCD coverage, once the destination is loaded: the alpha coverage is the
least of the three channel coverages when the source alpha held at the time of
the call is below the destination alpha, and the greatest otherwise. -/
theorem load_coverage_LCD (key : Key) (env : Env) (n : Nat) (src dst : Color)
    (hcov : key.coverage = .MaskLCD16) (hs : src.a < 2 ^ 31) (hd : dst.a < 2 ^ 31) :
    load_coverage key env n src (some dst)
      = .ok (some { r := (unpack_565 (load16 (env.arg n))).r
                    g := (unpack_565 (load16 (env.arg n))).g
                    b := (unpack_565 (load16 (env.arg n))).b
                    a := if src.a < dst.a
                         then Min.min (unpack_565 (load16 (env.arg n))).r
                                (Min.min (unpack_565 (load16 (env.arg n))).g
                                  (unpack_565 (load16 (env.arg n))).b)
                         else Max.max (unpack_565 (load16 (env.arg n))).r
                                (Max.max (unpack_565 (load16 (env.arg n))).g
                                  (unpack_565 (load16 (env.arg n))).b) }, n + 1) := by
  obtain ⟨hr, hg, hb, -⟩ := unpack_565_le (load16 (env.arg n))
  simp only [load_coverage, hcov, arg]
  generalize unpack_565 (load16 (env.arg n)) = cov at hr hg hb
  have e1 : min cov.g cov.b = Min.min cov.g cov.b := by
    rw [min_eq _ _ (by omega) (by omega)]
    split <;> omega
  have e2 : max cov.g cov.b = Max.max cov.g cov.b := by
    rw [max_eq _ _ (by omega) (by omega)]
    split <;> omega
  have e3 : min cov.r (Min.min cov.g cov.b) = Min.min cov.r (Min.min cov.g cov.b) := by
    rw [min_eq _ _ (by omega) (by omega)]
    split <;> omega
  have e4 : max cov.r (Max.max cov.g cov.b) = Max.max cov.r (Max.max cov.g cov.b) := by
    rw [max_eq _ _ (by omega) (by omega)]
    split <;> omega
  have e5 : select (lt src.a dst.a) (Min.min cov.r (Min.min cov.g cov.b))
        (Max.max cov.r (Max.max cov.g cov.b))
      = if src.a < dst.a then Min.min cov.r (Min.min cov.g cov.b)
        else Max.max cov.r (Max.max cov.g cov.b) := by
    simp only [lt, toInt32_eq _ hs, toInt32_eq _ hd, Nat.cast_lt]
    split
    · exact select_true _ _ (by omega)
    · exact select_false _ _ (by omega)
  simp only [e1, e2, e3, e4, e5]

/-- The alpha the blend leaves in the source: the source alpha for Src, and
`s.a + div255(d.a * (255 - s.a))` for SrcOver. -/
theorem blend_alpha (key : Key) (src d b : Color) (h4 : blend key src d = .ok b)
    (ha : src.a ≤ 255) (hd : d.a ≤ 255) :
    (key.blendMode = .kSrc → b = src)
      ∧ (key.blendMode = .kSrcOver → b.a = src.a + div255 (d.a * (255 - src.a)))
      ∧ b.a ≤ 510 := by
  unfold blend at h4
  cases hbm : key.blendMode <;> rw [hbm] at h4 <;> simp only [reduceCtorEq] at h4
  · have e := Except.ok.inj h4
    subst e
    exact ⟨fun _ => rfl, fun hh => absurd hh (by simp), by omega⟩
  · have e := Except.ok.inj h4
    subst e
    dsimp only
    have hs := scale_unorm8_le d.a (255 - src.a) hd (by omega)
    have hm : d.a * (255 - src.a) ≤ 255 * 255 := Nat.mul_le_mul hd (by omega)
    have e1 : scale_unorm8 d.a (255 - src.a) = div255 (d.a * (255 - src.a)) := by
      simp only [scale_unorm8, mul]
      rw [Nat.mod_eq_of_lt (by omega)]
    rw [sub_255 _ ha]
    have eA : add src.a (scale_unorm8 d.a (255 - src.a))
        = src.a + div255 (d.a * (255 - src.a)) := by
      rw [add_eq _ _ (by omega), e1]
    rw [eA, ← e1]
    exact ⟨fun hh => absurd hh (by simp), fun _ => rfl, by omega⟩

/-- A rejected key stops at the first assertion. -/
theorem Builder_of_not_CanBuild (shouldPreScale : SkBlendMode → Bool → Bool) (key : Key)
    (env : Env) (h : CanBuild key = false) :
    Builder shouldPreScale key env = .error .assertCanBuild := by
  simp [Builder, h]

end Builder

/-! ## Keys, the cache and the blitter: helper facts -/

theorem Key.beq_iff (x y : Key) :
    x.beq y = true ↔
      (x.colorType = y.colorType ∧ x.alphaType = y.alphaType ∧ x.coverage = y.coverage
        ∧ x.blendMode = y.blendMode
        ∧ SkColorSpace.get x.colorSpace = SkColorSpace.get y.colorSpace
        ∧ SkShader.get x.shader = SkShader.get y.shader
        ∧ SkColorFilter.get x.colorFilter = SkColorFilter.get y.colorFilter) := by
  simp only [Key.beq, Bool.and_eq_true, decide_eq_true_eq, and_assoc]

theorem Key.beq_refl (x : Key) : x.beq x = true := by
  rw [Key.beq_iff]
  exact ⟨rfl, rfl, rfl, rfl, rfl, rfl, rfl⟩

theorem Key.beq_symm (x y : Key) (h : x.beq y = true) : y.beq x = true := by
  rw [Key.beq_iff] at h ⊢
  obtain ⟨h1, h2, h3, h4, h5, h6, h7⟩ := h
  exact ⟨h1.symm, h2.symm, h3.symm, h4.symm, h5.symm, h6.symm, h7.symm⟩

theorem Key.beq_trans (x y z : Key) (h : x.beq y = true) (g : y.beq z = true) :
    x.beq z = true := by
  rw [Key.beq_iff] at h g ⊢
  obtain ⟨h1, h2, h3, h4, h5, h6, h7⟩ := h
  obtain ⟨g1, g2, g3, g4, g5, g6, g7⟩ := g
  exact ⟨h1.trans g1, h2.trans g2, h3.trans g3, h4.trans g4, h5.trans g5, h6.trans g6,
    h7.trans g7⟩

theorem Program.builtFor_empty (key : Key) : Program.builtFor { built := none } key := by
  intro k hk
  simp at hk

theorem Program.builtFor_done (key : Key) : (Builder.done key).builtFor key := by
  intro k hk
  simp only [Builder.done, Option.some.injEq] at hk
  subst hk
  exact Key.beq_refl _

theorem Program.builtFor_of_beq (p : Program) (k1 k2 : Key) (h : p.builtFor k1)
    (hk : k1.beq k2 = true) : p.builtFor k2 :=
  fun k hb => Key.beq_trans k k1 k2 (h k hb) hk

/-- What `find` returns, when it finds: an entry of the cache for an equal key,
now at the head of the list, and nothing but entries the cache had. -/
theorem SkLRUCache.find_some (c c1 : SkLRUCache) (key : Key) (found : Program)
    (h : c.find key = (some found, c1)) :
    ∃ e rest, c1.fLRU = e :: rest ∧ e.2 = found ∧ e.1.beq key = true ∧ e ∈ c.fLRU
      ∧ (∀ x ∈ rest, x ∈ c.fLRU) ∧ c1.fMaxCount = c.fMaxCount := by
  unfold SkLRUCache.find at h
  cases hf : c.fLRU.find? fun e => e.1.beq key with
  | none =>
    rw [hf] at h
    simp at h
  | some e =>
    rw [hf] at h
    simp only [Prod.mk.injEq, Option.some.injEq] at h
    obtain ⟨h1, h2⟩ := h
    subst h2
    have hb : e.1.beq key = true := by
      have := List.find?_some hf
      simpa using this
    exact ⟨e, _, rfl, h1, hb, List.mem_of_find?_eq_some hf,
      fun x hx => List.mem_of_mem_eraseP hx, rfl⟩

/-- What `find` returns, when it does not find: the cache as it was, which has
no entry for an equal key. -/
theorem SkLRUCache.find_none (c c1 : SkLRUCache) (key : Key)
    (h : c.find key = (none, c1)) :
    c1 = c ∧ ∀ e ∈ c.fLRU, e.1.beq key = false := by
  unfold SkLRUCache.find at h
  cases hf : c.fLRU.find? fun e => e.1.beq key with
  | none =>
    rw [hf] at h
    simp only [Prod.mk.injEq, true_and] at h
    refine ⟨h.symm, fun e he => ?_⟩
    have := List.find?_eq_none.mp hf e he
    simpa using this
  | some e =>
    rw [hf] at h
    simp at h

theorem SkLRUCache.sound_insert (c : SkLRUCache) (key : Key) (p : Program) (hc : c.sound)
    (hp : p.builtFor key) : (c.insert key p).sound := by
  intro e he
  have hm : e ∈ (key, p) :: c.fLRU := List.mem_of_mem_take he
  rcases List.mem_cons.mp hm with rfl | h
  · exact hp
  · exact hc e h

/-- Moving the program out of the entry that `find` found, or a program for an
equal key into it, keeps the cache sound. -/
theorem SkLRUCache.sound_find_assign (c c1 : SkLRUCache) (key : Key) (found p : Program)
    (hc : c.sound) (h : c.find key = (some found, c1)) (hp : p.builtFor key) :
    (c1.assign p).sound ∧ found.builtFor key := by
  obtain ⟨e, rest, hl, hf, hb, hm, hr, -⟩ := SkLRUCache.find_some c c1 key found h
  constructor
  · intro x hx
    simp only [SkLRUCache.assign, hl] at hx
    rcases List.mem_cons.mp hx with rfl | hx
    · exact Program.builtFor_of_beq p key e.1 hp (Key.beq_symm _ _ hb)
    · exact hc x (hr x hx)
  · rw [← hf]
    exact Program.builtFor_of_beq e.2 e.1 key (hc e hm) hb

/-- `buildProgram` keeps the cache sound and returns a program built for a key
equal to the coverage-specialised key, and that program is not empty. -/
theorem Blitter.buildProgram_sound (b : Blitter) (cache : Option SkLRUCache)
    (coverage : Coverage) (hc : ∀ c, cache = some c → c.sound) :
    (∀ c, (b.buildProgram cache coverage).2 = some c → c.sound)
      ∧ (b.buildProgram cache coverage).1.builtFor (b.fKey.withCoverage coverage)
      ∧ (b.buildProgram cache coverage).1.empty = false := by
  unfold Blitter.buildProgram
  rcases cache with _ | c
  · simp only [Program.empty, Option.isNone_none, Bool.true_eq_false, if_false]
    exact ⟨fun c h => by simp at h, Program.builtFor_done _, rfl⟩
  · have hcs := hc c rfl
    rcases hfind : c.find (b.fKey.withCoverage coverage) with ⟨_ | found, c1⟩
    · obtain ⟨h1, -⟩ := SkLRUCache.find_none c c1 _ hfind
      subst h1
      simp only [hfind, Program.empty, Option.isNone_none, Bool.true_eq_false, if_false]
      refine ⟨fun c2 h => ?_, Program.builtFor_done _, rfl⟩
      simp only [Option.some.injEq] at h
      subst h
      exact hcs
    · obtain ⟨hs, hb⟩ := SkLRUCache.sound_find_assign c c1 _ found { built := none } hcs hfind
        (Program.builtFor_empty _)
      simp only [hfind]
      cases he : found.empty
      · simp only [if_true]
        refine ⟨fun c2 h => ?_, hb, he⟩
        simp only [Option.some.injEq] at h
        subst h
        exact hs
      · simp only [Bool.true_eq_false, if_false]
        refine ⟨fun c2 h => ?_, Program.builtFor_done _, rfl⟩
        simp only [Option.some.injEq] at h
        subst h
        exact hs

theorem Blitter.cache_program_sound (b : Blitter) (c : SkLRUCache) (p : Program)
    (coverage : Coverage) (hc : c.sound) (hp : p.builtFor (b.fKey.withCoverage coverage)) :
    (b.cache_program c p coverage).sound := by
  unfold Blitter.cache_program
  cases he : p.empty
  · simp only [if_true]
    rcases hfind : c.find (b.fKey.withCoverage coverage) with ⟨_ | found, c1⟩
    · obtain ⟨h1, -⟩ := SkLRUCache.find_none c c1 _ hfind
      subst h1
      simp only [hfind]
      exact SkLRUCache.sound_insert _ _ _ hc hp
    · simp only [hfind]
      exact (SkLRUCache.sound_find_assign c c1 _ found p hc hfind hp).1
  · simpa using hc

theorem Blitter.fKey_setSlot (b : Blitter) (c : Coverage) (p : Program) :
    (b.setSlot c p).fKey = b.fKey := by
  cases c <;> rfl

theorem Blitter.ok_setSlot (b : Blitter) (c : Coverage) (p : Program) :
    (b.setSlot c p).ok = b.ok := by
  cases c <;> rfl

theorem Blitter.slot_setSlot (b : Blitter) (c d : Coverage) (p : Program) :
    (b.setSlot c p).slot d = if d = c then p else b.slot d := by
  cases c <;> cases d <;> rfl

theorem Blitter.destructor_sound (b : Blitter) (cache : Option SkLRUCache)
    (hc : ∀ c, cache = some c → c.sound)
    (hb : ∀ coverage, (b.slot coverage).builtFor (b.fKey.withCoverage coverage)) :
    ∀ c, b.destructor cache = some c → c.sound := by
  intro c2 h
  unfold Blitter.destructor at h
  rcases cache with _ | c
  · simp at h
  · simp only [Option.some.injEq] at h
    subst h
    have h0 := hc c rfl
    have h1 := Blitter.cache_program_sound b _ _ .Full h0 (hb .Full)
    have h2 := Blitter.cache_program_sound b _ _ .UniformA8 h1 (hb .UniformA8)
    have h3 := Blitter.cache_program_sound b _ _ .MaskA8 h2 (hb .MaskA8)
    have h4 := Blitter.cache_program_sound b _ _ .Mask3D h3 (hb .Mask3D)
    exact Blitter.cache_program_sound b _ _ .MaskLCD16 h4 (hb .MaskLCD16)

/-- Selecting the program of a slot keeps the cache and the slots sound, and
leaves in the slot a program that is not empty. -/
theorem Blitter.selectProgram_sound (b : Blitter) (cache : Option SkLRUCache)
    (coverage : Coverage) (hc : ∀ c, cache = some c → c.sound)
    (hb : ∀ d, (b.slot d).builtFor (b.fKey.withCoverage d)) :
    (∀ c, (b.selectProgram cache coverage).2 = some c → c.sound)
      ∧ (∀ d, ((b.selectProgram cache coverage).1.slot d).builtFor
            ((b.selectProgram cache coverage).1.fKey.withCoverage d))
      ∧ (b.selectProgram cache coverage).1.fKey = b.fKey
      ∧ ((b.selectProgram cache coverage).1.slot coverage).empty = false := by
  unfold Blitter.selectProgram
  cases he : (b.slot coverage).empty
  · simp only [Bool.false_eq_true, if_false]
    exact ⟨hc, hb, trivial, he⟩
  · obtain ⟨h1, h2, h3⟩ := Blitter.buildProgram_sound b cache coverage hc
    simp only [if_true]
    refine ⟨h1, fun d => ?_, Blitter.fKey_setSlot _ _ _, ?_⟩
    · rw [Blitter.slot_setSlot, Blitter.fKey_setSlot]
      split
      · rename_i hd
        subst hd
        exact h2
      · exact hb d
    · rw [Blitter.slot_setSlot, if_pos rfl]
      exact h3

theorem Thread.sound_step (t : Thread) (op : Op) (h : t.sound) : (t.step op).sound := by
  obtain ⟨hc, hb⟩ := h
  cases op with
  | construct device paint =>
    refine ⟨hc, fun b hm coverage => ?_⟩
    simp only [Thread.step, List.mem_append, List.mem_singleton] at hm
    rcases hm with hm | rfl
    · exact hb b hm coverage
    · cases coverage <;> exact Program.builtFor_empty _
  | blit i coverage =>
    simp only [Thread.step]
    cases hg : t.blitters.get? i with
    | none => exact ⟨hc, hb⟩
    | some b =>
      have hbm : b ∈ t.blitters := List.get?_mem hg
      cases hok : b.ok
      · simp only [hok, Bool.false_eq_true, if_false]
        exact ⟨hc, hb⟩
      · obtain ⟨h1, h2, -, -⟩ := Blitter.selectProgram_sound b t.cache coverage hc (hb b hbm)
        simp only [hok, if_true]
        refine ⟨h1, fun x hx d => ?_⟩
        rcases List.mem_or_eq_of_mem_set hx with hx | rfl
        · exact hb x hx d
        · exact h2 d
  | teardown i =>
    simp only [Thread.step]
    cases hg : t.blitters.get? i with
    | none => exact ⟨hc, hb⟩
    | some b =>
      have hbm : b ∈ t.blitters := List.get?_mem hg
      refine ⟨Blitter.destructor_sound b t.cache hc (hb b hbm), fun x hx d => ?_⟩
      exact hb x (List.mem_of_mem_eraseIdx hx) d

theorem Thread.sound_run (ops : List Op) (t : Thread) (h : t.sound) : (t.run ops).sound := by
  induction ops generalizing t with
  | nil => exact h
  | cons op ops ih => exact ih (t.step op) (Thread.sound_step t op h)

theorem Thread.sound_start (threadLocal : Bool) : (Thread.start threadLocal).sound := by
  refine ⟨fun c hc e he => ?_, fun b hb => by simp [Thread.start] at hb⟩
  cases threadLocal <;> simp [Thread.start, try_acquire_program_cache] at hc
  subst hc
  simp at he

theorem List.find?_take_mono {α : Type} (f : α → Bool) (l : List α) (m n : Nat) (x : α)
    (hmn : m ≤ n) (h : (l.take m).find? f = some x) : (l.take n).find? f = some x := by
  induction l generalizing m n with
  | nil => simp at h
  | cons a t ih =>
    cases m with
    | zero => simp at h
    | succ m =>
      cases n with
      | zero => omega
      | succ n =>
        simp only [List.take_succ_cons, List.find?_cons] at h ⊢
        cases hfa : f a
        · rw [hfa] at h
          exact ih m n (by omega) h
        · rw [hfa] at h
          exact h

theorem List.find?_of_take {α : Type} (f : α → Bool) (l : List α) (m : Nat) (x : α)
    (h : (l.take m).find? f = some x) : l.find? f = some x := by
  have := List.find?_take_mono f l m (max m l.length) x (le_max_left _ _) h
  rwa [List.take_of_length_le (le_max_right _ _)] at this

/-- Erasing the first element that satisfies `g` keeps the first element that
satisfies `f` within the same prefix, when nothing satisfies both. -/
theorem List.find?_take_eraseP {α : Type} (f g : α → Bool) (l : List α) (n : Nat) (x : α)
    (hfg : ∀ y, g y = true → f y = false)
    (h : (l.take (n + 1)).find? f = some x) :
    ((l.eraseP g).take (n + 1)).find? f = some x := by
  induction l generalizing n with
  | nil => simp at h
  | cons a t ih =>
    cases hga : g a
    · rw [List.eraseP_cons_of_neg (by simp [hga])]
      simp only [List.take_succ_cons, List.find?_cons] at h ⊢
      cases hfa : f a
      · rw [hfa] at h
        cases n with
        | zero => simp at h
        | succ n => exact ih n h
      · rw [hfa] at h
        exact h
    · rw [List.eraseP_cons_of_pos hga]
      simp only [List.take_succ_cons, List.find?_cons, hfg a hga] at h
      exact List.find?_take_mono f t n (n + 1) x (by omega) h

theorem SkLRUCache.holds_mono (c : SkLRUCache) (key : Key) (p : Program) (m n : Nat)
    (hmn : m ≤ n) (h : c.holds key p m) : c.holds key p n := by
  obtain ⟨e, he, hp⟩ := h
  exact ⟨e, List.find?_take_mono _ _ (m + 1) (n + 1) e (by omega) he, hp⟩

/-- A key the cache holds a program for is found with that program. -/
theorem SkLRUCache.find_of_holds (c : SkLRUCache) (key : Key) (p : Program) (n : Nat)
    (h : c.holds key p n) : (c.find key).1 = some p := by
  obtain ⟨e, he, hp⟩ := h
  have hf := List.find?_of_take _ _ _ _ he
  simp only [SkLRUCache.find, hf, hp]

theorem Key.beq_withCoverage_ne (k : Key) (c d : Coverage) (h : c ≠ d) :
    (k.withCoverage c).beq (k.withCoverage d) = false := by
  cases hb : (k.withCoverage c).beq (k.withCoverage d)
  · rfl
  · rw [Key.beq_iff] at hb
    exact absurd hb.2.2.1 h

theorem Blitter.fMaxCount_cache_program (b : Blitter) (c : SkLRUCache) (p : Program)
    (coverage : Coverage) : (b.cache_program c p coverage).fMaxCount = c.fMaxCount := by
  unfold Blitter.cache_program
  cases he : p.empty
  · simp only [if_true]
    rcases hfind : c.find (b.fKey.withCoverage coverage) with ⟨_ | found, c1⟩
    · obtain ⟨h1, -⟩ := SkLRUCache.find_none c c1 _ hfind
      subst h1
      simp only [hfind, SkLRUCache.insert]
    · obtain ⟨e, rest, hl, -, -, -, -, hm⟩ := SkLRUCache.find_some c c1 _ found hfind
      simp only [hfind, SkLRUCache.assign, hl, hm]
  · simp

/-- After a program that is not empty went through `cache_program`, the cache
holds it at the head of the list. -/
theorem Blitter.cache_program_holds (b : Blitter) (c : SkLRUCache) (p : Program)
    (coverage : Coverage) (he : p.empty = false) (hmax : 1 ≤ c.fMaxCount) :
    (b.cache_program c p coverage).holds (b.fKey.withCoverage coverage) p 0 := by
  unfold Blitter.cache_program
  simp only [he, if_true]
  rcases hfind : c.find (b.fKey.withCoverage coverage) with ⟨_ | found, c1⟩
  · obtain ⟨h1, -⟩ := SkLRUCache.find_none c c1 _ hfind
    subst h1
    simp only [hfind, SkLRUCache.insert, SkLRUCache.holds]
    obtain ⟨m, hm⟩ : ∃ m, c1.fMaxCount = m + 1 := ⟨c1.fMaxCount - 1, by omega⟩
    rw [hm]
    exact ⟨(b.fKey.withCoverage coverage, p), by simp [Key.beq_refl], rfl⟩
  · obtain ⟨e, rest, hl, -, hb, -, -, -⟩ := SkLRUCache.find_some c c1 _ found hfind
    simp only [hfind, SkLRUCache.assign, hl, SkLRUCache.holds]
    exact ⟨(e.1, p), by simp [hb], rfl⟩

/-- A program the cache holds among its first `n + 1` entries is still held,
among the first `n + 2`, after `cache_program` for another key. -/
theorem Blitter.cache_program_keeps (b : Blitter) (c : SkLRUCache) (key : Key) (p v : Program)
    (coverage : Coverage) (n : Nat) (h : c.holds key p n) (hmax : n + 2 ≤ c.fMaxCount)
    (hne : (b.fKey.withCoverage coverage).beq key = false) :
    (b.cache_program c v coverage).holds key p (n + 1) := by
  unfold Blitter.cache_program
  cases he : v.empty
  · simp only [if_true]
    obtain ⟨x, hx, hp⟩ := h
    rcases hfind : c.find (b.fKey.withCoverage coverage) with ⟨_ | found, c1⟩
    · obtain ⟨h1, -⟩ := SkLRUCache.find_none c c1 _ hfind
      subst h1
      simp only [hfind, SkLRUCache.insert, SkLRUCache.holds]
      refine ⟨x, ?_, hp⟩
      rw [List.take_take, Nat.min_eq_left (by omega)]
      simp only [List.take_succ_cons, List.find?_cons, hne]
      exact hx
    · have hfind2 := hfind
      unfold SkLRUCache.find at hfind2
      cases hf : c.fLRU.find? fun e => e.1.beq (b.fKey.withCoverage coverage) with
      | none =>
        rw [hf] at hfind2
        simp at hfind2
      | some e =>
        rw [hf] at hfind2
        simp only [Prod.mk.injEq, Option.some.injEq] at hfind2
        obtain ⟨-, h2⟩ := hfind2
        subst h2
        have hbe : e.1.beq (b.fKey.withCoverage coverage) = true := by
          have := List.find?_some hf
          simpa using this
        have hek : e.1.beq key = false := by
          cases hh : e.1.beq key
          · rfl
          · have := Key.beq_trans _ _ _ (Key.beq_symm _ _ hbe) hh
            rw [hne] at this
            exact absurd this (by simp)
        simp only [hfind, SkLRUCache.assign, SkLRUCache.holds]
        refine ⟨x, ?_, hp⟩
        simp only [List.take_succ_cons, List.find?_cons, hek]
        apply List.find?_take_eraseP _ _ _ _ _ _ hx
        intro y hy
        cases hh : y.1.beq key
        · rfl
        · have := Key.beq_trans _ _ _ (Key.beq_symm _ _ hy) hh
          rw [hne] at this
          exact absurd this (by simp)
  · simp only [Bool.true_eq_false, if_false]
    exact SkLRUCache.holds_mono c key p n (n + 1) (by omega) h

/-! ## The claims on masks, opacity and unsupported keys -/

namespace Builder
open skvm

/-- C11: in a Mask3D program, for source channels and alpha in [0,255] and every
pair of mask bytes (M, A), each of r, g, b is replaced by
`min(div255(c * M) + A, a)`, which never exceeds the alpha `a`, and the alpha
lane is left as it was. -/
theorem Mask3D_clamp (key : Key) (env : Env) (nargs : Nat) (src : Color)
    (hcov : key.coverage = .Mask3D)
    (hr : src.r ≤ 255) (hg : src.g ≤ 255) (hb : src.b ≤ 255) (ha : src.a ≤ 255) :
    (mask3D key env nargs src).1
        = { r := Min.min (div255 (src.r * load8 (env.arg nargs)) + load8 (env.arg (nargs + 1)))
                  src.a
            g := Min.min (div255 (src.g * load8 (env.arg nargs)) + load8 (env.arg (nargs + 1)))
                  src.a
            b := Min.min (div255 (src.b * load8 (env.arg nargs)) + load8 (env.arg (nargs + 1)))
                  src.a
            a := src.a }
      ∧ (mask3D key env nargs src).1.r ≤ src.a
      ∧ (mask3D key env nargs src).1.g ≤ src.a
      ∧ (mask3D key env nargs src).1.b ≤ src.a
      ∧ (mask3D key env nargs src).1.a = src.a := by
  have hM : load8 (env.arg nargs) ≤ 255 := by
    simp only [load8]
    omega
  have hA : load8 (env.arg (nargs + 1)) ≤ 255 := by
    simp only [load8]
    omega
  have key1 : ∀ c, c ≤ 255 →
      min (add (scale_unorm8 c (load8 (env.arg nargs))) (load8 (env.arg (nargs + 1)))) src.a
        = Min.min (div255 (c * load8 (env.arg nargs)) + load8 (env.arg (nargs + 1))) src.a := by
    intro c hc
    have hs := scale_unorm8_le c _ hc hM
    have e1 : scale_unorm8 c (load8 (env.arg nargs)) = div255 (c * load8 (env.arg nargs)) := by
      have hm : c * load8 (env.arg nargs) ≤ 255 * 255 := Nat.mul_le_mul hc hM
      simp only [scale_unorm8, mul]
      rw [Nat.mod_eq_of_lt (by omega)]
    rw [add_eq _ _ (by omega), min_eq _ _ (by omega) (by omega), ← e1, Nat.min_def]
    split <;> split <;> omega
  have e : (mask3D key env nargs src).1
        = { r := Min.min (div255 (src.r * load8 (env.arg nargs)) + load8 (env.arg (nargs + 1)))
                  src.a
            g := Min.min (div255 (src.g * load8 (env.arg nargs)) + load8 (env.arg (nargs + 1)))
                  src.a
            b := Min.min (div255 (src.b * load8 (env.arg nargs)) + load8 (env.arg (nargs + 1)))
                  src.a
            a := src.a } := by
    simp only [mask3D, hcov, if_true, arg, key1 _ hr, key1 _ hg, key1 _ hb]
  rw [e]
  exact ⟨rfl, Nat.min_le_right _ _, Nat.min_le_right _ _, Nat.min_le_right _ _, rfl⟩

/-- An instance of C11: the colour (100, 50, 0, 120) under M = A = 40. -/
theorem Mask3D_clamp_witness :
    (mask3D ((premulKey .kSrcOver none).withCoverage .Mask3D) (pixelEnv 0 0 0 40) 2
        ⟨100, 50, 0, 120⟩).1 = ⟨56, 48, 40, 120⟩
      ∧ (mask3D ((premulKey .kSrcOver none).withCoverage .Mask3D) (pixelEnv 0 0 0 40) 2
        ⟨100, 50, 0, 120⟩).1.r ≤ 120 :=
  ⟨(Mask3D_clamp ((premulKey .kSrcOver none).withCoverage .Mask3D) (pixelEnv 0 0 0 40) 2
      ⟨100, 50, 0, 120⟩ rfl (by decide) (by decide) (by decide) (by decide)).1,
   (Mask3D_clamp ((premulKey .kSrcOver none).withCoverage .Mask3D) (pixelEnv 0 0 0 40) 2
      ⟨100, 50, 0, 120⟩ rfl (by decide) (by decide) (by decide) (by decide)).2.1⟩

/-- C12, as amended: in a MaskLCD16 program, for Src and for SrcOver, coverage is
loaded after the blend, and the alpha coverage is the least of the three unpacked
channel coverages when the source alpha as the blend left it is below the
destination alpha, and the greatest of the three otherwise.  For Src that alpha
is the paint or shader alpha that entered the blend; for SrcOver it is
`s.a + div255(d.a * (255 - s.a))`. -/
theorem MaskLCD16_alpha_coverage (shouldPreScale : SkBlendMode → Bool → Bool) (key : Key)
    (env : Env) (src dst d b : Color) (h : CanBuild key = true)
    (hcov : key.coverage = .MaskLCD16) (hP : shouldPreScale key.blendMode true = false)
    (h1 : shade key env 0 (unpack_8888 (uniform32 env.uniforms.paint_color)) = .ok src)
    (ha : src.a ≤ 255)
    (h3 : loadDst key env 1 = .ok dst)
    (hd : d = if (true && decide (key.alphaType = .kOpaque_SkAlphaType)) = true
              then { dst with a := splat 0xff } else dst)
    (h4 : blend key src d = .ok b) :
    (key.blendMode = .kSrc → b.a = src.a)
      ∧ (key.blendMode = .kSrcOver → b.a = src.a + div255 (d.a * (255 - src.a)))
      ∧ load_coverage key env 2 b (some d)
          = .ok (some { r := (unpack_565 (load16 (env.arg 2))).r
                        g := (unpack_565 (load16 (env.arg 2))).g
                        b := (unpack_565 (load16 (env.arg 2))).b
                        a := if b.a < d.a
                             then Min.min (unpack_565 (load16 (env.arg 2))).r
                                    (Min.min (unpack_565 (load16 (env.arg 2))).g
                                      (unpack_565 (load16 (env.arg 2))).b)
                             else Max.max (unpack_565 (load16 (env.arg 2))).r
                                    (Max.max (unpack_565 (load16 (env.arg 2))).g
                                      (unpack_565 (load16 (env.arg 2))).b) }, 3)
      ∧ Builder shouldPreScale key env
          = storeDst key
              (if (true && decide (key.alphaType = .kOpaque_SkAlphaType)) = true
               then { r := lerp_unorm8 d.r b.r (unpack_565 (load16 (env.arg 2))).r
                      g := lerp_unorm8 d.g b.g (unpack_565 (load16 (env.arg 2))).g
                      b := lerp_unorm8 d.b b.b (unpack_565 (load16 (env.arg 2))).b
                      a := splat 0xff }
               else { r := lerp_unorm8 d.r b.r (unpack_565 (load16 (env.arg 2))).r
                      g := lerp_unorm8 d.g b.g (unpack_565 (load16 (env.arg 2))).g
                      b := lerp_unorm8 d.b b.b (unpack_565 (load16 (env.arg 2))).b
                      a := lerp_unorm8 d.a b.a
                             (if b.a < d.a
                              then Min.min (unpack_565 (load16 (env.arg 2))).r
                                     (Min.min (unpack_565 (load16 (env.arg 2))).g
                                       (unpack_565 (load16 (env.arg 2))).b)
                              else Max.max (unpack_565 (load16 (env.arg 2))).r
                                     (Max.max (unpack_565 (load16 (env.arg 2))).g
                                       (unpack_565 (load16 (env.arg 2))).b)) }) := by
  obtain ⟨-, -, -, hda⟩ := loadDst_le key env 1 dst h3
  have hda2 : d.a ≤ 255 := by
    rw [hd]
    split
    · show splat 0xff ≤ 255
      decide
    · exact hda
  obtain ⟨bs, bo, bb⟩ := blend_alpha key src d b h4 ha hda2
  have hl := load_coverage_LCD key env 2 b d hcov (by omega) (by omega)
  refine ⟨fun hh => by rw [bs hh], bo, hl, ?_⟩
  have hm : mask3D key env 2 src = (src, 2) := by simp [mask3D, hcov]
  have h2 : preScaleCoverage shouldPreScale key env (mask3D key env 2 src).2
      (mask3D key env 2 src).1 = .ok (src, 2, true) := by
    simp [preScaleCoverage, hcov, hP, hm]
  have h5 : lerpCoverage key env 2 true b d
      = .ok { r := lerp_unorm8 d.r b.r (unpack_565 (load16 (env.arg 2))).r
              g := lerp_unorm8 d.g b.g (unpack_565 (load16 (env.arg 2))).g
              b := lerp_unorm8 d.b b.b (unpack_565 (load16 (env.arg 2))).b
              a := lerp_unorm8 d.a b.a
                     (if b.a < d.a
                      then Min.min (unpack_565 (load16 (env.arg 2))).r
                             (Min.min (unpack_565 (load16 (env.arg 2))).g
                               (unpack_565 (load16 (env.arg 2))).b)
                      else Max.max (unpack_565 (load16 (env.arg 2))).r
                             (Max.max (unpack_565 (load16 (env.arg 2))).g
                               (unpack_565 (load16 (env.arg 2))).b)) } := by
    simp only [lerpCoverage, if_true, hl]
  subst hd
  rw [Builder_eq_of_stages shouldPreScale key env src src b _ dst 2 true h h1 h2 h3 h4 h5]

/-- An instance of the amended C12: a paint of alpha 100 over a destination of
alpha 200 with LCD coverage (255, 0, 0); the blend leaves alpha 222 and the
alpha coverage is the greatest of the three, 255. -/
theorem MaskLCD16_alpha_coverage_witness :
    blend ((premulKey .kSrcOver none).withCoverage .MaskLCD16) ⟨0, 0, 0, 100⟩ ⟨0, 0, 0, 200⟩
        = .ok ⟨0, 0, 0, 222⟩
      ∧ load_coverage ((premulKey .kSrcOver none).withCoverage .MaskLCD16)
          (pixelEnv 0x64000000 0 0xC8000000 0xF800) 2 ⟨0, 0, 0, 222⟩ (some ⟨0, 0, 0, 200⟩)
        = .ok (some ⟨255, 0, 0, 255⟩, 3) :=
  ⟨rfl,
   (MaskLCD16_alpha_coverage (fun _ _ => false)
      ((premulKey .kSrcOver none).withCoverage .MaskLCD16)
      (pixelEnv 0x64000000 0 0xC8000000 0xF800) ⟨0, 0, 0, 100⟩ ⟨0, 0, 0, 200⟩ ⟨0, 0, 0, 200⟩
      ⟨0, 0, 0, 222⟩ rfl rfl rfl rfl (by decide) rfl rfl rfl).2.2.1⟩

/-- C12 as stated fails for SrcOver: the paint alpha entering the blend is 100,
the destination alpha is 200, the three channel coverages are (255, 0, 0); the
claim gives the least of them, 0, as alpha coverage, which would leave the
alpha at 200; the program compares the blended alpha 222 with 200, takes the
greatest, 255, and stores alpha 222 (the word `0xDE000000`). -/
theorem LCD_alpha_coverage_uses_blended_alpha :
    shade ((premulKey .kSrcOver none).withCoverage .MaskLCD16)
        (pixelEnv 0x64000000 0 0xC8000000 0xF800) 0 (unpack_8888 (uniform32 0x64000000))
        = .ok ⟨0, 0, 0, 100⟩
      ∧ loadDst ((premulKey .kSrcOver none).withCoverage .MaskLCD16)
          (pixelEnv 0x64000000 0 0xC8000000 0xF800) 1 = .ok ⟨0, 0, 0, 200⟩
      ∧ unpack_565 (load16 0xF800) = ⟨255, 0, 0, 255⟩
      ∧ blend ((premulKey .kSrcOver none).withCoverage .MaskLCD16) ⟨0, 0, 0, 100⟩
          ⟨0, 0, 0, 200⟩ = .ok ⟨0, 0, 0, 222⟩
      ∧ load_coverage ((premulKey .kSrcOver none).withCoverage .MaskLCD16)
          (pixelEnv 0x64000000 0 0xC8000000 0xF800) 2 ⟨0, 0, 0, 222⟩ (some ⟨0, 0, 0, 200⟩)
        = .ok (some ⟨255, 0, 0, 255⟩, 3)
      ∧ Builder (fun _ _ => false) ((premulKey .kSrcOver none).withCoverage .MaskLCD16)
          (pixelEnv 0x64000000 0 0xC8000000 0xF800) = .ok 0xDE000000
      ∧ lerp_unorm8 200 222 0 = 200 :=
  ⟨rfl, rfl, rfl, rfl, rfl, rfl, rfl⟩

/-- C13: for every buildable key whose alpha type is Opaque and whose colour type
is RGBA_8888 or BGRA_8888, whatever the paint colour, the shader, the
destination pixel, the blend mode and the coverage inputs, the alpha byte (bits
24-31) of the pixel the program stores is 255. -/
theorem opaque_8888_stores_alpha_255 (shouldPreScale : SkBlendMode → Bool → Bool) (key : Key)
    (env : Env) (px : Nat) (h : CanBuild key = true)
    (hat : key.alphaType = .kOpaque_SkAlphaType)
    (hct : key.colorType = .kRGBA_8888_SkColorType ∨ key.colorType = .kBGRA_8888_SkColorType)
    (hpx : Builder shouldPreScale key env = .ok px) :
    px >>> 24 = 255 := by
  obtain ⟨src, src1, src2, src3, dst, n, lp, -, -, -, -, -, hst⟩ :=
    Builder_ok_stages shouldPreScale key env px h hpx
  simp only [hat, decide_True, Bool.and_self, if_true] at hst
  unfold storeDst at hst
  rcases hct with hc | hc <;> rw [hc] at hst <;> have e := Except.ok.inj hst <;> subst e
  · exact pack_8888_alpha_ff _ _ _
  · exact pack_8888_alpha_ff _ _ _

/-- An instance of C13: a half transparent paint over a transparent pixel of a
destination tagged opaque. -/
theorem opaque_8888_stores_alpha_255_witness :
    Builder (fun _ _ => true)
        { colorType := .kRGBA_8888_SkColorType, alphaType := .kOpaque_SkAlphaType,
          coverage := .Full, blendMode := .kSrcOver, colorSpace := none, shader := none,
          colorFilter := none }
        (pixelEnv 0x80402010 0 0 0) = .ok 0xFF402010
      ∧ 0xFF402010 >>> 24 = 255 :=
  ⟨rfl,
   opaque_8888_stores_alpha_255 (fun _ _ => true)
      { colorType := .kRGBA_8888_SkColorType, alphaType := .kOpaque_SkAlphaType,
        coverage := .Full, blendMode := .kSrcOver, colorSpace := none, shader := none,
        colorFilter := none }
      (pixelEnv 0x80402010 0 0 0) 0xFF402010 rfl rfl (Or.inl rfl) rfl⟩

/-- C14: a key that has a colour filter, or a colour type outside RGB_565,
RGBA_8888, BGRA_8888, or alpha type Unpremul, or a blend mode outside Src and
SrcOver, or a shader that declines (when probed, or when asked to emit its
lanes) makes the constructor trap, at `SkASSERT(CanBuild(key))` or at
`SkAssertResult` on the shader, and it never finishes with a program that stores
a pixel. -/
theorem unsupported_key_traps (shouldPreScale : SkBlendMode → Bool → Bool) (key : Key)
    (env : Env)
    (hbad : key.colorFilter ≠ none
      ∨ (∃ n, key.colorType = .other n)
      ∨ key.alphaType = .kUnpremul_SkAlphaType
      ∨ (∃ n, key.blendMode = .other n)
      ∨ (∃ sh, key.shader = some sh
          ∧ ((sh.program none key.colorSpace 0 0 ⟨0, 0, 0, 0⟩).1 = false
            ∨ (sh.program (some env) key.colorSpace 0 sizeof_Uniforms
                (unpack_8888 (uniform32 env.uniforms.paint_color))).1 = false))) :
    (Builder shouldPreScale key env = .error .assertCanBuild
        ∨ Builder shouldPreScale key env = .error .assertShaderProgram)
      ∧ ∀ px, Builder shouldPreScale key env ≠ .ok px := by
  have main : Builder shouldPreScale key env = .error .assertCanBuild
        ∨ Builder shouldPreScale key env = .error .assertShaderProgram := by
    cases hcb : CanBuild key
    · exact Or.inl (Builder_of_not_CanBuild shouldPreScale key env hcb)
    · obtain ⟨hs, hcf, hct, hat, hbm⟩ := CanBuild_true key hcb
      rcases hbad with hb | ⟨n, hb⟩ | hb | ⟨n, hb⟩ | ⟨sh, hsh, hb | hb⟩
      · exact absurd hcf hb
      · rw [hb] at hct
        simp at hct
      · exact absurd hb hat
      · rw [hb] at hbm
        simp at hbm
      · rw [hs sh hsh] at hb
        exact absurd hb (by simp)
      · right
        apply Builder_of_shade_error shouldPreScale key env _ hcb
        simp [shade, hsh, hb]
  refine ⟨main, fun px hpx => ?_⟩
  rcases main with hm | hm <;> rw [hm] at hpx <;> exact absurd hpx (by simp)

/-- An instance of C14: a key with a colour filter. -/
theorem unsupported_key_traps_witness :
    (Builder (fun _ _ => false)
          { colorType := .kRGBA_8888_SkColorType, alphaType := .kPremul_SkAlphaType,
            coverage := .Full, blendMode := .kSrc, colorSpace := none, shader := none,
            colorFilter := some ⟨7⟩ }
          (pixelEnv 0x80402010 0 0 0) = .error .assertCanBuild
        ∨ Builder (fun _ _ => false)
          { colorType := .kRGBA_8888_SkColorType, alphaType := .kPremul_SkAlphaType,
            coverage := .Full, blendMode := .kSrc, colorSpace := none, shader := none,
            colorFilter := some ⟨7⟩ }
          (pixelEnv 0x80402010 0 0 0) = .error .assertShaderProgram)
      ∧ ∀ px, Builder (fun _ _ => false)
          { colorType := .kRGBA_8888_SkColorType, alphaType := .kPremul_SkAlphaType,
            coverage := .Full, blendMode := .kSrc, colorSpace := none, shader := none,
            colorFilter := some ⟨7⟩ }
          (pixelEnv 0x80402010 0 0 0) ≠ .ok px :=
  unsupported_key_traps (fun _ _ => false)
    { colorType := .kRGBA_8888_SkColorType, alphaType := .kPremul_SkAlphaType,
      coverage := .Full, blendMode := .kSrc, colorSpace := none, shader := none,
      colorFilter := some ⟨7⟩ }
    (pixelEnv 0x80402010 0 0 0) (Or.inl (by simp))

end Builder

/-! ## The claims on keys, the blitter and the program cache -/

/-- C15: `SkCreateSkVMBlitter` returns a blitter exactly when the paint colour,
taken to the device colour space, fits in bytes and `CanBuild` accepts the key
made of the device and the paint with coverage Full; when it returns null the
constructed blitter has `ok` false and its paint-colour uniform was not written;
when it returns a blitter, `ok` is true and the uniform holds the premultiplied
bytes of the colour. -/
theorem SkCreateSkVMBlitter_iff (device : SkPixmap) (paint : SkPaint) :
    ((SkCreateSkVMBlitter device paint).isSome = true ↔
        ((paint.color4f device.colorSpace).fitsInBytes = true
          ∧ Builder.CanBuild
              { colorType := device.colorType, alphaType := device.alphaType, coverage := .Full,
                blendMode := paint.blendMode, colorSpace := device.colorSpace,
                shader := paint.shader, colorFilter := paint.colorFilter } = true))
      ∧ (SkCreateSkVMBlitter device paint = none →
          (Blitter.ctor device paint).ok = false
            ∧ (Blitter.ctor device paint).fUniforms = { paint_color := 0, coverage := 0 })
      ∧ (∀ b, SkCreateSkVMBlitter device paint = some b →
          b = Blitter.ctor device paint ∧ b.ok = true
            ∧ b.fUniforms.paint_color = (paint.color4f device.colorSpace).premul_toBytes_RGBA) := by
  simp only [SkCreateSkVMBlitter, Blitter.ctor]
  cases hf : (paint.color4f device.colorSpace).fitsInBytes <;>
  cases hc : Builder.CanBuild
      { colorType := device.colorType, alphaType := device.alphaType, coverage := .Full,
        blendMode := paint.blendMode, colorSpace := device.colorSpace,
        shader := paint.shader, colorFilter := paint.colorFilter } <;>
  simp [hf, hc]

/-- C16: two keys are equal exactly when their colorType, alphaType, coverage and
blendMode are equal and their colorSpace, shader and colorFilter references
hold the same address; two keys whose shaders are distinct objects are unequal
even when every other field is equal and the two shaders behave alike. -/
theorem Key_equality_is_by_identity (x y : Key) (s1 s2 : SkShader) (hne : s1.addr ≠ s2.addr)
    (hp : s1.program = s2.program) :
    (x.beq y = true ↔
      (x.colorType = y.colorType ∧ x.alphaType = y.alphaType ∧ x.coverage = y.coverage
        ∧ x.blendMode = y.blendMode
        ∧ SkColorSpace.get x.colorSpace = SkColorSpace.get y.colorSpace
        ∧ SkShader.get x.shader = SkShader.get y.shader
        ∧ SkColorFilter.get x.colorFilter = SkColorFilter.get y.colorFilter))
      ∧ s1.program = s2.program
      ∧ Key.beq { x with shader := some s1 } { x with shader := some s2 } = false := by
  refine ⟨Key.beq_iff x y, hp, ?_⟩
  cases hb : Key.beq { x with shader := some s1 } { x with shader := some s2 }
  · rfl
  · rw [Key.beq_iff] at hb
    obtain ⟨-, -, -, -, -, h6, -⟩ := hb
    simp only [SkShader.get, Option.map_some', Option.some.injEq] at h6
    exact absurd h6 hne

/-- An instance of C16: two shader objects that emit the same colour. -/
theorem Key_equality_is_by_identity_witness :
    Key.beq (premulKey .kSrc (some (solidShader ⟨255, 0, 0, 255⟩)))
        (premulKey .kSrc (some { addr := 2, program := (solidShader ⟨255, 0, 0, 255⟩).program }))
      = false :=
  (Key_equality_is_by_identity (premulKey .kSrc none) (premulKey .kSrc none)
    (solidShader ⟨255, 0, 0, 255⟩)
    { addr := 2, program := (solidShader ⟨255, 0, 0, 255⟩).program } (by decide) rfl).2.2

/-- C17: for every key `k` and coverage modes `c`, `d`: `k.withCoverage c` has
coverage `c` and the colorType, alphaType, blendMode, colorSpace, shader and
colorFilter of `k`; `k.withCoverage k.coverage` is `k` (and equal to it under
`operator==`); `withCoverage c` followed by `withCoverage d` is `withCoverage d`. -/
theorem withCoverage_frame (k : Key) (c d : Coverage) :
    (k.withCoverage c).coverage = c
      ∧ (k.withCoverage c).colorType = k.colorType
      ∧ (k.withCoverage c).alphaType = k.alphaType
      ∧ (k.withCoverage c).blendMode = k.blendMode
      ∧ (k.withCoverage c).colorSpace = k.colorSpace
      ∧ (k.withCoverage c).shader = k.shader
      ∧ (k.withCoverage c).colorFilter = k.colorFilter
      ∧ k.withCoverage k.coverage = k
      ∧ (k.withCoverage k.coverage).beq k = true
      ∧ (k.withCoverage c).withCoverage d = k.withCoverage d
      ∧ ((k.withCoverage c).withCoverage d).beq (k.withCoverage d) = true :=
  ⟨rfl, rfl, rfl, rfl, rfl, rfl, rfl, rfl, Key.beq_refl _, rfl, Key.beq_refl _⟩

/-- C18: cache soundness.  After any sequence of blitter constructions, blits and
teardowns on one thread, every program stored in the cache and every program in
a slot of a live blitter is empty or was built by `Builder` for a key equal to
the key it is filed under; and a blit with coverage mode `c` on a blitter that
`SkCreateSkVMBlitter` returned finds in its slot, freshly built or borrowed from
the cache, a program built for a key equal to `fKey.withCoverage c`, which is
the program it evaluates. -/
theorem cache_soundness (threadLocal : Bool) (ops : List Op) :
    ((Thread.start threadLocal).run ops).sound
      ∧ ∀ i coverage b, ((Thread.start threadLocal).run ops).blitters.get? i = some b →
          b.ok = true →
          ∃ b2 k, (((Thread.start threadLocal).run ops).step (.blit i coverage)).blitters.get? i
                = some b2
            ∧ b2.fKey = b.fKey
            ∧ (b2.slot coverage).built = some k
            ∧ k.beq (b.fKey.withCoverage coverage) = true
            ∧ ∀ shouldPreScale env,
                (b2.slot coverage).eval shouldPreScale env
                  = some (Builder.Builder shouldPreScale k env) := by
  have hs := Thread.sound_run ops _ (Thread.sound_start threadLocal)
  refine ⟨hs, fun i coverage b hg hok => ?_⟩
  generalize (Thread.start threadLocal).run ops = t at hs hg
  obtain ⟨hc, hb⟩ := hs
  have hbm : b ∈ t.blitters := List.get?_mem hg
  obtain ⟨-, h2, h3, h4⟩ := Blitter.selectProgram_sound b t.cache coverage hc (hb b hbm)
  have hlt : i < t.blitters.length := by
    rcases Nat.lt_or_ge i t.blitters.length with h | h
    · exact h
    · rw [List.get?_eq_none.mpr h] at hg
      simp at hg
  refine ⟨(b.selectProgram t.cache coverage).1, ?_⟩
  cases hk : ((b.selectProgram t.cache coverage).1.slot coverage).built with
  | none => simp [Program.empty, hk] at h4
  | some k =>
    refine ⟨k, ?_, h3, rfl, ?_, ?_⟩
    · simp only [Thread.step, hg, hok, if_true]
      simp [List.getElem?_set, hlt]
    · have := h2 coverage k hk
      rw [h3] at this
      exact this
    · intro shouldPreScale env
      simp only [Program.eval, hk, Option.map_some']

/-- C19, as amended: when the cache holds a program that is not empty for the
coverage-specialised key, `buildProgram(coverage)` returns that program, without
running the Builder, and moves it out of the cache: after the call the cache
still has the entry for that key, now holding the empty program, and has as many
entries as before; no copy that is not empty is left under that key, so the
blitter is the only owner of the program until teardown. -/
theorem buildProgram_borrows (b : Blitter) (c c1 : SkLRUCache) (coverage : Coverage)
    (found : Program)
    (hfind : c.find (b.fKey.withCoverage coverage) = (some found, c1))
    (hne : found.empty = false) :
    b.buildProgram (some c) coverage = (found, some (c1.assign { built := none }))
      ∧ ((c1.assign { built := none }).find (b.fKey.withCoverage coverage)).1.map Program.empty
          = some true
      ∧ (c1.assign { built := none }).fLRU.length = c.fLRU.length := by
  obtain ⟨e, rest, hl, hf, hb, hm, -, -⟩ := SkLRUCache.find_some c c1 _ found hfind
  refine ⟨?_, ?_, ?_⟩
  · simp only [Blitter.buildProgram, hfind, hne, if_true]
  · have hh : (c1.assign { built := none }).holds (b.fKey.withCoverage coverage)
        { built := none } 0 := by
      simp only [SkLRUCache.assign, hl, SkLRUCache.holds]
      exact ⟨(e.1, { built := none }), by simp [hb], rfl⟩
    rw [SkLRUCache.find_of_holds _ _ _ _ hh]
    rfl
  · have hfind2 := hfind
    unfold SkLRUCache.find at hfind2
    cases hff : c.fLRU.find? fun e => e.1.beq (b.fKey.withCoverage coverage) with
    | none =>
      rw [hff] at hfind2
      simp at hfind2
    | some e2 =>
      rw [hff] at hfind2
      simp only [Prod.mk.injEq, Option.some.injEq] at hfind2
      obtain ⟨-, h2⟩ := hfind2
      subst h2
      have hmem := List.mem_of_find?_eq_some hff
      have hp := List.find?_some hff
      simp only [SkLRUCache.assign, List.length_cons]
      rw [List.length_eraseP_of_mem hmem hp]
      have : 0 < c.fLRU.length := List.length_pos_of_mem hmem
      omega

/-- An instance of the amended C19: a cache of one entry. -/
theorem buildProgram_borrows_witness :
    (Blitter.ctor rgbaDevice (solidPaint .kSrcOver 0xff0000ff)).buildProgram
        (some { fMaxCount := 8,
                fLRU := [(premulKey .kSrcOver none, Builder.done (premulKey .kSrcOver none))] })
        .Full
      = (Builder.done (premulKey .kSrcOver none),
         some { fMaxCount := 8, fLRU := [(premulKey .kSrcOver none, { built := none })] }) :=
  (buildProgram_borrows (Blitter.ctor rgbaDevice (solidPaint .kSrcOver 0xff0000ff))
    { fMaxCount := 8,
      fLRU := [(premulKey .kSrcOver none, Builder.done (premulKey .kSrcOver none))] }
    { fMaxCount := 8,
      fLRU := [(premulKey .kSrcOver none, Builder.done (premulKey .kSrcOver none))] }
    .Full (Builder.done (premulKey .kSrcOver none)) rfl rfl).1

/-- C19 as stated fails: after `buildProgram` has taken the program of the only
entry of a cache, the cache still has one entry, and `find` still finds an entry
for the key (holding the empty program). -/
theorem borrowed_entry_stays_in_cache :
    (Blitter.ctor rgbaDevice (solidPaint .kSrcOver 0xff0000ff)).buildProgram
        (some { fMaxCount := 8,
                fLRU := [(premulKey .kSrcOver none, Builder.done (premulKey .kSrcOver none))] })
        .Full
      = (Builder.done (premulKey .kSrcOver none),
         some { fMaxCount := 8, fLRU := [(premulKey .kSrcOver none, { built := none })] })
      ∧ ((SkLRUCache.find
            { fMaxCount := 8, fLRU := [(premulKey .kSrcOver none, { built := none })] }
            (premulKey .kSrcOver none)).1).isSome = true
      ∧ (SkLRUCache.mk 8 [(premulKey .kSrcOver none, { built := none })]).fLRU.length = 1 :=
  ⟨rfl, rfl, rfl⟩

/-- C20: on teardown with a cache of at least five entries (the cache of a thread
has eight), for each of the five slots whose program is not empty the cache
afterwards maps `fKey.withCoverage` of the coverage of the slot to that program;
`cache_program` overwrites the value of the entry it finds (the cache keeps its
number of entries) or inserts a new entry; and a slot whose program is empty
leaves the cache as it is. -/
theorem teardown_returns_programs (b : Blitter) (c : SkLRUCache) (hmax : 5 ≤ c.fMaxCount) :
    ∃ c2, b.destructor (some c) = some c2
      ∧ (∀ coverage, (b.slot coverage).empty = false →
          (c2.find (b.fKey.withCoverage coverage)).1 = some (b.slot coverage))
      ∧ (∀ (c0 : SkLRUCache) (p : Program) (coverage : Coverage), p.empty = true →
          b.cache_program c0 p coverage = c0)
      ∧ (∀ (c0 : SkLRUCache) (p : Program) (coverage : Coverage), p.empty = false →
          ((∀ c1, c0.find (b.fKey.withCoverage coverage) = (none, c1) →
              b.cache_program c0 p coverage = c0.insert (b.fKey.withCoverage coverage) p)
            ∧ (∀ found c1, c0.find (b.fKey.withCoverage coverage) = (some found, c1) →
              b.cache_program c0 p coverage = c1.assign p
                ∧ (b.cache_program c0 p coverage).fLRU.length = c0.fLRU.length))) := by
  obtain ⟨c1, hc1⟩ : ∃ c1, c1 = b.cache_program c b.fBlitH .Full := ⟨_, rfl⟩
  obtain ⟨c2, hc2⟩ : ∃ c2, c2 = b.cache_program c1 b.fBlitAntiH .UniformA8 := ⟨_, rfl⟩
  obtain ⟨c3, hc3⟩ : ∃ c3, c3 = b.cache_program c2 b.fBlitMaskA8 .MaskA8 := ⟨_, rfl⟩
  obtain ⟨c4, hc4⟩ : ∃ c4, c4 = b.cache_program c3 b.fBlitMask3D .Mask3D := ⟨_, rfl⟩
  obtain ⟨c5, hc5⟩ : ∃ c5, c5 = b.cache_program c4 b.fBlitMaskLCD16 .MaskLCD16 := ⟨_, rfl⟩
  have m1 : c1.fMaxCount = c.fMaxCount := by rw [hc1, Blitter.fMaxCount_cache_program]
  have m2 : c2.fMaxCount = c.fMaxCount := by rw [hc2, Blitter.fMaxCount_cache_program, m1]
  have m3 : c3.fMaxCount = c.fMaxCount := by rw [hc3, Blitter.fMaxCount_cache_program, m2]
  have m4 : c4.fMaxCount = c.fMaxCount := by rw [hc4, Blitter.fMaxCount_cache_program, m3]
  have hd : b.destructor (some c) = some c5 := by
    simp only [Blitter.destructor, hc5, hc4, hc3, hc2, hc1]
  have ne := fun (x y : Coverage) (h : x ≠ y) => Key.beq_withCoverage_ne b.fKey x y h
  refine ⟨c5, hd, ?_, ?_, ?_⟩
  · intro coverage he
    apply SkLRUCache.find_of_holds _ _ _ 4
    cases coverage with
    | Full =>
      have h1 : c1.holds (b.fKey.withCoverage .Full) b.fBlitH 0 := by
        rw [hc1]
        exact Blitter.cache_program_holds b c _ _ he (by omega)
      have h2 := Blitter.cache_program_keeps b c1 _ _ b.fBlitAntiH .UniformA8 0 h1 (by omega)
        (ne _ _ (by decide))
      rw [← hc2] at h2
      have h3 := Blitter.cache_program_keeps b c2 _ _ b.fBlitMaskA8 .MaskA8 1 h2 (by omega)
        (ne _ _ (by decide))
      rw [← hc3] at h3
      have h4 := Blitter.cache_program_keeps b c3 _ _ b.fBlitMask3D .Mask3D 2 h3 (by omega)
        (ne _ _ (by decide))
      rw [← hc4] at h4
      have h5 := Blitter.cache_program_keeps b c4 _ _ b.fBlitMaskLCD16 .MaskLCD16 3 h4
        (by omega) (ne _ _ (by decide))
      rw [← hc5] at h5
      exact h5
    | UniformA8 =>
      have h2 : c2.holds (b.fKey.withCoverage .UniformA8) b.fBlitAntiH 0 := by
        rw [hc2]
        exact Blitter.cache_program_holds b c1 _ _ he (by omega)
      have h3 := Blitter.cache_program_keeps b c2 _ _ b.fBlitMaskA8 .MaskA8 0 h2 (by omega)
        (ne _ _ (by decide))
      rw [← hc3] at h3
      have h4 := Blitter.cache_program_keeps b c3 _ _ b.fBlitMask3D .Mask3D 1 h3 (by omega)
        (ne _ _ (by decide))
      rw [← hc4] at h4
      have h5 := Blitter.cache_program_keeps b c4 _ _ b.fBlitMaskLCD16 .MaskLCD16 2 h4
        (by omega) (ne _ _ (by decide))
      rw [← hc5] at h5
      exact SkLRUCache.holds_mono _ _ _ 3 4 (by omega) h5
    | MaskA8 =>
      have h3 : c3.holds (b.fKey.withCoverage .MaskA8) b.fBlitMaskA8 0 := by
        rw [hc3]
        exact Blitter.cache_program_holds b c2 _ _ he (by omega)
      have h4 := Blitter.cache_program_keeps b c3 _ _ b.fBlitMask3D .Mask3D 0 h3 (by omega)
        (ne _ _ (by decide))
      rw [← hc4] at h4
      have h5 := Blitter.cache_program_keeps b c4 _ _ b.fBlitMaskLCD16 .MaskLCD16 1 h4
        (by omega) (ne _ _ (by decide))
      rw [← hc5] at h5
      exact SkLRUCache.holds_mono _ _ _ 2 4 (by omega) h5
    | Mask3D =>
      have h4 : c4.holds (b.fKey.withCoverage .Mask3D) b.fBlitMask3D 0 := by
        rw [hc4]
        exact Blitter.cache_program_holds b c3 _ _ he (by omega)
      have h5 := Blitter.cache_program_keeps b c4 _ _ b.fBlitMaskLCD16 .MaskLCD16 0 h4
        (by omega) (ne _ _ (by decide))
      rw [← hc5] at h5
      exact SkLRUCache.holds_mono _ _ _ 1 4 (by omega) h5
    | MaskLCD16 =>
      have h5 : c5.holds (b.fKey.withCoverage .MaskLCD16) b.fBlitMaskLCD16 0 := by
        rw [hc5]
        exact Blitter.cache_program_holds b c4 _ _ he (by omega)
      exact SkLRUCache.holds_mono _ _ _ 0 4 (by omega) h5
  · intro c0 p coverage he
    simp [Blitter.cache_program, he]
  · intro c0 p coverage he
    constructor
    · intro c1 hf
      obtain ⟨h1, -⟩ := SkLRUCache.find_none c0 c1 _ hf
      subst h1
      simp only [Blitter.cache_program, he, if_true, hf]
    · intro found c1 hf
      have e1 : b.cache_program c0 p coverage = c1.assign p := by
        simp only [Blitter.cache_program, he, if_true, hf]
      refine ⟨e1, ?_⟩
      rw [e1]
      have hf2 := hf
      unfold SkLRUCache.find at hf2
      cases hff : c0.fLRU.find? fun e => e.1.beq (b.fKey.withCoverage coverage) with
      | none =>
        rw [hff] at hf2
        simp at hf2
      | some e2 =>
        rw [hff] at hf2
        simp only [Prod.mk.injEq, Option.some.injEq] at hf2
        obtain ⟨-, h2⟩ := hf2
        subst h2
        have hmem := List.mem_of_find?_eq_some hff
        have hp := List.find?_some hff
        simp only [SkLRUCache.assign, List.length_cons]
        rw [List.length_eraseP_of_mem hmem hp]
        have : 0 < c0.fLRU.length := List.length_pos_of_mem hmem
        omega

/-- An instance of C20: a blitter with a MaskA8 program torn down on a fresh
cache. -/
theorem teardown_returns_programs_witness :
    ∃ c2, (Blitter.setSlot (Blitter.ctor rgbaDevice (solidPaint .kSrcOver 0xff0000ff)) .MaskA8
              (Builder.done ((premulKey .kSrcOver none).withCoverage .MaskA8))).destructor
            (try_acquire_program_cache true) = some c2
      ∧ (c2.find ((premulKey .kSrcOver none).withCoverage .MaskA8)).1
          = some (Builder.done ((premulKey .kSrcOver none).withCoverage .MaskA8)) :=
  (teardown_returns_programs
      (Blitter.setSlot (Blitter.ctor rgbaDevice (solidPaint .kSrcOver 0xff0000ff)) .MaskA8
        (Builder.done ((premulKey .kSrcOver none).withCoverage .MaskA8)))
      { fMaxCount := 8, fLRU := [] } (by decide)).imp
    fun _ h => ⟨h.1, h.2.1 .MaskA8 rfl⟩

/-! ## The capacity of the program cache -/

/-- A lookup neither adds nor removes an entry. -/
theorem SkLRUCache.find_length (c : SkLRUCache) (key : Key) :
    (c.find key).2.fLRU.length = c.fLRU.length ∧ (c.find key).2.fMaxCount = c.fMaxCount := by
  unfold SkLRUCache.find
  cases hf : c.fLRU.find? fun e => e.1.beq key with
  | none => exact ⟨rfl, rfl⟩
  | some e =>
    have hm : e ∈ c.fLRU := List.mem_of_find?_eq_some hf
    have hb : e.1.beq key = true := by
      have := List.find?_some hf
      simpa using this
    have hl := List.length_eraseP_of_mem (p := fun e => e.1.beq key) hm hb
    have hpos : 0 < c.fLRU.length := List.length_pos_of_mem hm
    refine ⟨?_, rfl⟩
    simp only [List.length_cons, hl]
    omega

theorem SkLRUCache.assign_length (c : SkLRUCache) (v : Program) :
    (c.assign v).fLRU.length = c.fLRU.length ∧ (c.assign v).fMaxCount = c.fMaxCount := by
  unfold SkLRUCache.assign
  cases h : c.fLRU <;> simp [h]

theorem SkLRUCache.insert_length (c : SkLRUCache) (key : Key) (v : Program) :
    (c.insert key v).fLRU.length ≤ c.fMaxCount ∧ (c.insert key v).fMaxCount = c.fMaxCount := by
  unfold SkLRUCache.insert
  exact ⟨by simp, rfl⟩

/-- An insertion into a full cache keeps every entry but the last of the list. -/
theorem SkLRUCache.insert_full (c : SkLRUCache) (key : Key) (v : Program)
    (hlen : c.fLRU.length = c.fMaxCount) (hpos : 0 < c.fMaxCount) :
    (c.insert key v).fLRU = (key, v) :: c.fLRU.dropLast := by
  unfold SkLRUCache.insert
  obtain ⟨m, hm⟩ : ∃ m, c.fMaxCount = m + 1 := ⟨c.fMaxCount - 1, by omega⟩
  simp only [hm, List.take_succ_cons, List.dropLast_eq_take, hlen]
  rfl

theorem Blitter.cache_program_length (b : Blitter) (c : SkLRUCache) (p : Program)
    (coverage : Coverage) (h : c.fLRU.length ≤ c.fMaxCount) :
    (b.cache_program c p coverage).fLRU.length ≤ c.fMaxCount
      ∧ (b.cache_program c p coverage).fMaxCount = c.fMaxCount := by
  unfold Blitter.cache_program
  have hf := SkLRUCache.find_length c (b.fKey.withCoverage coverage)
  cases he : p.empty
  · simp only [if_true]
    rcases hfind : c.find (b.fKey.withCoverage coverage) with ⟨_ | found, c1⟩
    · rw [hfind] at hf
      dsimp only at hf
      have hi := SkLRUCache.insert_length c1 (b.fKey.withCoverage coverage) p
      simp only
      exact ⟨by omega, by omega⟩
    · rw [hfind] at hf
      dsimp only at hf
      have hi := SkLRUCache.assign_length c1 p
      simp only
      exact ⟨by omega, by omega⟩
  · simp only [Bool.true_eq_false, if_false]
    exact ⟨h, trivial⟩

theorem Blitter.buildProgram_length (b : Blitter) (cache : Option SkLRUCache)
    (coverage : Coverage) (n : Nat)
    (h : ∀ c, cache = some c → c.fMaxCount = n ∧ c.fLRU.length ≤ n) :
    ∀ c, (b.buildProgram cache coverage).2 = some c → c.fMaxCount = n ∧ c.fLRU.length ≤ n := by
  intro c2 hc2
  unfold Blitter.buildProgram at hc2
  rcases cache with _ | c
  · simp only [Program.empty, Option.isNone_none, Bool.true_eq_false, if_false] at hc2
    simp at hc2
  · have h0 := h c rfl
    have hf := SkLRUCache.find_length c (b.fKey.withCoverage coverage)
    rcases hfind : c.find (b.fKey.withCoverage coverage) with ⟨_ | found, c1⟩
    · rw [hfind] at hf
      dsimp only at hf
      simp only [hfind, Program.empty, Option.isNone_none, Bool.true_eq_false, if_false,
        Option.some.injEq] at hc2
      subst hc2
      exact ⟨by omega, by omega⟩
    · rw [hfind] at hf
      dsimp only at hf
      have ha := SkLRUCache.assign_length c1 { built := none }
      simp only [hfind] at hc2
      split at hc2 <;> simp only [Option.some.injEq] at hc2 <;> subst hc2 <;>
        exact ⟨by omega, by omega⟩

theorem Blitter.selectProgram_length (b : Blitter) (cache : Option SkLRUCache)
    (coverage : Coverage) (n : Nat)
    (h : ∀ c, cache = some c → c.fMaxCount = n ∧ c.fLRU.length ≤ n) :
    ∀ c, (b.selectProgram cache coverage).2 = some c → c.fMaxCount = n ∧ c.fLRU.length ≤ n := by
  unfold Blitter.selectProgram
  split
  · exact Blitter.buildProgram_length b cache coverage n h
  · exact h

theorem Blitter.destructor_length (b : Blitter) (cache : Option SkLRUCache) (n : Nat)
    (h : ∀ c, cache = some c → c.fMaxCount = n ∧ c.fLRU.length ≤ n) :
    ∀ c, b.destructor cache = some c → c.fMaxCount = n ∧ c.fLRU.length ≤ n := by
  intro c2 hc2
  unfold Blitter.destructor at hc2
  rcases cache with _ | c
  · simp at hc2
  · simp only [Option.some.injEq] at hc2
    subst hc2
    obtain ⟨hm, hl⟩ := h c rfl
    have h1 := Blitter.cache_program_length b c b.fBlitH .Full (by omega)
    have h2 := Blitter.cache_program_length b _ b.fBlitAntiH .UniformA8
      (h1.1.trans (le_of_eq h1.2.symm))
    have h3 := Blitter.cache_program_length b _ b.fBlitMaskA8 .MaskA8
      (h2.1.trans (le_of_eq h2.2.symm))
    have h4 := Blitter.cache_program_length b _ b.fBlitMask3D .Mask3D
      (h3.1.trans (le_of_eq h3.2.symm))
    have h5 := Blitter.cache_program_length b _ b.fBlitMaskLCD16 .MaskLCD16
      (h4.1.trans (le_of_eq h4.2.symm))
    exact ⟨by omega, by omega⟩

theorem Thread.step_length (t : Thread) (op : Op) (n : Nat)
    (h : ∀ c, t.cache = some c → c.fMaxCount = n ∧ c.fLRU.length ≤ n) :
    ∀ c, (t.step op).cache = some c → c.fMaxCount = n ∧ c.fLRU.length ≤ n := by
  cases op with
  | construct device paint => exact h
  | blit i coverage =>
    simp only [Thread.step]
    cases hg : t.blitters.get? i with
    | none => exact h
    | some b =>
      cases hok : b.ok
      · simpa only [hok, Bool.false_eq_true, if_false] using h
      · simpa only [hok, if_true] using Blitter.selectProgram_length b t.cache coverage n h
  | teardown i =>
    simp only [Thread.step]
    cases hg : t.blitters.get? i with
    | none => exact h
    | some b => exact Blitter.destructor_length b t.cache n h

theorem Thread.run_length (ops : List Op) (t : Thread) (n : Nat)
    (h : ∀ c, t.cache = some c → c.fMaxCount = n ∧ c.fLRU.length ≤ n) :
    ∀ c, (t.run ops).cache = some c → c.fMaxCount = n ∧ c.fLRU.length ≤ n := by
  induction ops generalizing t with
  | nil => exact h
  | cons op ops ih => exact ih (t.step op) (Thread.step_length t op n h)

/-- After an insertion for another key, an entry that was at the head of the
list is found with the program it held. -/
theorem SkLRUCache.find_insert_of_find (c c1 : SkLRUCache) (k key : Key) (p v : Program)
    (hfind : c.find k = (some p, c1)) (hne : key.beq k = false) (hmax : 2 ≤ c.fMaxCount) :
    ((c1.insert key v).find k).1 = some p := by
  obtain ⟨e, rest, hl, hp, hb, -, -, hm⟩ := SkLRUCache.find_some c c1 k p hfind
  apply SkLRUCache.find_of_holds _ _ _ 1
  obtain ⟨m, hm2⟩ : ∃ m, c1.fMaxCount = m + 2 := ⟨c1.fMaxCount - 2, by omega⟩
  refine ⟨e, ?_, hp⟩
  simp only [SkLRUCache.insert, hl, hm2, List.take_succ_cons, List.take_take]
  simp [List.find?_cons, hne, hb]

/-- C21: the program cache of a thread is created with capacity 8 and, whatever
blitters are constructed, blit and are torn down on the thread, never holds more
than 8 entries.  An insertion of a key that has no entry into the full cache
evicts exactly the entry at the end of the list, the least recently found or
inserted one; a lookup moves its entry to the front, so that an entry looked up
just before the ninth insertion is still found after it, with its program. -/
theorem program_cache_evicts_least_recently_used (ops : List Op) (c c1 : SkLRUCache)
    (k key : Key) (p v : Program)
    (hmax : c.fMaxCount = 8) (hlen : c.fLRU.length = 8)
    (hnew : ∀ e ∈ c.fLRU, e.1.beq key = false)
    (hfind : c.find k = (some p, c1)) :
    try_acquire_program_cache true = some { fMaxCount := 8, fLRU := [] }
      ∧ (∀ c2, ((Thread.start true).run ops).cache = some c2
            → c2.fMaxCount = 8 ∧ c2.fLRU.length ≤ 8)
      ∧ (c.insert key v).fLRU = (key, v) :: c.fLRU.dropLast
      ∧ (∃ e, c1.fLRU.head? = some e ∧ e.1.beq k = true ∧ e.2 = p)
      ∧ (c1.insert key v).fLRU = (key, v) :: c1.fLRU.dropLast
      ∧ (c1.insert key v).fLRU.length = 8
      ∧ ((c1.insert key v).find k).1 = some p := by
  obtain ⟨e, rest, hl, hp, hb, hm, -, hm1⟩ := SkLRUCache.find_some c c1 k p hfind
  have hf := SkLRUCache.find_length c k
  rw [hfind] at hf
  dsimp only at hf
  have hne : key.beq k = false := by
    cases hh : key.beq k
    · rfl
    · have := Key.beq_trans _ _ _ hb (Key.beq_symm _ _ hh)
      rw [hnew e hm] at this
      exact absurd this (by simp)
  have hins : (c1.insert key v).fLRU = (key, v) :: c1.fLRU.dropLast :=
    SkLRUCache.insert_full c1 key v (by omega) (by omega)
  refine ⟨rfl, ?_, SkLRUCache.insert_full c key v (by omega) (by omega), ?_, hins, ?_, ?_⟩
  · apply Thread.run_length ops (Thread.start true) 8
    intro c0 h0
    simp only [Thread.start, try_acquire_program_cache, if_true, Option.some.injEq] at h0
    subst h0
    exact ⟨rfl, by simp⟩
  · exact ⟨e, by simp [hl], hb, hp⟩
  · rw [hins, List.length_cons, List.length_dropLast]
    omega
  · exact SkLRUCache.find_insert_of_find c c1 k key p v hfind hne (by omega)

/-- An instance of C21: the full cache of the keys `keyOf 0` to `keyOf 7`, the
least recently used `keyOf 7` looked up, and then `keyOf 8` inserted: `keyOf 7`
is still found, with its program. -/
theorem program_cache_evicts_least_recently_used_witness :
    (((fullCache.find (keyOf 7)).2.insert (keyOf 8) (Builder.done (keyOf 8))).find
        (keyOf 7)).1 = some (Builder.done (keyOf 7))
      ∧ ((fullCache.insert (keyOf 8) (Builder.done (keyOf 8))).find (keyOf 7)).1 = none :=
  ⟨(program_cache_evicts_least_recently_used [] fullCache (fullCache.find (keyOf 7)).2
      (keyOf 7) (keyOf 8) (Builder.done (keyOf 7)) (Builder.done (keyOf 8)) rfl rfl
      (by decide) rfl).2.2.2.2.2.2, rfl⟩

/-! ## The runs of `blitAntiH` -/

/-- Advancing the pointer into a run array by `k` entries. -/
theorem Blitter.laidOut_shift (runs : Nat → Int) (k i : Nat) (rs : List Nat) :
    Blitter.laidOut (fun j => runs (j + k)) i rs ↔ Blitter.laidOut runs (i + k) rs := by
  induction rs generalizing i with
  | nil => simp [Blitter.laidOut]
  | cons r rs ih =>
    simp only [Blitter.laidOut]
    rw [ih (i + r)]
    have e : i + r + k = i + k + r := by omega
    rw [e]

/-- The spans of a run array that starts with the length `r`: the span of `r`,
then the spans of the rest, `r` pixels and `r` entries further on. -/
theorem Blitter.runSpans_cons (b : Blitter) (x y : Int) (cov : Nat → Nat) (r : Nat)
    (rs : List Nat) :
    Blitter.runSpans b x y cov (r :: rs)
      = { program := b.fBlitAntiH, n := (r : Int)
          uniforms := { b.fUniforms with coverage := cov 0 }
          args := [.device x y] }
        :: Blitter.runSpans b (x + r) y (fun j => cov (j + r)) rs := by
  simp only [Blitter.runSpans, List.length_cons, List.range_succ_eq_map, List.map_cons,
    List.map_map, List.take_zero, List.sum_nil, List.getD_cons_zero, Nat.cast_zero, add_zero]
  congr 1
  apply List.map_congr_left
  intro i _
  simp only [Function.comp, List.take_succ_cons, List.sum_cons, List.getD_cons_succ,
    Nat.cast_add]
  have e1 : r + (List.take i rs).sum = (List.take i rs).sum + r := by omega
  have e2 : x + ((r : Int) + ((List.take i rs).sum : Nat)) = x + r + ((List.take i rs).sum : Nat) := by
    omega
  rw [e1, e2]

/-- A step of the loop changes the coverage byte of the uniform block and
nothing else of the blitter. -/
theorem Blitter.runSpans_coverage (b : Blitter) (c : Nat) (x y : Int) (cov : Nat → Nat)
    (rs : List Nat) :
    Blitter.runSpans { b with fUniforms := { b.fUniforms with coverage := c } } x y cov rs
      = Blitter.runSpans b x y cov rs := rfl

/-- The loop of `blitAntiH` on a run array that holds the lengths `rs`: it
returns, having evaluated the spans of `rs` and nothing else; the cache and the
program slots are as they were. -/
theorem Blitter.blitAntiH_runs_eq (rs : List Nat) (fuel : Nat) (s : BlitState) (x y : Int)
    (cov : Nat → Nat) (runs : Nat → Int) (hruns : Blitter.laidOut runs 0 rs)
    (hfuel : rs.length < fuel) :
    ∃ s1, Blitter.blitAntiH_runs fuel s x y cov runs = .ok s1
      ∧ s1.evals = s.evals ++ Blitter.runSpans s.blitter x y cov rs
      ∧ s1.cache = s.cache
      ∧ (∀ c, s1.blitter.slot c = s.blitter.slot c)
      ∧ s1.blitter.fKey = s.blitter.fKey
      ∧ s1.blitter.fUniforms.paint_color = s.blitter.fUniforms.paint_color := by
  induction rs generalizing fuel s x cov runs with
  | nil =>
    obtain ⟨f, rfl⟩ : ∃ f, fuel = f + 1 := ⟨fuel - 1, by simp at hfuel; omega⟩
    simp only [Blitter.laidOut] at hruns
    refine ⟨s, ?_, by simp [Blitter.runSpans], rfl, fun _ => rfl, rfl, rfl⟩
    simp only [Blitter.blitAntiH_runs]
    rw [if_neg (by omega)]
  | cons r rs ih =>
    obtain ⟨f, rfl⟩ : ∃ f, fuel = f + 1 := ⟨fuel - 1, by simp at hfuel; omega⟩
    simp only [Blitter.laidOut] at hruns
    obtain ⟨hr, hrun, hrest⟩ := hruns
    have hrest2 : Blitter.laidOut (fun j => runs (j + r)) 0 rs :=
      (Blitter.laidOut_shift runs r 0 rs).mpr hrest
    simp only [List.length_cons] at hfuel
    simp only [Blitter.blitAntiH_runs, hrun]
    rw [if_pos (by omega)]
    simp only [Int.toNat_ofNat]
    obtain ⟨s1, h1, h2, h3, h4, h5, h6⟩ := ih f
      { s with
        blitter := { s.blitter with fUniforms := { s.blitter.fUniforms with coverage := cov 0 } }
        evals := s.evals ++ [{ program := s.blitter.fBlitAntiH, n := (r : Int)
                               uniforms := { s.blitter.fUniforms with coverage := cov 0 }
                               args := [.device x y] }] }
      (x + r) (fun j => cov (j + r)) (fun j => runs (j + r)) hrest2 (by omega)
    refine ⟨s1, h1, ?_, h3, ?_, h5, h6⟩
    · rw [h2, Blitter.runSpans_cons, Blitter.runSpans_coverage]
      simp
    · intro c
      rw [h4 c]
      cases c <;> rfl

/-- What `buildProgram` returns is not empty. -/
theorem Blitter.buildProgram_not_empty (b : Blitter) (cache : Option SkLRUCache)
    (coverage : Coverage) : (b.buildProgram cache coverage).1.empty = false := by
  unfold Blitter.buildProgram
  dsimp only
  split
  · assumption
  · rfl

/-- After the program of a slot was selected, the slot is not empty. -/
theorem Blitter.selectProgram_not_empty (b : Blitter) (cache : Option SkLRUCache)
    (coverage : Coverage) : ((b.selectProgram cache coverage).1.slot coverage).empty = false := by
  unfold Blitter.selectProgram
  cases he : (b.slot coverage).empty
  · simpa using he
  · simp only [if_true, Blitter.slot_setSlot]
    exact Blitter.buildProgram_not_empty b cache coverage

/-- C22: for a run array that holds the positive lengths r1..rk, each found as
many entries after the one before as that one says, followed by an entry that is
not positive, `blitAntiH(x, y, cov, runs)` returns after evaluating the UniformA8
program exactly k times; evaluation i covers `rs[i]` pixels from
(x + r1 + ... + r(i-1), y) with the coverage byte `cov[r1 + ... + r(i-1)]`; each
span starts where the one before ends, the row is `y` throughout, and nothing is
evaluated after the entry that is not positive. -/
theorem blitAntiH_evaluates_each_run (fuel : Nat) (s : BlitState) (x y : Int) (cov : Nat → Nat)
    (runs : Nat → Int) (rs : List Nat) (hruns : Blitter.laidOut runs 0 rs)
    (hfuel : rs.length < fuel) :
    ∃ s1, Blitter.blitAntiH fuel s x y cov runs = .ok s1
      ∧ s1.evals
          = s.evals ++ Blitter.runSpans (s.blitter.selectProgram s.cache .UniformA8).1 x y cov rs
      ∧ (Blitter.runSpans (s.blitter.selectProgram s.cache .UniformA8).1 x y cov rs).length
          = rs.length
      ∧ (∀ i, i < rs.length →
          (Blitter.runSpans (s.blitter.selectProgram s.cache .UniformA8).1 x y cov rs)[i]?
            = some { program := (s.blitter.selectProgram s.cache .UniformA8).1.slot .UniformA8
                     n := (rs.getD i 0 : Nat)
                     uniforms :=
                      { paint_color :=
                          (s.blitter.selectProgram s.cache .UniformA8).1.fUniforms.paint_color
                        coverage := cov (rs.take i).sum }
                     args := [.device (x + ((rs.take i).sum : Nat)) y] }
            ∧ (rs.take (i + 1)).sum = (rs.take i).sum + rs.getD i 0
            ∧ 0 < rs.getD i 0)
      ∧ ((s.blitter.selectProgram s.cache .UniformA8).1.slot .UniformA8).empty = false := by
  obtain ⟨s1, h1, h2, -, -, -, -⟩ := Blitter.blitAntiH_runs_eq rs fuel
    { s with blitter := (s.blitter.selectProgram s.cache .UniformA8).1
             cache := (s.blitter.selectProgram s.cache .UniformA8).2 } x y cov runs hruns hfuel
  refine ⟨s1, h1, h2, by simp [Blitter.runSpans], fun i hi => ⟨?_, ?_, ?_⟩, ?_⟩
  · simp only [Blitter.runSpans, List.getElem?_map, List.getElem?_range hi, Option.map_some,
      Blitter.slot]
    rfl
  · rw [List.sum_take_succ rs i hi, List.getD_eq_getElem _ _ hi]
  · have hpos : ∀ (l : List Nat) (k j : Nat), Blitter.laidOut runs k l → j < l.length
        → 0 < l.getD j 0 := by
      intro l
      induction l with
      | nil => intro k j _ hj; simp at hj
      | cons a l ih =>
        intro k j hl hj
        simp only [Blitter.laidOut] at hl
        cases j with
        | zero => simpa using hl.1
        | succ j =>
          simp only [List.getD_cons_succ]
          exact ih (k + a) j hl.2.2 (by simpa using hj)
    exact hpos rs 0 i hruns hi
  · exact Blitter.selectProgram_not_empty s.blitter s.cache .UniformA8

/-- An instance of C22: the runs 2 and 3 from (10, 4), with the coverage bytes 7
and 9: two evaluations, of 2 pixels from (10, 4) and of 3 pixels from (12, 4). -/
theorem blitAntiH_evaluates_each_run_witness :
    ∃ s1, Blitter.blitAntiH 3 freshState 10 4 twoCoverages twoRuns = .ok s1
      ∧ s1.evals.map (fun e => (e.n, e.uniforms.coverage, e.args))
          = [(2, 7, [.device 10 4]), (3, 9, [.device 12 4])] := by
  obtain ⟨s1, h1, h2, -⟩ := blitAntiH_evaluates_each_run 3 freshState 10 4 twoCoverages twoRuns
    [2, 3] ⟨by decide, rfl, by decide, rfl, (by decide : twoRuns 5 ≤ 0)⟩ (by decide)
  exact ⟨s1, h1, by rw [h2]; rfl⟩

/-! ## The program slots under the blits -/

/-- Selecting the program of a slot leaves the other slots as they were. -/
theorem Blitter.selectProgram_slot_ne (b : Blitter) (cache : Option SkLRUCache)
    (c d : Coverage) (h : d ≠ c) : (b.selectProgram cache c).1.slot d = b.slot d := by
  unfold Blitter.selectProgram
  split
  · simp only [Blitter.slot_setSlot, if_neg h]
  · rfl

/-- Selecting the program of a slot that is not empty changes nothing. -/
theorem Blitter.selectProgram_of_not_empty (b : Blitter) (cache : Option SkLRUCache)
    (c : Coverage) (h : (b.slot c).empty = false) : b.selectProgram cache c = (b, cache) := by
  unfold Blitter.selectProgram
  rw [h]
  rfl

/-- Selecting a program leaves every slot that is not empty as it was. -/
theorem Blitter.selectProgram_keeps (b : Blitter) (cache : Option SkLRUCache) (c d : Coverage)
    (h : (b.slot d).empty = false) : (b.selectProgram cache c).1.slot d = b.slot d := by
  by_cases hd : d = c
  · subst hd
    rw [Blitter.selectProgram_of_not_empty b cache d h]
  · exact Blitter.selectProgram_slot_ne b cache c d hd

/-- Selecting a program leaves the uniform block as it was. -/
theorem Blitter.selectProgram_fUniforms (b : Blitter) (cache : Option SkLRUCache)
    (c : Coverage) : (b.selectProgram cache c).1.fUniforms = b.fUniforms := by
  unfold Blitter.selectProgram
  split
  · cases c <;> rfl
  · rfl

/-- The loop of `blitAntiH`, whatever the run array holds: when it returns, the
cache and the program slots are as they were. -/
theorem Blitter.blitAntiH_runs_frame (fuel : Nat) (s s1 : BlitState) (x y : Int)
    (cov : Nat → Nat) (runs : Nat → Int)
    (h : Blitter.blitAntiH_runs fuel s x y cov runs = .ok s1) :
    s1.cache = s.cache ∧ ∀ c, s1.blitter.slot c = s.blitter.slot c := by
  induction fuel generalizing s x cov runs with
  | zero => simp [Blitter.blitAntiH_runs] at h
  | succ f ih =>
    simp only [Blitter.blitAntiH_runs] at h
    split at h
    · obtain ⟨h1, h2⟩ := ih _ _ _ _ h
      refine ⟨h1, fun c => ?_⟩
      rw [h2 c]
      cases c <;> rfl
    · have e := Except.ok.inj h
      subst e
      exact ⟨rfl, fun _ => rfl⟩

/-- What `blitH` does to the slots: only the Full slot can change, and no slot
that holds a program does. -/
theorem Blitter.blitH_frame (s : BlitState) (x y w : Int) :
    (∀ c, c ≠ .Full → (Blitter.blitH s x y w).blitter.slot c = s.blitter.slot c)
      ∧ (∀ c, (s.blitter.slot c).empty = false
            → (Blitter.blitH s x y w).blitter.slot c = s.blitter.slot c)
      ∧ ((s.blitter.slot .Full).empty = false
            → (Blitter.blitH s x y w).blitter = s.blitter
              ∧ (Blitter.blitH s x y w).cache = s.cache) := by
  refine ⟨fun c hc => Blitter.selectProgram_slot_ne _ _ _ _ hc,
    fun c hc => Blitter.selectProgram_keeps _ _ _ _ hc, fun h => ?_⟩
  simp only [Blitter.blitH, Blitter.selectProgram_of_not_empty _ s.cache _ h, and_self]

/-- What `blitAntiH` does to the slots: only the UniformA8 slot can change, and
no slot that holds a program does. -/
theorem Blitter.blitAntiH_frame (fuel : Nat) (s s1 : BlitState) (x y : Int) (cov : Nat → Nat)
    (runs : Nat → Int) (h : Blitter.blitAntiH fuel s x y cov runs = .ok s1) :
    (∀ c, c ≠ .UniformA8 → s1.blitter.slot c = s.blitter.slot c)
      ∧ (∀ c, (s.blitter.slot c).empty = false → s1.blitter.slot c = s.blitter.slot c)
      ∧ ((s.blitter.slot .UniformA8).empty = false → s1.cache = s.cache) := by
  unfold Blitter.blitAntiH at h
  obtain ⟨h1, h2⟩ := Blitter.blitAntiH_runs_frame _ _ _ _ _ _ _ h
  refine ⟨fun c hc => ?_, fun c hc => ?_, fun hc => ?_⟩
  · rw [h2 c]
    exact Blitter.selectProgram_slot_ne _ _ _ _ hc
  · rw [h2 c]
    exact Blitter.selectProgram_keeps _ _ _ _ hc
  · rw [h1]
    simp only [Blitter.selectProgram_of_not_empty _ s.cache _ hc]

/-- What the calls of a generic blitter do to the slots: only the Full and the
UniformA8 slot can change, and no slot that holds a program does. -/
theorem Blitter.calls_frame (fuel : Nat) (cs : List Call) (s s1 : BlitState)
    (h : Blitter.calls fuel s cs = .ok s1) :
    (∀ c, c ≠ .Full → c ≠ .UniformA8 → s1.blitter.slot c = s.blitter.slot c)
      ∧ (∀ c, (s.blitter.slot c).empty = false → s1.blitter.slot c = s.blitter.slot c) := by
  induction cs generalizing s with
  | nil =>
    simp only [Blitter.calls] at h
    have e := Except.ok.inj h
    subst e
    exact ⟨fun _ _ _ => rfl, fun _ _ => rfl⟩
  | cons c cs ih =>
    simp only [Blitter.calls] at h
    cases hc : Blitter.call fuel s c with
    | error e =>
      rw [hc] at h
      simp at h
    | ok s2 =>
      rw [hc] at h
      obtain ⟨i1, i2⟩ := ih s2 h
      have step : (∀ d, d ≠ .Full → d ≠ .UniformA8 → s2.blitter.slot d = s.blitter.slot d)
          ∧ (∀ d, (s.blitter.slot d).empty = false → s2.blitter.slot d = s.blitter.slot d) := by
        cases c with
        | blitH x y w =>
          simp only [Blitter.call] at hc
          have e := Except.ok.inj hc
          subst e
          obtain ⟨f1, f2, -⟩ := Blitter.blitH_frame s x y w
          exact ⟨fun d hd _ => f1 d hd, f2⟩
        | blitAntiH x y cov runs =>
          simp only [Blitter.call] at hc
          obtain ⟨f1, f2, -⟩ := Blitter.blitAntiH_frame fuel s s2 x y cov runs hc
          exact ⟨fun d _ hd => f1 d hd, f2⟩
      refine ⟨fun d h1 h2 => ?_, fun d hd => ?_⟩
      · rw [i1 d h1 h2, step.1 d h1 h2]
      · rw [i2 d (by rw [step.2 d hd]; exact hd), step.2 d hd]

/-- What `blitMask` does with a mask that is not BW: it returns for the formats
A8, LCD16 and 3D, having selected the program of the format and evaluated it on
each row of the clip. -/
theorem Blitter.blitMask_of_coverage (generic : SkMask → SkIRect → List Call) (fuel : Nat)
    (s : BlitState) (mask : SkMask) (clip : SkIRect) (coverage : Coverage)
    (h : Blitter.maskCoverage mask.fFormat = some coverage) :
    Blitter.blitMask generic fuel s mask clip
      = .ok { blitter := (s.blitter.selectProgram s.cache coverage).1
              cache := (s.blitter.selectProgram s.cache coverage).2
              evals := s.evals
                ++ Blitter.maskRows ((s.blitter.selectProgram s.cache coverage).1.slot coverage)
                    (s.blitter.selectProgram s.cache coverage).1.fUniforms mask clip
                    (decide (coverage = .Mask3D)) } := by
  have hbw : mask.fFormat ≠ .kBW_Format := by
    intro hh
    rw [hh] at h
    simp [Blitter.maskCoverage] at h
  simp only [Blitter.blitMask, if_neg hbw, h]

/-- What `blitMask` does to the slots: no slot that holds a program changes. -/
theorem Blitter.blitMask_keeps (generic : SkMask → SkIRect → List Call) (fuel : Nat)
    (s s1 : BlitState) (mask : SkMask) (clip : SkIRect)
    (h : Blitter.blitMask generic fuel s mask clip = .ok s1) :
    ∀ c, (s.blitter.slot c).empty = false → s1.blitter.slot c = s.blitter.slot c := by
  intro c hc
  by_cases hbw : mask.fFormat = .kBW_Format
  · simp only [Blitter.blitMask, if_pos hbw] at h
    exact (Blitter.calls_frame fuel _ s s1 h).2 c hc
  · cases hm : Blitter.maskCoverage mask.fFormat with
    | none => simp [Blitter.blitMask, hbw, hm] at h
    | some coverage =>
      rw [Blitter.blitMask_of_coverage generic fuel s mask clip coverage hm] at h
      have e := Except.ok.inj h
      subst e
      exact Blitter.selectProgram_keeps _ _ _ _ hc

/-- No blit changes a slot that holds a program. -/
theorem Blitter.blit_keeps (generic : SkMask → SkIRect → List Call) (fuel : Nat)
    (s s1 : BlitState) (op : Blit) (h : Blitter.blit generic fuel s op = .ok s1) :
    ∀ c, (s.blitter.slot c).empty = false → s1.blitter.slot c = s.blitter.slot c := by
  cases op with
  | blitH x y w =>
    simp only [Blitter.blit] at h
    have e := Except.ok.inj h
    subst e
    exact (Blitter.blitH_frame s x y w).2.1
  | blitAntiH x y cov runs => exact (Blitter.blitAntiH_frame fuel s s1 x y cov runs h).2.1
  | blitMask mask clip => exact Blitter.blitMask_keeps generic fuel s s1 mask clip h

/-- No sequence of blits changes a slot that holds a program. -/
theorem Blitter.blits_keeps (generic : SkMask → SkIRect → List Call) (fuel : Nat)
    (ops : List Blit) (s s1 : BlitState) (h : Blitter.blits generic fuel s ops = .ok s1) :
    ∀ c, (s.blitter.slot c).empty = false → s1.blitter.slot c = s.blitter.slot c := by
  induction ops generalizing s with
  | nil =>
    simp only [Blitter.blits] at h
    have e := Except.ok.inj h
    subst e
    exact fun _ _ => rfl
  | cons op ops ih =>
    simp only [Blitter.blits] at h
    cases hop : Blitter.blit generic fuel s op with
    | error e =>
      rw [hop] at h
      simp at h
    | ok s2 =>
      rw [hop] at h
      intro c hc
      have h2 := Blitter.blit_keeps generic fuel s s2 op hop c hc
      rw [ih s2 h c (by rw [h2]; exact hc), h2]

/-- C23, as amended: `blitMask` with a BW mask builds no program and evaluates no
program itself: it hands the blitter as it is, with the same mask and clip, to
the generic `SkBlitter::blitMask`.  What is built or evaluated during the call is
built or evaluated by the `blitH` and `blitAntiH` calls the generic blitter makes
into the blitter, so that the three mask slots stay as they are, and nothing
changes at all when it makes no call.  For the formats A8, LCD16 and 3D
`blitMask` returns, and the program it evaluates on every row of the clip is the
one in the slot of the mask's own format, MaskA8, MaskLCD16 and Mask3D, which is
not empty by then. -/
theorem blitMask_selects_by_format (generic : SkMask → SkIRect → List Call) (fuel : Nat)
    (s : BlitState) (mask : SkMask) (clip : SkIRect) :
    (mask.fFormat = .kBW_Format →
        Blitter.blitMask generic fuel s mask clip = Blitter.calls fuel s (generic mask clip)
          ∧ (generic mask clip = [] → Blitter.blitMask generic fuel s mask clip = .ok s)
          ∧ ∀ s1, Blitter.blitMask generic fuel s mask clip = .ok s1 →
              ∀ c, c ≠ .Full → c ≠ .UniformA8 → s1.blitter.slot c = s.blitter.slot c)
      ∧ ∀ coverage,
          (mask.fFormat = .kA8_Format ∧ coverage = .MaskA8
            ∨ mask.fFormat = .kLCD16_Format ∧ coverage = .MaskLCD16
            ∨ mask.fFormat = .k3D_Format ∧ coverage = .Mask3D) →
          ∃ s1, Blitter.blitMask generic fuel s mask clip = .ok s1
            ∧ s1.blitter = (s.blitter.selectProgram s.cache coverage).1
            ∧ s1.evals = s.evals ++ Blitter.maskRows (s1.blitter.slot coverage)
                            s1.blitter.fUniforms mask clip (decide (coverage = .Mask3D))
            ∧ (Blitter.maskRows (s1.blitter.slot coverage) s1.blitter.fUniforms mask clip
                  (decide (coverage = .Mask3D))).length = (clip.bottom - clip.top).toNat
            ∧ (∀ e ∈ Blitter.maskRows (s1.blitter.slot coverage) s1.blitter.fUniforms mask clip
                        (decide (coverage = .Mask3D)), e.program = s1.blitter.slot coverage)
            ∧ (s1.blitter.slot coverage).empty = false := by
  refine ⟨fun hbw => ⟨?_, fun hg => ?_, fun s1 h1 => ?_⟩, fun coverage hc => ?_⟩
  · simp only [Blitter.blitMask, if_pos hbw]
  · simp only [Blitter.blitMask, if_pos hbw, hg, Blitter.calls]
  · simp only [Blitter.blitMask, if_pos hbw] at h1
    exact (Blitter.calls_frame fuel _ s s1 h1).1
  · have hm : Blitter.maskCoverage mask.fFormat = some coverage := by
      rcases hc with ⟨h, rfl⟩ | ⟨h, rfl⟩ | ⟨h, rfl⟩ <;> rw [h] <;> rfl
    refine ⟨_, Blitter.blitMask_of_coverage generic fuel s mask clip coverage hm, rfl, rfl, ?_,
      fun e he => ?_, Blitter.selectProgram_not_empty s.blitter s.cache coverage⟩
    · simp only [Blitter.maskRows, List.length_map, List.length_range]
    · simp only [Blitter.maskRows, List.mem_map, List.mem_range] at he
      obtain ⟨j, -, rfl⟩ := he
      split <;> rfl

/-- C23 as it was stated fails: a generic blitter that draws the BW mask as a
span calls `blitH`, so that `blitMask` with a BW mask on a blitter whose slots
are all empty returns with the Full program built and evaluated once. -/
theorem BW_mask_builds_and_evaluates :
    ∃ s1, Blitter.blitMask spanGeneric 0 freshState (maskOf .kBW_Format) smallClip = .ok s1
      ∧ freshState.blitter.fBlitH.empty = true ∧ s1.blitter.fBlitH.empty = false
      ∧ freshState.evals.length = 0 ∧ s1.evals.length = 1 :=
  ⟨_, rfl, rfl, rfl, rfl, rfl⟩

/-- C30, as amended: a newly constructed blitter has all five slots empty;
`blitH` can change only the Full slot, `blitAntiH` only the UniformA8 slot,
`blitMask` with an A8, LCD16 or 3D mask only the slot of the mask's format, and
`blitMask` with a BW mask, which has no slot of its own, only the Full and the
UniformA8 slot, through the calls of the generic blitter; each builds a program
only when its slot is empty (with a program in the slot the blitter and the
cache stay as they are), so that no sequence of blits rebuilds, replaces or
empties a slot that holds a program. -/
theorem programs_are_built_lazily (generic : SkMask → SkIRect → List Call) (fuel : Nat)
    (s : BlitState) (device : SkPixmap) (paint : SkPaint) (x y w : Int) (cov : Nat → Nat)
    (runs : Nat → Int) (mask : SkMask) (clip : SkIRect) (ops : List Blit) :
    (∀ c, ((Blitter.ctor device paint).slot c).empty = true)
      ∧ (∀ c, c ≠ .Full → (Blitter.blitH s x y w).blitter.slot c = s.blitter.slot c)
      ∧ ((s.blitter.slot .Full).empty = false →
            (Blitter.blitH s x y w).blitter = s.blitter
              ∧ (Blitter.blitH s x y w).cache = s.cache)
      ∧ (∀ s1, Blitter.blitAntiH fuel s x y cov runs = .ok s1 →
            (∀ c, c ≠ .UniformA8 → s1.blitter.slot c = s.blitter.slot c)
              ∧ ((s.blitter.slot .UniformA8).empty = false →
                  s1.cache = s.cache ∧ s1.blitter.slot .UniformA8 = s.blitter.slot .UniformA8))
      ∧ (∀ s1 coverage, Blitter.blitMask generic fuel s mask clip = .ok s1 →
            Blitter.maskCoverage mask.fFormat = some coverage →
            (∀ c, c ≠ coverage → s1.blitter.slot c = s.blitter.slot c)
              ∧ ((s.blitter.slot coverage).empty = false →
                  s1.blitter = s.blitter ∧ s1.cache = s.cache))
      ∧ (∀ s1, Blitter.blitMask generic fuel s mask clip = .ok s1 →
            mask.fFormat = .kBW_Format →
            ∀ c, c ≠ .Full → c ≠ .UniformA8 → s1.blitter.slot c = s.blitter.slot c)
      ∧ (∀ s1, Blitter.blits generic fuel s ops = .ok s1 →
            ∀ c, (s.blitter.slot c).empty = false → s1.blitter.slot c = s.blitter.slot c) := by
  refine ⟨fun c => by cases c <;> rfl, (Blitter.blitH_frame s x y w).1,
    (Blitter.blitH_frame s x y w).2.2, fun s1 h1 => ?_, fun s1 coverage h1 hm => ?_,
    fun s1 h1 hbw => ?_, fun s1 h1 => Blitter.blits_keeps generic fuel ops s s1 h1⟩
  · obtain ⟨f1, f2, f3⟩ := Blitter.blitAntiH_frame fuel s s1 x y cov runs h1
    exact ⟨f1, fun he => ⟨f3 he, f2 _ he⟩⟩
  · rw [Blitter.blitMask_of_coverage generic fuel s mask clip coverage hm] at h1
    have e := Except.ok.inj h1
    subst e
    refine ⟨fun c hc => Blitter.selectProgram_slot_ne _ _ _ _ hc, fun he => ?_⟩
    simp only [Blitter.selectProgram_of_not_empty _ s.cache _ he, and_self]
  · simp only [Blitter.blitMask, if_pos hbw] at h1
    exact (Blitter.calls_frame fuel _ s s1 h1).1

/-- C30 as it was stated fails for a BW mask: the format has no slot, and a
generic blitter that draws the mask as a span makes `blitMask` fill the Full
slot of a blitter whose slots were all empty. -/
theorem BW_mask_fills_the_Full_slot :
    Blitter.maskCoverage (maskOf .kBW_Format).fFormat = none
      ∧ (freshState.blitter.slot .Full).empty = true
      ∧ ∃ s1, Blitter.blit spanGeneric 0 freshState (.blitMask (maskOf .kBW_Format) smallClip)
                = .ok s1
          ∧ (s1.blitter.slot .Full).empty = false :=
  ⟨rfl, rfl, _, rfl, rfl⟩

/-- A Mask3D program, stage by stage: the varyings are declared in the order M,
A, coverage, after the uniform block and the destination, so that M is read
behind argument 2, A behind argument 3 and the coverage behind argument 4. -/
theorem Builder.Builder_Mask3D (shouldPreScale : SkBlendMode → Bool → Bool) (key : Key)
    (env : Env) (hcov : key.coverage = .Mask3D) (hcb : Builder.CanBuild key = true) :
    Builder.Builder shouldPreScale key env
      = match Builder.shade key env 0
            (Builder.unpack_8888 (skvm.uniform32 env.uniforms.paint_color)) with
        | .error e => .error e
        | .ok src =>
          let M := skvm.load8 (env.arg 2)
          let A := skvm.load8 (env.arg 3)
          let c := skvm.load8 (env.arg 4)
          let s3 : Color :=
            { r := Builder.min (skvm.add (Builder.scale_unorm8 src.r M) A) src.a
              g := Builder.min (skvm.add (Builder.scale_unorm8 src.g M) A) src.a
              b := Builder.min (skvm.add (Builder.scale_unorm8 src.b M) A) src.a
              a := src.a }
          match Builder.loadDst key env 1 with
          | .error e => .error e
          | .ok dst =>
            let d : Color :=
              if (true && decide (key.alphaType = .kOpaque_SkAlphaType)) = true
              then { dst with a := skvm.splat 0xff } else dst
            if shouldPreScale key.blendMode false = true then
              match Builder.blend key
                  { r := Builder.scale_unorm8 s3.r c, g := Builder.scale_unorm8 s3.g c
                    b := Builder.scale_unorm8 s3.b c, a := Builder.scale_unorm8 s3.a c } d with
              | .error e => .error e
              | .ok b =>
                Builder.storeDst key
                  (if (true && decide (key.alphaType = .kOpaque_SkAlphaType)) = true
                   then { b with a := skvm.splat 0xff } else b)
            else
              match Builder.blend key s3 d with
              | .error e => .error e
              | .ok b =>
                let l : Color :=
                  { r := Builder.lerp_unorm8 d.r b.r c, g := Builder.lerp_unorm8 d.g b.g c
                    b := Builder.lerp_unorm8 d.b b.b c, a := Builder.lerp_unorm8 d.a b.a c }
                Builder.storeDst key
                  (if (true && decide (key.alphaType = .kOpaque_SkAlphaType)) = true
                   then { l with a := skvm.splat 0xff } else l) := by
  obtain ⟨-, -, hct, -, hbm⟩ := Builder.CanBuild_true key hcb
  rcases Builder.shade_cases key env 0
      (Builder.unpack_8888 (skvm.uniform32 env.uniforms.paint_color)) with ⟨src, h1⟩ | ⟨h1, -⟩
  · obtain ⟨dst, h3⟩ := Builder.loadDst_ok key env 1 hct
    have hm : Builder.mask3D key env 2 src
        = ({ r := Builder.min (skvm.add (Builder.scale_unorm8 src.r (skvm.load8 (env.arg 2)))
                    (skvm.load8 (env.arg 3))) src.a
             g := Builder.min (skvm.add (Builder.scale_unorm8 src.g (skvm.load8 (env.arg 2)))
                    (skvm.load8 (env.arg 3))) src.a
             b := Builder.min (skvm.add (Builder.scale_unorm8 src.b (skvm.load8 (env.arg 2)))
                    (skvm.load8 (env.arg 3))) src.a
             a := src.a }, 4) := by
      simp only [Builder.mask3D, hcov, if_true, Builder.arg]
    have hl : decide (key.coverage = Coverage.MaskLCD16) = false := by simp [hcov]
    rw [h1]
    dsimp only
    rw [h3]
    dsimp only
    generalize hs3 : ({ r := Builder.min (skvm.add (Builder.scale_unorm8 src.r
                          (skvm.load8 (env.arg 2))) (skvm.load8 (env.arg 3))) src.a
                        g := Builder.min (skvm.add (Builder.scale_unorm8 src.g
                          (skvm.load8 (env.arg 2))) (skvm.load8 (env.arg 3))) src.a
                        b := Builder.min (skvm.add (Builder.scale_unorm8 src.b
                          (skvm.load8 (env.arg 2))) (skvm.load8 (env.arg 3))) src.a
                        a := src.a } : Color) = s3 at hm ⊢
    generalize hd : (if (true && decide (key.alphaType = .kOpaque_SkAlphaType)) = true
          then ({ dst with a := skvm.splat 0xff } : Color) else dst) = d
    cases hP : shouldPreScale key.blendMode false
    · obtain ⟨b, h4⟩ := Builder.blend_ok key s3 d hbm
      have h2 : Builder.preScaleCoverage shouldPreScale key env
          (Builder.mask3D key env 2 src).2 (Builder.mask3D key env 2 src).1
            = .ok (s3, 4, true) := by
        rw [hm]
        simp only [Builder.preScaleCoverage, hl, hP, Bool.false_eq_true, if_false]
      have h5 : Builder.lerpCoverage key env 4 true b d
          = .ok { r := Builder.lerp_unorm8 d.r b.r (skvm.load8 (env.arg 4))
                  g := Builder.lerp_unorm8 d.g b.g (skvm.load8 (env.arg 4))
                  b := Builder.lerp_unorm8 d.b b.b (skvm.load8 (env.arg 4))
                  a := Builder.lerp_unorm8 d.a b.a (skvm.load8 (env.arg 4)) } := by
        simp only [Builder.lerpCoverage, Builder.load_coverage, hcov, Builder.arg, if_true]
      subst hd
      rw [Builder.Builder_eq_of_stages shouldPreScale key env src s3 b _ dst 4 true hcb h1 h2 h3 h4
        h5]
      simp only [Bool.false_eq_true, if_false, h4]
    · obtain ⟨b, h4⟩ := Builder.blend_ok key
        { r := Builder.scale_unorm8 s3.r (skvm.load8 (env.arg 4))
          g := Builder.scale_unorm8 s3.g (skvm.load8 (env.arg 4))
          b := Builder.scale_unorm8 s3.b (skvm.load8 (env.arg 4))
          a := Builder.scale_unorm8 s3.a (skvm.load8 (env.arg 4)) } d hbm
      have h2 : Builder.preScaleCoverage shouldPreScale key env
          (Builder.mask3D key env 2 src).2 (Builder.mask3D key env 2 src).1
            = .ok ({ r := Builder.scale_unorm8 s3.r (skvm.load8 (env.arg 4))
                     g := Builder.scale_unorm8 s3.g (skvm.load8 (env.arg 4))
                     b := Builder.scale_unorm8 s3.b (skvm.load8 (env.arg 4))
                     a := Builder.scale_unorm8 s3.a (skvm.load8 (env.arg 4)) }, 5, false) := by
        rw [hm]
        simp [Builder.preScaleCoverage, hP, Builder.load_coverage, hcov, Builder.arg]
      have h5 : Builder.lerpCoverage key env 5 false b d = .ok b := by
        simp [Builder.lerpCoverage]
      subst hd
      subst hs3
      rw [Builder.Builder_eq_of_stages shouldPreScale key env src _ b b dst 5 false hcb h1 h2 h3 h4
        h5, if_pos rfl]
      dsimp only at h4
      rw [h4]
  · rw [Builder.Builder_of_shade_error shouldPreScale key env _ hcb h1, h1]

/-- C24: for a 3D mask, `blitMask` returns, and on every row of the clip it
evaluates the Mask3D program with the pointers (destination, mptr + plane,
mptr + 2*plane, mptr), where mptr is the address of the mask datum at the left
edge of the row and plane the image size of the mask.  The Mask3D Builder, for
Src and for SrcOver, declares its varyings in the order M, A, coverage, behind
the arguments 2, 3 and 4: at pixel `j` of the row the multiplicative byte M is
the byte of plane 1 at mptr + plane + j, the additive byte A the byte of plane 2
at mptr + 2*plane + j, and the coverage the byte of plane 0 at mptr + j. -/
theorem Mask3D_planes_in_declaration_order (shouldPreScale : SkBlendMode → Bool → Bool)
    (generic : SkMask → SkIRect → List Call) (fuel : Nat) (s : BlitState) (mask : SkMask)
    (clip : SkIRect) (mem : Ptr → Nat) (key : Key) (row j : Nat)
    (h3d : mask.fFormat = .k3D_Format) (hrow : row < (clip.bottom - clip.top).toNat)
    (hcov : key.coverage = .Mask3D) (hcb : Builder.CanBuild key = true) :
    ∃ (s1 : BlitState) (e : Eval), Blitter.blitMask generic fuel s mask clip = .ok s1
      ∧ s1.evals
          = s.evals ++ Blitter.maskRows s1.blitter.fBlitMask3D s1.blitter.fUniforms mask clip true
      ∧ (Blitter.maskRows s1.blitter.fBlitMask3D s1.blitter.fUniforms mask clip true)[row]?
          = some e
      ∧ e.program = s1.blitter.fBlitMask3D
      ∧ e.args = [.device clip.left (clip.top + row),
                  .mask (mask.getAddr clip.left (clip.top + row) + mask.computeImageSize),
                  .mask (mask.getAddr clip.left (clip.top + row) + 2 * mask.computeImageSize),
                  .mask (mask.getAddr clip.left (clip.top + row))]
      ∧ (e.env mem 1 j).arg 1 = mem (.device (clip.left + j) (clip.top + row))
      ∧ (e.env mem 1 j).arg 2
          = mem (.mask (mask.getAddr clip.left (clip.top + row) + mask.computeImageSize + j))
      ∧ (e.env mem 1 j).arg 3
          = mem (.mask (mask.getAddr clip.left (clip.top + row) + 2 * mask.computeImageSize + j))
      ∧ (e.env mem 1 j).arg 4 = mem (.mask (mask.getAddr clip.left (clip.top + row) + j))
      ∧ Builder.Builder shouldPreScale key (e.env mem 1 j)
          = match Builder.shade key (e.env mem 1 j) 0
                (Builder.unpack_8888 (skvm.uniform32 (e.env mem 1 j).uniforms.paint_color)) with
            | .error t => .error t
            | .ok src =>
              let M := skvm.load8 ((e.env mem 1 j).arg 2)
              let A := skvm.load8 ((e.env mem 1 j).arg 3)
              let c := skvm.load8 ((e.env mem 1 j).arg 4)
              let s3 : Color :=
                { r := Builder.min (skvm.add (Builder.scale_unorm8 src.r M) A) src.a
                  g := Builder.min (skvm.add (Builder.scale_unorm8 src.g M) A) src.a
                  b := Builder.min (skvm.add (Builder.scale_unorm8 src.b M) A) src.a
                  a := src.a }
              match Builder.loadDst key (e.env mem 1 j) 1 with
              | .error t => .error t
              | .ok dst =>
                let d : Color :=
                  if (true && decide (key.alphaType = .kOpaque_SkAlphaType)) = true
                  then { dst with a := skvm.splat 0xff } else dst
                if shouldPreScale key.blendMode false = true then
                  match Builder.blend key
                      { r := Builder.scale_unorm8 s3.r c, g := Builder.scale_unorm8 s3.g c
                        b := Builder.scale_unorm8 s3.b c, a := Builder.scale_unorm8 s3.a c } d with
                  | .error t => .error t
                  | .ok b =>
                    Builder.storeDst key
                      (if (true && decide (key.alphaType = .kOpaque_SkAlphaType)) = true
                       then { b with a := skvm.splat 0xff } else b)
                else
                  match Builder.blend key s3 d with
                  | .error t => .error t
                  | .ok b =>
                    let l : Color :=
                      { r := Builder.lerp_unorm8 d.r b.r c, g := Builder.lerp_unorm8 d.g b.g c
                        b := Builder.lerp_unorm8 d.b b.b c, a := Builder.lerp_unorm8 d.a b.a c }
                    Builder.storeDst key
                      (if (true && decide (key.alphaType = .kOpaque_SkAlphaType)) = true
                       then { l with a := skvm.splat 0xff } else l) := by
  have hm : Blitter.maskCoverage mask.fFormat = some .Mask3D := by rw [h3d]; rfl
  refine ⟨_,
    { program := (s.blitter.selectProgram s.cache .Mask3D).1.fBlitMask3D
      n := clip.width
      uniforms := (s.blitter.selectProgram s.cache .Mask3D).1.fUniforms
      args := [.device clip.left (clip.top + row),
               .mask (mask.getAddr clip.left (clip.top + row) + 1 * mask.computeImageSize),
               .mask (mask.getAddr clip.left (clip.top + row) + 2 * mask.computeImageSize),
               .mask (mask.getAddr clip.left (clip.top + row) + 0 * mask.computeImageSize)] },
    Blitter.blitMask_of_coverage generic fuel s mask clip .Mask3D hm, rfl, ?_, rfl, ?_,
    ?_, ?_, ?_, ?_, Builder.Builder_Mask3D shouldPreScale key _ hcov hcb⟩
  · simp only [Blitter.maskRows, List.getElem?_map, List.getElem?_range hrow, Option.map_some,
      if_true]
    rfl
  · simp only [one_mul, zero_mul, add_zero]
  · simp only [Eval.env, List.get?_cons_zero, Ptr.advance]
  · simp only [Eval.env, List.get?_cons_succ, List.get?_cons_zero, Ptr.advance, one_mul,
      Nat.cast_one, mul_one]
  · simp only [Eval.env, List.get?_cons_succ, List.get?_cons_zero, Ptr.advance,
      Nat.cast_one, mul_one]
  · simp only [Eval.env, List.get?_cons_succ, List.get?_cons_zero, Ptr.advance, zero_mul,
      add_zero, Nat.cast_one, mul_one]

/-- An instance of C24: a 3D mask whose planes of 64 bytes start at 1000, on a
clip from (1, 2): at pixel 1 of row 0, M is read at 1082, A at 1146 and the
coverage at 1018. -/
theorem Mask3D_planes_in_declaration_order_witness :
    ∃ (s1 : BlitState) (e : Eval), Blitter.blitMask spanGeneric 0 freshState (maskOf .k3D_Format) smallClip = .ok s1
      ∧ s1.evals.length = 2
      ∧ e.args = [.device 1 2, .mask 1081, .mask 1145, .mask 1017]
      ∧ (e.env (fun p => match p with | .mask a => a.toNat | .device _ _ => 0) 1 1).arg 2 = 1082
      ∧ (e.env (fun p => match p with | .mask a => a.toNat | .device _ _ => 0) 1 1).arg 3 = 1146
      ∧ (e.env (fun p => match p with | .mask a => a.toNat | .device _ _ => 0) 1 1).arg 4
          = 1018 := by
  obtain ⟨s1, e, h1, h2, -, -, h5, -, h7, h8, h9, -⟩ :=
    Mask3D_planes_in_declaration_order (fun _ _ => false) spanGeneric 0 freshState
      (maskOf .k3D_Format) smallClip (fun p => match p with | .mask a => a.toNat | .device _ _ => 0)
      ((premulKey .kSrcOver none).withCoverage .Mask3D) 0 1 rfl (by decide) rfl rfl
  exact ⟨s1, e, h1, by rw [h2]; rfl, h5, h7, h8, h9⟩

/-! ## Bytes and premultiplied colours through the stages -/

namespace Builder
open skvm

theorem scale_unorm8_mono (x x2 y : Nat) (h : x ≤ x2) (hx : x2 ≤ 255) (hy : y ≤ 255) :
    scale_unorm8 x y ≤ scale_unorm8 x2 y := by
  rw [scale_unorm8_eq x y (by omega) hy, scale_unorm8_eq x2 y hx hy]
  exact Nat.div_le_div_right (Nat.add_le_add_right (Nat.mul_le_mul_right y h) 127)

theorem lerp_unorm8_le (x y t : Nat) (hx : x ≤ 255) (hy : y ≤ 255) (ht : t ≤ 255) :
    lerp_unorm8 x y t ≤ 255 := by
  rw [lerp_unorm8_eq x y t hx hy ht]
  have h1 : x * (255 - t) ≤ 255 * (255 - t) := Nat.mul_le_mul_right _ hx
  have h2 : y * t ≤ 255 * t := Nat.mul_le_mul_right _ hy
  generalize x * (255 - t) = p at h1
  generalize y * t = q at h2
  omega

theorem lerp_unorm8_mono (x x2 y y2 t : Nat) (hxx : x ≤ x2) (hyy : y ≤ y2) (hx : x2 ≤ 255)
    (hy : y2 ≤ 255) (ht : t ≤ 255) : lerp_unorm8 x y t ≤ lerp_unorm8 x2 y2 t := by
  rw [lerp_unorm8_eq x y t (by omega) (by omega) ht, lerp_unorm8_eq x2 y2 t hx hy ht]
  apply Nat.div_le_div_right
  have h1 : x * (255 - t) ≤ x2 * (255 - t) := Nat.mul_le_mul_right _ hxx
  have h2 : y * t ≤ y2 * t := Nat.mul_le_mul_right _ hyy
  omega

theorem min_le_right_of_lt (x y : Nat) (hx : x < 2 ^ 31) (hy : y < 2 ^ 31) : min x y ≤ y := by
  rw [min_eq x y hx hy]
  split <;> omega

theorem unpack_8888_unorm8 (p : Nat) : (unpack_8888 p).unorm8 := by
  rw [unpack_8888_eq]
  simp only [Color.unorm8]
  omega

/-- The two planes of a 3D mask keep a premultiplied colour premultiplied, and
its channels bytes. -/
theorem mask3D_premul (key : Key) (env : Env) (n : Nat) (src : Color) (hu : src.unorm8)
    (hp : src.premul) :
    (mask3D key env n src).1.unorm8 ∧ (mask3D key env n src).1.premul := by
  obtain ⟨hr, hg, hb, ha⟩ := hu
  unfold mask3D
  split
  · have hM : load8 (env.arg (arg n).1) ≤ 255 := by
      simp only [load8]
      omega
    have hA : load8 (env.arg (arg (arg n).2).1) ≤ 255 := by
      simp only [load8]
      omega
    have key1 : ∀ c, c ≤ 255 →
        min (add (scale_unorm8 c (load8 (env.arg (arg n).1))) (load8 (env.arg (arg (arg n).2).1)))
          src.a ≤ src.a := by
      intro c hc
      have hs := scale_unorm8_le c _ hc hM
      rw [add_eq _ _ (by omega)]
      exact min_le_right_of_lt _ _ (by omega) (by omega)
    have k1 := key1 _ hr
    have k2 := key1 _ hg
    have k3 := key1 _ hb
    simp only [Color.unorm8, Color.premul]
    exact ⟨⟨by omega, by omega, by omega, ha⟩, k1, k2, k3⟩
  · exact ⟨⟨hr, hg, hb, ha⟩, hp⟩

/-- Coverage folded into a premultiplied source leaves it premultiplied, and
its channels bytes. -/
theorem preScaleCoverage_premul (shouldPreScale : SkBlendMode → Bool → Bool) (key : Key)
    (env : Env) (n n1 : Nat) (lp : Bool) (src src1 : Color)
    (h2 : preScaleCoverage shouldPreScale key env n src = .ok (src1, n1, lp))
    (hu : src.unorm8) (hp : src.premul) : src1.unorm8 ∧ src1.premul := by
  obtain ⟨hr, hg, hb, ha⟩ := hu
  obtain ⟨pr, pg, pb⟩ := hp
  have scaled : ∀ c, c ≤ 255 →
      (⟨scale_unorm8 src.r c, scale_unorm8 src.g c, scale_unorm8 src.b c,
          scale_unorm8 src.a c⟩ : Color).unorm8
        ∧ (⟨scale_unorm8 src.r c, scale_unorm8 src.g c, scale_unorm8 src.b c,
          scale_unorm8 src.a c⟩ : Color).premul := by
    intro c hc
    have s1 := scale_unorm8_le src.r c hr hc
    have s2 := scale_unorm8_le src.g c hg hc
    have s3 := scale_unorm8_le src.b c hb hc
    have s4 := scale_unorm8_le src.a c ha hc
    simp only [Color.unorm8, Color.premul]
    exact ⟨⟨by omega, by omega, by omega, by omega⟩, scale_unorm8_mono _ _ c pr ha hc,
      scale_unorm8_mono _ _ c pg ha hc, scale_unorm8_mono _ _ c pb ha hc⟩
  have h8 : uniform8 env.uniforms.coverage ≤ 255 := by
    simp only [uniform8]
    omega
  have hl : load8 (env.arg (arg n).1) ≤ 255 := by
    simp only [load8]
    omega
  unfold preScaleCoverage at h2
  split at h2
  · unfold load_coverage at h2
    cases hc : key.coverage <;> rw [hc] at h2 <;>
      simp only [Except.ok.injEq, Prod.mk.injEq, reduceCtorEq] at h2
    · obtain ⟨rfl, -, -⟩ := h2
      exact ⟨⟨hr, hg, hb, ha⟩, pr, pg, pb⟩
    · obtain ⟨rfl, -, -⟩ := h2
      exact scaled _ h8
    · obtain ⟨rfl, -, -⟩ := h2
      exact scaled _ hl
    · obtain ⟨rfl, -, -⟩ := h2
      exact scaled _ hl
  · simp only [Except.ok.injEq, Prod.mk.injEq] at h2
    obtain ⟨rfl, -, -⟩ := h2
    exact ⟨⟨hr, hg, hb, ha⟩, pr, pg, pb⟩

/-- The blend of a premultiplied source over a destination of bytes yields
bytes, and a premultiplied colour over a premultiplied destination. -/
theorem blend_premul (key : Key) (src d b : Color) (h4 : blend key src d = .ok b)
    (hu : src.unorm8) (hp : src.premul) (hd : d.unorm8) :
    b.unorm8 ∧ (d.premul → b.premul) := by
  obtain ⟨hr, hg, hb, ha⟩ := hu
  obtain ⟨pr, pg, pb⟩ := hp
  obtain ⟨dr, dg, db, da⟩ := hd
  unfold blend at h4
  cases hbm : key.blendMode <;> rw [hbm] at h4 <;> simp only [reduceCtorEq] at h4
  · have e := Except.ok.inj h4
    subst e
    exact ⟨⟨hr, hg, hb, ha⟩, fun _ => ⟨pr, pg, pb⟩⟩
  · have e := Except.ok.inj h4
    subst e
    rw [sub_255 _ ha]
    have s1 := scale_unorm8_le d.r (255 - src.a) dr (by omega)
    have s2 := scale_unorm8_le d.g (255 - src.a) dg (by omega)
    have s3 := scale_unorm8_le d.b (255 - src.a) db (by omega)
    have s4 := scale_unorm8_le d.a (255 - src.a) da (by omega)
    simp only [Color.unorm8, Color.premul]
    rw [add_eq _ _ (by omega), add_eq _ _ (by omega), add_eq _ _ (by omega),
      add_eq _ _ (by omega)]
    refine ⟨⟨by omega, by omega, by omega, by omega⟩, fun hdp => ?_⟩
    obtain ⟨qr, qg, qb⟩ := hdp
    have m1 := scale_unorm8_mono _ _ (255 - src.a) qr da (by omega)
    have m2 := scale_unorm8_mono _ _ (255 - src.a) qg da (by omega)
    have m3 := scale_unorm8_mono _ _ (255 - src.a) qb da (by omega)
    exact ⟨by omega, by omega, by omega⟩

/-- The lerp with coverage after the blend yields bytes, and, when one coverage
serves the four channels, a premultiplied colour from premultiplied ones. -/
theorem lerpCoverage_premul (key : Key) (env : Env) (n : Nat) (lp : Bool) (b d s3 : Color)
    (h5 : lerpCoverage key env n lp b d = .ok s3) (hb : b.unorm8) (hd : d.unorm8) :
    s3.unorm8 ∧ (key.coverage ≠ .MaskLCD16 → b.premul → d.premul → s3.premul) := by
  obtain ⟨br, bg, bb, ba⟩ := hb
  obtain ⟨dr, dg, db, da⟩ := hd
  have lerped : ∀ c, c ≤ 255 →
      (⟨lerp_unorm8 d.r b.r c, lerp_unorm8 d.g b.g c, lerp_unorm8 d.b b.b c,
          lerp_unorm8 d.a b.a c⟩ : Color).unorm8
        ∧ (b.premul → d.premul →
            (⟨lerp_unorm8 d.r b.r c, lerp_unorm8 d.g b.g c, lerp_unorm8 d.b b.b c,
              lerp_unorm8 d.a b.a c⟩ : Color).premul) := by
    intro c hc
    refine ⟨⟨lerp_unorm8_le _ _ _ dr br hc, lerp_unorm8_le _ _ _ dg bg hc,
      lerp_unorm8_le _ _ _ db bb hc, lerp_unorm8_le _ _ _ da ba hc⟩, fun hbp hdp => ?_⟩
    obtain ⟨p1, p2, p3⟩ := hbp
    obtain ⟨q1, q2, q3⟩ := hdp
    exact ⟨lerp_unorm8_mono _ _ _ _ c q1 p1 da ba hc, lerp_unorm8_mono _ _ _ _ c q2 p2 da ba hc,
      lerp_unorm8_mono _ _ _ _ c q3 p3 da ba hc⟩
  have h8 : uniform8 env.uniforms.coverage ≤ 255 := by
    simp only [uniform8]
    omega
  have hl : load8 (env.arg (arg n).1) ≤ 255 := by
    simp only [load8]
    omega
  unfold lerpCoverage at h5
  cases lp
  · simp only [Bool.false_eq_true, if_false, Except.ok.injEq] at h5
    subst h5
    exact ⟨⟨br, bg, bb, ba⟩, fun _ hbp _ => hbp⟩
  · simp only [if_true] at h5
    cases hc : key.coverage
    · simp only [load_coverage, hc, Except.ok.injEq] at h5
      subst h5
      exact ⟨⟨br, bg, bb, ba⟩, fun _ hbp _ => hbp⟩
    · simp only [load_coverage, hc, Except.ok.injEq] at h5
      subst h5
      exact ⟨(lerped _ h8).1, fun _ => (lerped _ h8).2⟩
    · simp only [load_coverage, hc, Except.ok.injEq] at h5
      subst h5
      exact ⟨(lerped _ hl).1, fun _ => (lerped _ hl).2⟩
    · rw [load_coverage_LCD key env n b d hc (by omega) (by omega)] at h5
      simp only [Except.ok.injEq] at h5
      subst h5
      obtain ⟨cr, cg, cb, -⟩ := unpack_565_le (load16 (env.arg n))
      refine ⟨⟨lerp_unorm8_le _ _ _ dr br cr, lerp_unorm8_le _ _ _ dg bg cg,
        lerp_unorm8_le _ _ _ db bb cb, lerp_unorm8_le _ _ _ da ba ?_⟩,
        fun h => absurd rfl h⟩
      split
      · exact le_trans (Nat.min_le_left _ _) cr
      · exact Nat.max_le.mpr ⟨cr, Nat.max_le.mpr ⟨cg, cb⟩⟩
    · simp only [load_coverage, hc, Except.ok.injEq] at h5
      subst h5
      exact ⟨(lerped _ hl).1, fun _ => (lerped _ hl).2⟩

/-- Forcing the alpha of a colour of bytes to 255 leaves bytes, and a
premultiplied colour. -/
theorem force_opaque_premul (flag : Bool) (c : Color) (hu : c.unorm8) :
    (if flag = true then { c with a := splat 0xff } else c).unorm8
      ∧ (c.premul → (if flag = true then { c with a := splat 0xff } else c).premul)
      ∧ (flag = true → (if flag = true then { c with a := splat 0xff } else c).premul) := by
  obtain ⟨hr, hg, hb, ha⟩ := hu
  have e : splat 0xff = 255 := by decide
  cases flag
  · exact ⟨⟨hr, hg, hb, ha⟩, fun h => h, fun h => absurd h (by simp)⟩
  · simp only [if_true, e, Color.unorm8, Color.premul]
    exact ⟨⟨hr, hg, hb, le_refl _⟩, fun _ => ⟨hr, hg, hb⟩, fun _ => ⟨hr, hg, hb⟩⟩

theorem loadDst_unorm8 (key : Key) (env : Env) (p : Nat) (dst : Color)
    (h3 : loadDst key env p = .ok dst) : dst.unorm8 := loadDst_le key env p dst h3

/-- From a premultiplied source colour of bytes, the colour that reaches the
store has bytes for channels; with one coverage for the four channels and a
premultiplied destination it is premultiplied. -/
theorem Builder_stored_premul (shouldPreScale : SkBlendMode → Bool → Bool) (key : Key)
    (env : Env) (src src1 src2 src3 dst : Color) (n : Nat) (lp : Bool)
    (hu : src.unorm8) (hp : src.premul)
    (h2 : preScaleCoverage shouldPreScale key env (mask3D key env 2 src).2 (mask3D key env 2 src).1
            = .ok (src1, n, lp))
    (h3 : loadDst key env 1 = .ok dst)
    (h4 : blend key src1
            (if (true && decide (key.alphaType = .kOpaque_SkAlphaType)) = true
              then { dst with a := splat 0xff } else dst) = .ok src2)
    (h5 : lerpCoverage key env n lp src2
            (if (true && decide (key.alphaType = .kOpaque_SkAlphaType)) = true
              then { dst with a := splat 0xff } else dst) = .ok src3) :
    (if (true && decide (key.alphaType = .kOpaque_SkAlphaType)) = true
        then { src3 with a := splat 0xff } else src3).unorm8
      ∧ (key.coverage ≠ .MaskLCD16 → dst.premul →
          (if (true && decide (key.alphaType = .kOpaque_SkAlphaType)) = true
            then { src3 with a := splat 0xff } else src3).premul) := by
  obtain ⟨m1, m2⟩ := mask3D_premul key env 2 src hu hp
  obtain ⟨p1, p2⟩ := preScaleCoverage_premul shouldPreScale key env _ n lp _ src1 h2 m1 m2
  have hd := loadDst_unorm8 key env 1 dst h3
  obtain ⟨d1, d2, -⟩ := force_opaque_premul (true && decide (key.alphaType = .kOpaque_SkAlphaType))
    dst hd
  obtain ⟨b1, b2⟩ := blend_premul key src1 _ src2 h4 p1 p2 d1
  obtain ⟨l1, l2⟩ := lerpCoverage_premul key env n lp src2 _ src3 h5 b1 d1
  obtain ⟨f1, f2, -⟩ := force_opaque_premul (true && decide (key.alphaType = .kOpaque_SkAlphaType))
    src3 l1
  exact ⟨f1, fun hc hdp => f2 (l2 hc (b2 (d2 hdp)) (d2 hdp))⟩

/-- Packing bytes and unpacking the word gives the bytes back: no channel
reaches into a neighbour. -/
theorem unpack_8888_pack_8888 (c : Color) (hu : c.unorm8) :
    unpack_8888 (store32 (pack_8888 c)) = c := by
  obtain ⟨hr, hg, hb, ha⟩ := hu
  rw [pack_8888_eq c hr hg hb ha, unpack_8888_eq]
  simp only [store32, Nat.mod_mod]
  obtain ⟨r, g, b, a⟩ := c
  simp only [Color.mk.injEq]
  dsimp only at hr hg hb ha
  exact ⟨by omega, by omega, by omega, by omega⟩

end Builder

namespace Builder
open skvm

/-- C26: for every buildable key without a shader, every premultiplied paint
colour and every destination pixel, coverage byte, mask, LCD and 3D-plane input,
each of the four channels of the colour the constructor hands to `pack_8888` or
`pack_565` lies in [0,255], so that the packing, which does not mask, carries no
channel into a neighbour: the packed word is the sum of the shifted fields. -/
theorem stored_channels_are_bytes (shouldPreScale : SkBlendMode → Bool → Bool) (key : Key)
    (env : Env) (src1 src2 src3 dst : Color) (n : Nat) (lp : Bool)
    (hcb : CanBuild key = true) (hsh : key.shader = none)
    (hpaint : (unpack_8888 (uniform32 env.uniforms.paint_color)).premul)
    (h2 : preScaleCoverage shouldPreScale key env
            (mask3D key env 2 (unpack_8888 (uniform32 env.uniforms.paint_color))).2
            (mask3D key env 2 (unpack_8888 (uniform32 env.uniforms.paint_color))).1
            = .ok (src1, n, lp))
    (h3 : loadDst key env 1 = .ok dst)
    (h4 : blend key src1
            (if (true && decide (key.alphaType = .kOpaque_SkAlphaType)) = true
              then { dst with a := splat 0xff } else dst) = .ok src2)
    (h5 : lerpCoverage key env n lp src2
            (if (true && decide (key.alphaType = .kOpaque_SkAlphaType)) = true
              then { dst with a := splat 0xff } else dst) = .ok src3) :
    ∃ c : Color,
      c = (if (true && decide (key.alphaType = .kOpaque_SkAlphaType)) = true
            then { src3 with a := splat 0xff } else src3)
        ∧ Builder shouldPreScale key env = storeDst key c
        ∧ c.r ≤ 255 ∧ c.g ≤ 255 ∧ c.b ≤ 255 ∧ c.a ≤ 255
        ∧ pack_8888 c = c.r + c.g * 2 ^ 8 + c.b * 2 ^ 16 + c.a * 2 ^ 24
        ∧ pack_8888 { r := c.b, g := c.g, b := c.r, a := c.a }
            = c.b + c.g * 2 ^ 8 + c.r * 2 ^ 16 + c.a * 2 ^ 24
        ∧ pack_565 c = (c.b * 31 + 127) / 255 + (c.g * 63 + 127) / 255 * 2 ^ 5
                        + (c.r * 31 + 127) / 255 * 2 ^ 11
        ∧ (c.b * 31 + 127) / 255 < 2 ^ 5 ∧ (c.g * 63 + 127) / 255 < 2 ^ 6
        ∧ (c.r * 31 + 127) / 255 < 2 ^ 5 := by
  have h1 : shade key env 0 (unpack_8888 (uniform32 env.uniforms.paint_color))
      = .ok (unpack_8888 (uniform32 env.uniforms.paint_color)) := by
    simp only [shade, hsh]
  obtain ⟨⟨hr, hg, hb, ha⟩, -⟩ := Builder_stored_premul shouldPreScale key env _ src1 src2 src3 dst
    n lp (unpack_8888_unorm8 _) hpaint h2 h3 h4 h5
  refine ⟨_, rfl, Builder_eq_of_stages shouldPreScale key env _ src1 src2 src3 dst n lp hcb h1 h2 h3
    h4 h5, hr, hg, hb, ha, pack_8888_eq _ hr hg hb ha, pack_8888_eq _ hb hg hr ha,
    pack_565_eq _ hr hg hb, ?_, ?_, ?_⟩ <;> omega

/-- An instance of C26: the paint (90, 60, 30, 120) over the destination
(200, 100, 50, 255) under the coverage byte 128, SrcOver with the coverage
lerped after the blend. -/
theorem stored_channels_are_bytes_witness :
    ∃ c : Color,
      Builder (fun _ _ => false) ((premulKey .kSrcOver none).withCoverage .UniformA8)
          (pixelEnv 0x781e3c5a 128 0xff3264c8 0)
        = storeDst ((premulKey .kSrcOver none).withCoverage .UniformA8) c
        ∧ c.r ≤ 255 ∧ c.g ≤ 255 ∧ c.b ≤ 255 ∧ c.a ≤ 255 := by
  obtain ⟨c, -, h1, hr, hg, hb, ha, -⟩ := stored_channels_are_bytes (fun _ _ => false)
    ((premulKey .kSrcOver none).withCoverage .UniformA8) (pixelEnv 0x781e3c5a 128 0xff3264c8 0)
    _ _ _ _ _ _ rfl rfl ⟨by decide, by decide, by decide⟩ rfl rfl rfl rfl
  exact ⟨c, h1, hr, hg, hb, ha⟩

/-- C27: the premultiplied invariant is preserved: for every buildable 8888 key
without a shader, with the coverage Full, UniformA8, MaskA8 or Mask3D, for Src
and for SrcOver, when the paint colour is premultiplied and the destination
pixel is premultiplied, a pixel is stored and it is premultiplied. -/
theorem premul_is_preserved (shouldPreScale : SkBlendMode → Bool → Bool) (key : Key) (env : Env)
    (hcb : CanBuild key = true) (hsh : key.shader = none)
    (hct : key.colorType = .kRGBA_8888_SkColorType ∨ key.colorType = .kBGRA_8888_SkColorType)
    (hcov : key.coverage ≠ .MaskLCD16)
    (hpaint : (unpack_8888 (uniform32 env.uniforms.paint_color)).premul)
    (hdst : (unpack_8888 (load32 (env.arg 1))).premul) :
    ∃ px, Builder shouldPreScale key env = .ok px
      ∧ (unpack_8888 px).r ≤ (unpack_8888 px).a
      ∧ (unpack_8888 px).g ≤ (unpack_8888 px).a
      ∧ (unpack_8888 px).b ≤ (unpack_8888 px).a := by
  have h1 : shade key env 0 (unpack_8888 (uniform32 env.uniforms.paint_color))
      = .ok (unpack_8888 (uniform32 env.uniforms.paint_color)) := by
    simp only [shade, hsh]
  rcases Builder_cases shouldPreScale key env hcb with ⟨px, hpx⟩ | ⟨-, sh, hs, -⟩ | ⟨-, hl, -⟩
  · obtain ⟨src, src1, src2, src3, dst, n, lp, g1, g2, g3, g4, g5, g6⟩ :=
      Builder_ok_stages shouldPreScale key env px hcb hpx
    rw [h1] at g1
    have e := Except.ok.inj g1
    subst e
    have hdp : dst.premul := by
      obtain ⟨q1, q2, q3⟩ := hdst
      unfold loadDst at g3
      rcases hct with h | h
      · rw [h] at g3
        have e := Except.ok.inj g3
        subst e
        exact ⟨q1, q2, q3⟩
      · rw [h] at g3
        have e := Except.ok.inj g3
        subst e
        exact ⟨q3, q2, q1⟩
    obtain ⟨f1, f2⟩ := Builder_stored_premul shouldPreScale key env _ src1 src2 src3 dst
      n lp (unpack_8888_unorm8 _) hpaint g2 g3 g4 g5
    have f3 := f2 hcov hdp
    refine ⟨px, hpx, ?_⟩
    unfold storeDst at g6
    generalize (if (true && decide (key.alphaType = .kOpaque_SkAlphaType)) = true
        then ({ src3 with a := splat 0xff } : Color) else src3) = c at f1 f3 g6
    obtain ⟨p1, p2, p3⟩ := f3
    obtain ⟨u1, u2, u3, u4⟩ := f1
    rcases hct with h | h
    · rw [h] at g6
      have e := Except.ok.inj g6
      subst e
      rw [unpack_8888_pack_8888 _ ⟨u1, u2, u3, u4⟩]
      exact ⟨p1, p2, p3⟩
    · rw [h] at g6
      have e := Except.ok.inj g6
      subst e
      rw [unpack_8888_pack_8888 ⟨c.b, c.g, c.r, c.a⟩ ⟨u3, u2, u1, u4⟩]
      exact ⟨p3, p2, p1⟩
  · rw [hsh] at hs
    exact absurd hs (by simp)
  · exact absurd hl hcov

/-- An instance of C27: the paint (90, 60, 30, 120) over the premultiplied
destination (100, 50, 25, 128) under the mask byte 77. -/
theorem premul_is_preserved_witness :
    ∃ px, Builder (fun _ _ => true) ((premulKey .kSrcOver none).withCoverage .MaskA8)
            (pixelEnv 0x781e3c5a 0 0x80193264 77) = .ok px
      ∧ (unpack_8888 px).r ≤ (unpack_8888 px).a
      ∧ (unpack_8888 px).g ≤ (unpack_8888 px).a
      ∧ (unpack_8888 px).b ≤ (unpack_8888 px).a :=
  premul_is_preserved (fun _ _ => true) ((premulKey .kSrcOver none).withCoverage .MaskA8)
    (pixelEnv 0x781e3c5a 0 0x80193264 77) rfl rfl (Or.inl rfl) (by decide)
    ⟨by decide, by decide, by decide⟩ ⟨by decide, by decide, by decide⟩

end Builder

/-! ## The two 8888 byte orders -/

namespace Builder
open skvm

end Builder

namespace Builder
open skvm

/-- Why the source colour is taken premultiplied: `pack_8888` does not mask.  On
a uniform block that holds red 255 under alpha 0, which the constructor of the
blitter never writes, SrcOver with full coverage over a destination whose red
byte is 1 brings the red channel to 256, and the carry goes into the byte above
it, which is green in the RGBA word and alpha in the BGRA word. -/
theorem BGRA_not_conjugated_for_unpremultiplied_paint :
    Builder (fun _ _ => false)
        { premulKey .kSrcOver none with colorType := .kBGRA_8888_SkColorType }
        (pixelEnv 0x000000ff 0 0x00010000 0) = .ok 0x01000000
      ∧ Builder (fun _ _ => false) (premulKey .kSrcOver none)
          (pixelEnv 0x000000ff 0 (swapRB 0x00010000) 0) = .ok 0x00000100
      ∧ swapRB 0x00000100 = 0x00000100
      ∧ CanBuild { premulKey .kSrcOver none with colorType := .kBGRA_8888_SkColorType } = true
      ∧ CanBuild (premulKey .kSrcOver none) = true :=
  ⟨rfl, rfl, rfl, rfl, rfl⟩

end Builder

/-! ## What a program reads of its inputs -/

namespace Builder
open skvm

/-- The stages after the source colour read the uniform block only for the
coverage byte, and the arguments. -/
theorem mask3D_congr (key : Key) (env env2 : Env) (n : Nat) (src : Color)
    (harg : env2.arg = env.arg) : mask3D key env2 n src = mask3D key env n src := by
  simp only [mask3D, harg]

theorem load_coverage_congr (key : Key) (env env2 : Env) (n : Nat) (src : Color)
    (dst : Option Color) (harg : env2.arg = env.arg)
    (hcov : env2.uniforms.coverage = env.uniforms.coverage) :
    load_coverage key env2 n src dst = load_coverage key env n src dst := by
  simp only [load_coverage, harg, hcov]

theorem preScaleCoverage_congr (shouldPreScale : SkBlendMode → Bool → Bool) (key : Key)
    (env env2 : Env) (n : Nat) (src : Color) (harg : env2.arg = env.arg)
    (hcov : env2.uniforms.coverage = env.uniforms.coverage) :
    preScaleCoverage shouldPreScale key env2 n src
      = preScaleCoverage shouldPreScale key env n src := by
  simp only [preScaleCoverage, load_coverage_congr key env env2 n src none harg hcov]

theorem loadDst_congr (key : Key) (env env2 : Env) (p : Nat) (harg : env2.arg = env.arg) :
    loadDst key env2 p = loadDst key env p := by
  simp only [loadDst, harg]

theorem lerpCoverage_congr (key : Key) (env env2 : Env) (n : Nat) (lp : Bool) (src dst : Color)
    (harg : env2.arg = env.arg) (hcov : env2.uniforms.coverage = env.uniforms.coverage) :
    lerpCoverage key env2 n lp src dst = lerpCoverage key env n lp src dst := by
  simp only [lerpCoverage, load_coverage_congr key env env2 n src (some dst) harg hcov]

/-- Two evaluations that agree on the source colour, on the coverage byte and on
the arguments store the same pixel. -/
theorem Builder_congr (shouldPreScale : SkBlendMode → Bool → Bool) (key : Key) (env env2 : Env)
    (harg : env2.arg = env.arg) (hcov : env2.uniforms.coverage = env.uniforms.coverage)
    (hsrc : shade key env2 0 (unpack_8888 (uniform32 env2.uniforms.paint_color))
              = shade key env 0 (unpack_8888 (uniform32 env.uniforms.paint_color))) :
    Builder shouldPreScale key env2 = Builder shouldPreScale key env := by
  simp only [Builder, arg, hsrc, mask3D_congr key env env2 _ _ harg,
    preScaleCoverage_congr shouldPreScale key env env2 _ _ harg hcov,
    loadDst_congr key env env2 _ harg, lerpCoverage_congr key env env2 _ _ _ _ harg hcov]

end Builder

namespace Builder
open skvm

/-- C29: when the key has a shader, what the shader emits replaces the paint
colour, and the paint alpha does not scale it: the source colour is what the
shader returned.  Two evaluations of the program that differ only in the
`paint_color` uniform (the same shader output, destination, coverage byte and
mask inputs) store the same pixel. -/
theorem shader_replaces_paint_color (shouldPreScale : SkBlendMode → Bool → Bool) (key : Key)
    (sh : SkShader) (env env2 : Env) (hsh : key.shader = some sh)
    (harg : env2.arg = env.arg) (hcov : env2.uniforms.coverage = env.uniforms.coverage)
    (hout : sh.program (some env2) key.colorSpace 0 sizeof_Uniforms
                (unpack_8888 (uniform32 env2.uniforms.paint_color))
              = sh.program (some env) key.colorSpace 0 sizeof_Uniforms
                  (unpack_8888 (uniform32 env.uniforms.paint_color))) :
    shade key env 0 (unpack_8888 (uniform32 env.uniforms.paint_color))
        = (if (sh.program (some env) key.colorSpace 0 sizeof_Uniforms
                (unpack_8888 (uniform32 env.uniforms.paint_color))).1 = false
           then .error .assertShaderProgram
           else .ok (sh.program (some env) key.colorSpace 0 sizeof_Uniforms
                      (unpack_8888 (uniform32 env.uniforms.paint_color))).2)
      ∧ Builder shouldPreScale key env2 = Builder shouldPreScale key env := by
  have h1 : ∀ e : Env, shade key e 0 (unpack_8888 (uniform32 e.uniforms.paint_color))
      = (if (sh.program (some e) key.colorSpace 0 sizeof_Uniforms
                (unpack_8888 (uniform32 e.uniforms.paint_color))).1 = false
           then .error .assertShaderProgram
           else .ok (sh.program (some e) key.colorSpace 0 sizeof_Uniforms
                      (unpack_8888 (uniform32 e.uniforms.paint_color))).2) := by
    intro e
    simp only [shade, hsh, Bool.false_eq_true, if_false]
  refine ⟨h1 env, Builder_congr shouldPreScale key env env2 harg hcov ?_⟩
  rw [h1 env2, h1 env, hout]

/-- An instance of C29: a shader that emits (10, 20, 30, 40), under an opaque
white paint and under a transparent paint, over the same destination. -/
theorem shader_replaces_paint_color_witness :
    Builder (fun _ _ => false) (premulKey .kSrcOver (some (solidShader ⟨10, 20, 30, 40⟩)))
        (pixelEnv 0 0 0x80102030 0)
      = Builder (fun _ _ => false) (premulKey .kSrcOver (some (solidShader ⟨10, 20, 30, 40⟩)))
          (pixelEnv 0xffffffff 0 0x80102030 0) :=
  (shader_replaces_paint_color (fun _ _ => false)
    (premulKey .kSrcOver (some (solidShader ⟨10, 20, 30, 40⟩))) (solidShader ⟨10, 20, 30, 40⟩)
    (pixelEnv 0xffffffff 0 0x80102030 0) (pixelEnv 0 0 0x80102030 0) rfl rfl rfl rfl).2

end Builder

/-! ## Coverage at its two ends -/

namespace Builder
open skvm

theorem CanBuild_withCoverage (k : Key) (c : Coverage) :
    CanBuild (k.withCoverage c) = CanBuild k := rfl

/-- Dividing 255 times a value by 255 gives the value back, beyond the bytes as
well: up to the sum of two bytes. -/
theorem div255_mul_255 (y : Nat) (hy : y ≤ 510) : div255 (y * 255) = y := by
  simp only [div255, add, shr, splat, Nat.shiftRight_eq_div_pow]
  generalize hv : y * 255 = v
  have e1 : (v + 128 % 2 ^ 32) % 2 ^ 32 = v + 128 := by omega
  have e2 : (v + 128) % 2 ^ 32 = v + 128 := by omega
  have e3 : (v + 128 + (v + 128) / 2 ^ 8) % 2 ^ 32 = v + 128 + (v + 128) / 2 ^ 8 := by omega
  rw [e1, e2, e3, e3]
  omega

theorem scale_unorm8_255 (x : Nat) (hx : x ≤ 255) : scale_unorm8 x 255 = x := by
  rw [scale_unorm8_eq x 255 hx (le_refl _)]
  omega

theorem scale_unorm8_zero (x : Nat) : scale_unorm8 x 0 = 0 := by
  simp only [scale_unorm8, mul, Nat.mul_zero, Nat.zero_mod]
  rfl

theorem lerp_unorm8_255 (d b : Nat) (hb : b ≤ 510) : lerp_unorm8 d b 255 = b := by
  have e1 : sub (splat 255) 255 = 0 := by decide
  have e2 : mul d 0 = 0 := by simp only [mul, Nat.mul_zero, Nat.zero_mod]
  have e3 : mul b 255 = b * 255 := by
    simp only [mul]
    omega
  have e4 : add 0 (b * 255) = b * 255 := by
    simp only [add]
    omega
  rw [lerp_unorm8, e1, e2, e3, e4, div255_mul_255 b hb]

theorem lerp_unorm8_zero (d b : Nat) (hd : d ≤ 255) : lerp_unorm8 d b 0 = d := by
  have e1 : sub (splat 255) 0 = 255 := by decide
  have e2 : mul b 0 = 0 := by simp only [mul, Nat.mul_zero, Nat.zero_mod]
  have e3 : mul d 255 = d * 255 := by
    simp only [mul]
    omega
  have e4 : add (d * 255) 0 = d * 255 := by
    simp only [add]
    omega
  rw [lerp_unorm8, e1, e2, e3, e4, div255_mul_255 d (by omega)]

/-- What the blend leaves in a channel is at most the sum of two bytes. -/
theorem blend_le (key : Key) (src d b : Color) (h4 : blend key src d = .ok b)
    (hs : src.unorm8) (hd : d.unorm8) :
    b.r ≤ 510 ∧ b.g ≤ 510 ∧ b.b ≤ 510 ∧ b.a ≤ 510 := by
  obtain ⟨s1, s2, s3, s4⟩ := hs
  obtain ⟨d1, d2, d3, d4⟩ := hd
  unfold blend at h4
  split at h4
  · have e := Except.ok.inj h4
    subst e
    exact ⟨by omega, by omega, by omega, by omega⟩
  · have e := Except.ok.inj h4
    subst e
    have hi : sub (splat 255) src.a ≤ 255 := by
      rw [sub_255 _ s4]
      omega
    have q1 := scale_unorm8_le d.r _ d1 hi
    have q2 := scale_unorm8_le d.g _ d2 hi
    have q3 := scale_unorm8_le d.b _ d3 hi
    have q4 := scale_unorm8_le d.a _ d4 hi
    dsimp only
    rw [add_eq _ _ (by omega), add_eq _ _ (by omega), add_eq _ _ (by omega),
      add_eq _ _ (by omega)]
    exact ⟨by omega, by omega, by omega, by omega⟩
  · exact absurd h4 (by simp)

/-- The destination colour that enters the blend has bytes for channels. -/
theorem forced_dst_unorm8 (key : Key) (env : Env) (dst : Color)
    (h3 : loadDst key env 1 = .ok dst) :
    (if (true && decide (key.alphaType = .kOpaque_SkAlphaType)) = true
      then ({ dst with a := splat 0xff } : Color) else dst).unorm8 := by
  obtain ⟨d1, d2, d3, d4⟩ := loadDst_le key env 1 dst h3
  split
  · exact ⟨d1, d2, d3, (by decide : splat 0xff ≤ 255)⟩
  · exact ⟨d1, d2, d3, d4⟩

/-- With no shader and no 3D mask, and a coverage of 255 for the four channels,
the Builder stores what the blend leaves. -/
theorem Builder_of_coverage_255 (shouldPreScale : SkBlendMode → Bool → Bool) (key : Key)
    (env : Env) (dst b : Color) (hcb : CanBuild key = true) (hsh : key.shader = none)
    (hcov : key.coverage = .Full
      ∨ (key.coverage = .UniformA8 ∧ uniform8 env.uniforms.coverage = 255)
      ∨ (key.coverage = .MaskA8 ∧ load8 (env.arg 2) = 255))
    (h3 : loadDst key env 1 = .ok dst)
    (h4 : blend key (unpack_8888 (uniform32 env.uniforms.paint_color))
            (if (true && decide (key.alphaType = .kOpaque_SkAlphaType)) = true
              then { dst with a := splat 0xff } else dst) = .ok b) :
    Builder shouldPreScale key env
      = storeDst key (if (true && decide (key.alphaType = .kOpaque_SkAlphaType)) = true
                        then { b with a := splat 0xff } else b) := by
  obtain ⟨p1, p2, p3, p4⟩ := unpack_8888_unorm8 (uniform32 env.uniforms.paint_color)
  obtain ⟨b1, b2, b3, b4⟩ := blend_le key _ _ b h4 (unpack_8888_unorm8 _)
    (forced_dst_unorm8 key env dst h3)
  generalize hsrc : unpack_8888 (uniform32 env.uniforms.paint_color) = src at h4 p1 p2 p3 p4
  have h1 : shade key env 0 (unpack_8888 (uniform32 env.uniforms.paint_color)) = .ok src := by
    simp only [shade, hsh, hsrc]
  have hnl : decide (key.coverage = Coverage.MaskLCD16) = false := by
    rcases hcov with h | ⟨h, -⟩ | ⟨h, -⟩ <;> simp [h]
  have hm : mask3D key env 2 src = (src, 2) := by
    rcases hcov with h | ⟨h, -⟩ | ⟨h, -⟩ <;> simp [mask3D, h]
  have hsc : ({ r := scale_unorm8 src.r 255, g := scale_unorm8 src.g 255
                b := scale_unorm8 src.b 255, a := scale_unorm8 src.a 255 } : Color) = src := by
    rw [scale_unorm8_255 _ p1, scale_unorm8_255 _ p2, scale_unorm8_255 _ p3,
      scale_unorm8_255 _ p4]
  have hle : ∀ d : Color,
      ({ r := lerp_unorm8 d.r b.r 255, g := lerp_unorm8 d.g b.g 255
         b := lerp_unorm8 d.b b.b 255, a := lerp_unorm8 d.a b.a 255 } : Color) = b := by
    intro d
    rw [lerp_unorm8_255 _ _ b1, lerp_unorm8_255 _ _ b2, lerp_unorm8_255 _ _ b3,
      lerp_unorm8_255 _ _ b4]
  cases hP : shouldPreScale key.blendMode false
  · have h2 : preScaleCoverage shouldPreScale key env (mask3D key env 2 src).2
        (mask3D key env 2 src).1 = .ok (src, 2, true) := by
      simp [preScaleCoverage, hnl, hP, hm]
    have h5 : lerpCoverage key env 2 true b
        (if (true && decide (key.alphaType = .kOpaque_SkAlphaType)) = true
          then { dst with a := splat 0xff } else dst) = .ok b := by
      rcases hcov with h | ⟨h, hc⟩ | ⟨h, hc⟩
      · simp only [lerpCoverage, load_coverage, h, if_true]
      · simp only [lerpCoverage, load_coverage, h, if_true, hc, hle]
      · simp only [lerpCoverage, load_coverage, h, if_true, arg, hc, hle]
    exact Builder_eq_of_stages shouldPreScale key env src src b b dst 2 true hcb h1 h2 h3 h4 h5
  · rcases hcov with h | ⟨h, hc⟩ | ⟨h, hc⟩
    · have h2 : preScaleCoverage shouldPreScale key env (mask3D key env 2 src).2
          (mask3D key env 2 src).1 = .ok (src, 2, false) := by
        simp [preScaleCoverage, hnl, hP, hm, load_coverage, h]
      exact Builder_eq_of_stages shouldPreScale key env src src b b dst 2 false hcb h1 h2 h3 h4
        (by simp [lerpCoverage])
    · have h2 : preScaleCoverage shouldPreScale key env (mask3D key env 2 src).2
          (mask3D key env 2 src).1 = .ok (src, 2, false) := by
        simp [preScaleCoverage, hnl, hP, hm, load_coverage, h, hc, hsc]
      exact Builder_eq_of_stages shouldPreScale key env src src b b dst 2 false hcb h1 h2 h3 h4
        (by simp [lerpCoverage])
    · have h2 : preScaleCoverage shouldPreScale key env (mask3D key env 2 src).2
          (mask3D key env 2 src).1 = .ok (src, 3, false) := by
        simp [preScaleCoverage, hnl, hP, hm, load_coverage, h, hc, hsc, arg]
      exact Builder_eq_of_stages shouldPreScale key env src src b b dst 3 false hcb h1 h2 h3 h4
        (by simp [lerpCoverage])

end Builder

namespace Builder
open skvm

/-- C31: full coverage is the same as coverage 255.  For every buildable key
without a shader, every paint colour and every destination pixel, whatever the
pre-scale predicate decides (coverage lerped after the blend, as for Src, or
folded into the source before it, as for SrcOver), the Full variant stores a
pixel, the UniformA8 variant run with the coverage byte 255 stores that same
pixel, and so does the MaskA8 variant run with the mask byte 255. -/
theorem Full_coverage_is_coverage_255 (shouldPreScale : SkBlendMode → Bool → Bool) (key : Key)
    (env : Env) (hcb : CanBuild key = true) (hsh : key.shader = none) :
    ∃ px, Builder shouldPreScale (key.withCoverage .Full) env = .ok px
      ∧ (uniform8 env.uniforms.coverage = 255 →
          Builder shouldPreScale (key.withCoverage .UniformA8) env = .ok px)
      ∧ (load8 (env.arg 2) = 255 →
          Builder shouldPreScale (key.withCoverage .MaskA8) env = .ok px) := by
  obtain ⟨-, -, hct, -, hbm⟩ := CanBuild_true key hcb
  obtain ⟨dst, h3⟩ := loadDst_ok key env 1 hct
  obtain ⟨b, h4⟩ := blend_ok key (unpack_8888 (uniform32 env.uniforms.paint_color))
    (if (true && decide (key.alphaType = .kOpaque_SkAlphaType)) = true
      then { dst with a := splat 0xff } else dst) hbm
  obtain ⟨px, h6⟩ := storeDst_ok key
    (if (true && decide (key.alphaType = .kOpaque_SkAlphaType)) = true
      then { b with a := splat 0xff } else b) hct
  refine ⟨px, ?_, fun hc => ?_, fun hc => ?_⟩
  · rw [Builder_of_coverage_255 shouldPreScale (key.withCoverage .Full) env dst b hcb hsh
      (Or.inl rfl) h3 h4]
    exact h6
  · rw [Builder_of_coverage_255 shouldPreScale (key.withCoverage .UniformA8) env dst b hcb hsh
      (Or.inr (Or.inl ⟨rfl, hc⟩)) h3 h4]
    exact h6
  · rw [Builder_of_coverage_255 shouldPreScale (key.withCoverage .MaskA8) env dst b hcb hsh
      (Or.inr (Or.inr ⟨rfl, hc⟩)) h3 h4]
    exact h6

/-- An instance of C31: the paint (90, 60, 30, 120) over the destination
(100, 50, 25, 128) with SrcOver and the coverage folded into the source: the
Full, the UniformA8 and the MaskA8 programs store the same pixel. -/
theorem Full_coverage_is_coverage_255_witness :
    ∃ px, Builder (fun _ _ => true) ((premulKey .kSrcOver none).withCoverage .Full)
            (pixelEnv 0x781e3c5a 255 0x80193264 255) = .ok px
      ∧ Builder (fun _ _ => true) ((premulKey .kSrcOver none).withCoverage .UniformA8)
            (pixelEnv 0x781e3c5a 255 0x80193264 255) = .ok px
      ∧ Builder (fun _ _ => true) ((premulKey .kSrcOver none).withCoverage .MaskA8)
            (pixelEnv 0x781e3c5a 255 0x80193264 255) = .ok px := by
  obtain ⟨px, h1, h2, h3⟩ := Full_coverage_is_coverage_255 (fun _ _ => true)
    (premulKey .kSrcOver none) (pixelEnv 0x781e3c5a 255 0x80193264 255) rfl rfl
  exact ⟨px, h1, h2 rfl, h3 rfl⟩

/-- C35: storing an 8-bit colour to RGB565 and loading it back changes each
channel by a bounded amount: for r, g, b in [0,255] the channels of
`unpack_565 (pack_565 (r,g,b))` differ from r and from b by at most 4 and from g
by at most 2, and the two ends are exact: 0 comes back as 0 and 255 as 255 in
every channel. -/
theorem RGB565_round_trip_error (r g b a : Nat) (hr : r ≤ 255) (hg : g ≤ 255) (hb : b ≤ 255) :
    ((unpack_565 (pack_565 ⟨r, g, b, a⟩)).r ≤ r + 4
        ∧ r ≤ (unpack_565 (pack_565 ⟨r, g, b, a⟩)).r + 4)
      ∧ ((unpack_565 (pack_565 ⟨r, g, b, a⟩)).g ≤ g + 2
        ∧ g ≤ (unpack_565 (pack_565 ⟨r, g, b, a⟩)).g + 2)
      ∧ ((unpack_565 (pack_565 ⟨r, g, b, a⟩)).b ≤ b + 4
        ∧ b ≤ (unpack_565 (pack_565 ⟨r, g, b, a⟩)).b + 4)
      ∧ (r = 0 → (unpack_565 (pack_565 ⟨r, g, b, a⟩)).r = 0)
      ∧ (g = 0 → (unpack_565 (pack_565 ⟨r, g, b, a⟩)).g = 0)
      ∧ (b = 0 → (unpack_565 (pack_565 ⟨r, g, b, a⟩)).b = 0)
      ∧ (r = 255 → (unpack_565 (pack_565 ⟨r, g, b, a⟩)).r = 255)
      ∧ (g = 255 → (unpack_565 (pack_565 ⟨r, g, b, a⟩)).g = 255)
      ∧ (b = 255 → (unpack_565 (pack_565 ⟨r, g, b, a⟩)).b = 255) := by
  rw [unpack_565_pack_565 ⟨r, g, b, a⟩ hr hg hb]
  dsimp only
  refine ⟨⟨?_, ?_⟩, ⟨?_, ?_⟩, ⟨?_, ?_⟩, ?_, ?_, ?_, ?_, ?_, ?_⟩ <;> omega

/-- An instance of C35: (100, 157, 3) comes back as (99, 158, 0): red loses 1,
green gains 1 and blue loses 3. -/
theorem RGB565_round_trip_error_witness :
    unpack_565 (pack_565 ⟨100, 157, 3, 255⟩) = ⟨99, 158, 0, 255⟩
      ∧ (unpack_565 (pack_565 ⟨100, 157, 3, 255⟩)).b ≤ 3 + 4
      ∧ 3 ≤ (unpack_565 (pack_565 ⟨100, 157, 3, 255⟩)).b + 4 :=
  ⟨rfl,
   (RGB565_round_trip_error 100 157 3 255 (by decide) (by decide) (by decide)).2.2.1.1,
   (RGB565_round_trip_error 100 157 3 255 (by decide) (by decide) (by decide)).2.2.1.2⟩

end Builder

/-- C34: `CanBuild` does not depend on the coverage field: for every key `k` and
coverage mode `c`, `CanBuild (k.withCoverage c) = CanBuild k`.  So when the
constructor of the blitter has accepted its key, which has coverage Full, the
key `fKey.withCoverage c` that `buildProgram` hands to the Builder is buildable
for each coverage mode `c`, and the Builder does not stop at
`SkASSERT(CanBuild(key))`; `buildProgram` returns the program built for that key,
or the non-empty program it found under that key in the cache. -/
theorem CanBuild_ignores_coverage (device : SkPixmap) (paint : SkPaint) (c : Coverage)
    (hok : (Blitter.ctor device paint).ok = true) :
    (∀ k : Key, Builder.CanBuild (k.withCoverage c) = Builder.CanBuild k)
      ∧ (Blitter.ctor device paint).fKey.coverage = .Full
      ∧ Builder.CanBuild (Blitter.ctor device paint).fKey = true
      ∧ Builder.CanBuild ((Blitter.ctor device paint).fKey.withCoverage c) = true
      ∧ (∀ (shouldPreScale : SkBlendMode → Bool → Bool) (env : Env),
          Builder.Builder shouldPreScale ((Blitter.ctor device paint).fKey.withCoverage c) env
            ≠ .error .assertCanBuild)
      ∧ (∀ cache : Option SkLRUCache,
          ((Blitter.ctor device paint).buildProgram cache c).1
              = Builder.done ((Blitter.ctor device paint).fKey.withCoverage c)
            ∨ ∃ cc found, cache = some cc
                ∧ (cc.find ((Blitter.ctor device paint).fKey.withCoverage c)).1 = some found
                ∧ found.empty = false
                ∧ ((Blitter.ctor device paint).buildProgram cache c).1 = found) := by
  have hcb : Builder.CanBuild (Blitter.ctor device paint).fKey = true := by
    simp only [Blitter.ctor, Bool.and_eq_true] at hok ⊢
    exact hok.2
  refine ⟨fun k => rfl, rfl, hcb, hcb, fun P env hh => ?_, fun cache => ?_⟩
  · rcases Builder.Builder_cases P ((Blitter.ctor device paint).fKey.withCoverage c) env hcb with
      ⟨px, h1⟩ | ⟨h1, -⟩ | ⟨h1, -⟩
    all_goals
      rw [h1] at hh
      cases hh
  · generalize Blitter.ctor device paint = b
    unfold Blitter.buildProgram
    cases cache with
    | none => exact Or.inl rfl
    | some cc =>
      dsimp only
      cases hf : cc.find (b.fKey.withCoverage c) with
      | mk o c1 =>
        cases o with
        | none => exact Or.inl rfl
        | some found =>
          dsimp only
          cases he : found.empty
          · refine Or.inr ⟨cc, found, rfl, by rw [hf], he, ?_⟩
            simp [he]
          · left
            simp [he]

/-- An instance of C34: the premultiplied RGBA device with an opaque SrcOver
paint; the key the Builder gets for LCD masks is buildable. -/
theorem CanBuild_ignores_coverage_witness :
    (Blitter.ctor rgbaDevice (solidPaint .kSrcOver 0xff0000ff)).ok = true
      ∧ Builder.CanBuild
          ((Blitter.ctor rgbaDevice (solidPaint .kSrcOver 0xff0000ff)).fKey.withCoverage
            .MaskLCD16) = true :=
  ⟨rfl, (CanBuild_ignores_coverage rgbaDevice (solidPaint .kSrcOver 0xff0000ff) .MaskLCD16
    rfl).2.2.2.1⟩

namespace Builder
open skvm

/-- Forcing the alpha of a colour to opaque a second time changes nothing. -/
theorem force_opaque_idem (key : Key) (dst d : Color)
    (hd : (if (true && decide (key.alphaType = .kOpaque_SkAlphaType)) = true
            then ({ dst with a := splat 0xff } : Color) else dst) = d) :
    (if (true && decide (key.alphaType = .kOpaque_SkAlphaType)) = true
      then ({ d with a := splat 0xff } : Color) else d) = d := by
  subst hd
  split <;> rfl

/-- With a coverage of zero for the four channels, and Src not folded into the
source before the blend, the Builder stores the destination colour that entered
the blend. -/
theorem Builder_of_coverage_zero (shouldPreScale : SkBlendMode → Bool → Bool) (key : Key)
    (env : Env) (src dst : Color) (hcb : CanBuild key = true)
    (hcov : (key.coverage = .UniformA8 ∧ uniform8 env.uniforms.coverage = 0)
      ∨ (key.coverage = .MaskA8 ∧ load8 (env.arg 2) = 0))
    (hP : shouldPreScale .kSrc false = false)
    (h1 : shade key env 0 (unpack_8888 (uniform32 env.uniforms.paint_color)) = .ok src)
    (h3 : loadDst key env 1 = .ok dst) :
    Builder shouldPreScale key env
      = storeDst key (if (true && decide (key.alphaType = .kOpaque_SkAlphaType)) = true
                        then { dst with a := splat 0xff } else dst) := by
  obtain ⟨-, -, -, -, hbm⟩ := CanBuild_true key hcb
  obtain ⟨d1, d2, d3, d4⟩ := forced_dst_unorm8 key env dst h3
  generalize hd : (if (true && decide (key.alphaType = .kOpaque_SkAlphaType)) = true
      then ({ dst with a := splat 0xff } : Color) else dst) = d at d1 d2 d3 d4
  have hid := force_opaque_idem key dst d hd
  have hnl : decide (key.coverage = Coverage.MaskLCD16) = false := by
    rcases hcov with ⟨h, -⟩ | ⟨h, -⟩ <;> simp [h]
  have hm : mask3D key env 2 src = (src, 2) := by
    rcases hcov with ⟨h, -⟩ | ⟨h, -⟩ <;> simp [mask3D, h]
  have hle : ∀ b : Color,
      ({ r := lerp_unorm8 d.r b.r 0, g := lerp_unorm8 d.g b.g 0
         b := lerp_unorm8 d.b b.b 0, a := lerp_unorm8 d.a b.a 0 } : Color) = d := by
    intro b
    rw [lerp_unorm8_zero _ _ d1, lerp_unorm8_zero _ _ d2, lerp_unorm8_zero _ _ d3,
      lerp_unorm8_zero _ _ d4]
  cases hPk : shouldPreScale key.blendMode false
  · obtain ⟨b, h4⟩ := blend_ok key src d hbm
    have h2 : preScaleCoverage shouldPreScale key env (mask3D key env 2 src).2
        (mask3D key env 2 src).1 = .ok (src, 2, true) := by
      simp [preScaleCoverage, hnl, hPk, hm]
    have h5 : lerpCoverage key env 2 true b d = .ok d := by
      rcases hcov with ⟨h, hc⟩ | ⟨h, hc⟩
      · simp only [lerpCoverage, load_coverage, h, if_true, hc, hle]
      · simp only [lerpCoverage, load_coverage, h, if_true, arg, hc, hle]
    have h4a : blend key src (if (true && decide (key.alphaType = .kOpaque_SkAlphaType)) = true
        then ({ dst with a := splat 0xff } : Color) else dst) = .ok b := by
      rw [hd]
      exact h4
    have h5a : lerpCoverage key env 2 true b
        (if (true && decide (key.alphaType = .kOpaque_SkAlphaType)) = true
          then ({ dst with a := splat 0xff } : Color) else dst) = .ok d := by
      rw [hd]
      exact h5
    rw [Builder_eq_of_stages shouldPreScale key env src src b d dst 2 true hcb h1 h2 h3 h4a h5a,
      hid]
  · have hso : key.blendMode = .kSrcOver := by
      rcases hbm with h | h
      · rw [h, hP] at hPk
        cases hPk
      · exact h
    have h4 : blend key ⟨0, 0, 0, 0⟩ d = .ok d := by
      have e1 : sub (splat 255) 0 = 255 := by decide
      have e2 : ∀ x, x ≤ 255 → add 0 (scale_unorm8 x 255) = x := by
        intro x hx
        rw [scale_unorm8_255 x hx]
        simp only [add]
        omega
      simp only [blend, hso, e1, e2 _ d1, e2 _ d2, e2 _ d3, e2 _ d4]
    have h4a : blend key ⟨0, 0, 0, 0⟩
        (if (true && decide (key.alphaType = .kOpaque_SkAlphaType)) = true
          then ({ dst with a := splat 0xff } : Color) else dst) = .ok d := by
      rw [hd]
      exact h4
    have hz : ({ r := scale_unorm8 src.r 0, g := scale_unorm8 src.g 0
                 b := scale_unorm8 src.b 0, a := scale_unorm8 src.a 0 } : Color)
        = ⟨0, 0, 0, 0⟩ := by
      simp only [scale_unorm8_zero]
    rcases hcov with ⟨h, hc⟩ | ⟨h, hc⟩
    · have h2 : preScaleCoverage shouldPreScale key env (mask3D key env 2 src).2
          (mask3D key env 2 src).1 = .ok (⟨0, 0, 0, 0⟩, 2, false) := by
        simp [preScaleCoverage, hnl, hPk, hm, load_coverage, h, hc, hz]
      rw [Builder_eq_of_stages shouldPreScale key env src _ d d dst 2 false hcb h1 h2 h3 h4a
        (by simp [lerpCoverage]), hid]
    · have h2 : preScaleCoverage shouldPreScale key env (mask3D key env 2 src).2
          (mask3D key env 2 src).1 = .ok (⟨0, 0, 0, 0⟩, 3, false) := by
        simp [preScaleCoverage, hnl, hPk, hm, load_coverage, h, hc, hz, arg]
      rw [Builder_eq_of_stages shouldPreScale key env src _ d d dst 3 false hcb h1 h2 h3 h4a
        (by simp [lerpCoverage]), hid]

/-- SrcOver does not lower the alpha below that of the destination. -/
theorem srcover_alpha_ge (s d : Nat) (hs : s ≤ 255) (hd : d ≤ 255) :
    d ≤ s + div255 (d * (255 - s)) := by
  have h1 : d * (255 - s) ≤ 65025 := Nat.mul_le_mul hd (Nat.sub_le 255 s)
  rw [div255_eq_of_le _ h1]
  have h2 : d * (255 - s) + d * s = d * 255 := by
    rw [← Nat.mul_add, Nat.sub_add_cancel hs]
  have h3 : d * s ≤ 255 * s := Nat.mul_le_mul_right s hd
  generalize d * (255 - s) = m at h1 h2 ⊢
  generalize d * s = q at h2 h3
  omega

end Builder

namespace Builder
open skvm

/-- C32: zero coverage leaves the destination untouched.  For every buildable
key with coverage UniformA8 or MaskA8, run with the coverage byte 0, whatever
source colour the paint (or the shader) gives, for Src and for SrcOver, the
program stores back exactly the destination pixel it loaded: for RGB_565, for
8888 destinations that are not opaque, and for opaque 8888 destinations whose
stored alpha byte is 255.  The pre-scale predicate is any that, as the one of
the library, does not fold coverage into the source for Src. -/
theorem zero_coverage_keeps_destination (shouldPreScale : SkBlendMode → Bool → Bool)
    (key : Key) (env : Env) (src : Color) (hcb : CanBuild key = true)
    (hcov : (key.coverage = .UniformA8 ∧ uniform8 env.uniforms.coverage = 0)
      ∨ (key.coverage = .MaskA8 ∧ load8 (env.arg 2) = 0))
    (hP : shouldPreScale .kSrc false = false)
    (h1 : shade key env 0 (unpack_8888 (uniform32 env.uniforms.paint_color)) = .ok src)
    (hop : key.alphaType = .kOpaque_SkAlphaType → key.colorType ≠ .kRGB_565_SkColorType →
            load32 (env.arg 1) / 2 ^ 24 = 255) :
    Builder shouldPreScale key env
      = .ok (if key.colorType = .kRGB_565_SkColorType then load16 (env.arg 1)
             else load32 (env.arg 1)) := by
  obtain ⟨-, -, hct, -, -⟩ := CanBuild_true key hcb
  obtain ⟨dst, h3⟩ := loadDst_ok key env 1 hct
  rw [Builder_of_coverage_zero shouldPreScale key env src dst hcb hcov hP h1 h3,
    ← storeDst_loadDst key env 1 dst h3]
  by_cases ho : key.alphaType = .kOpaque_SkAlphaType
  · rw [if_pos (by simp [ho])]
    by_cases h5 : key.colorType = .kRGB_565_SkColorType
    · simp only [storeDst, h5, pack_565]
    · have ha := hop ho h5
      have e : dst.a = 255 := by
        unfold loadDst at h3
        rcases hct with h | h | h
        · exact absurd h h5
        · rw [h] at h3
          have e3 := Except.ok.inj h3
          subst e3
          rw [unpack_8888_eq]
          simp only [load32] at ha ⊢
          omega
        · rw [h] at h3
          have e3 := Except.ok.inj h3
          subst e3
          rw [unpack_8888_eq]
          simp only [load32] at ha ⊢
          omega
      have e2 : ({ dst with a := splat 0xff } : Color) = dst := by
        obtain ⟨r, g, b, a⟩ := dst
        dsimp only at e
        subst e
        rfl
      rw [e2]
  · rw [if_neg (by simp [ho])]

/-- Instances of C32: over the premultiplied RGBA pixel `0x80193264` the paint
(90, 60, 30, 120) with SrcOver under the coverage byte 0, coverage folded into
the source, and with Src under the mask byte 0, coverage lerped after the
blend. -/
theorem zero_coverage_keeps_destination_witness :
    Builder (fun m rgb => decide (m = .kSrcOver) && !rgb)
        ((premulKey .kSrcOver none).withCoverage .UniformA8)
        (pixelEnv 0x781e3c5a 0 0x80193264 77) = .ok 0x80193264
      ∧ Builder (fun m rgb => decide (m = .kSrcOver) && !rgb)
        ((premulKey .kSrc none).withCoverage .MaskA8)
        (pixelEnv 0x781e3c5a 9 0x80193264 0) = .ok 0x80193264 :=
  ⟨zero_coverage_keeps_destination (fun m rgb => decide (m = .kSrcOver) && !rgb)
      ((premulKey .kSrcOver none).withCoverage .UniformA8)
      (pixelEnv 0x781e3c5a 0 0x80193264 77) _ rfl (Or.inl ⟨rfl, rfl⟩) rfl rfl
      (fun h => absurd h (by decide)),
   zero_coverage_keeps_destination (fun m rgb => decide (m = .kSrcOver) && !rgb)
      ((premulKey .kSrc none).withCoverage .MaskA8)
      (pixelEnv 0x781e3c5a 9 0x80193264 0) _ rfl (Or.inr ⟨rfl, rfl⟩) rfl rfl
      (fun h => absurd h (by decide))⟩

/-- C33: in a MaskLCD16 program with blend mode SrcOver, coverage is loaded after
the blend has replaced the source colour; the blended alpha
`s.a + div255(d.a * (255 - s.a))` is not below the destination alpha `d.a` for
`s.a`, `d.a` in [0,255]; so the alpha coverage is the greatest of the three
channel coverages, the branch with the least is never taken, and the alpha the
program stores is lerped with that greatest coverage (or forced to 255 for an
opaque destination). -/
theorem LCD_SrcOver_alpha_coverage_is_max (shouldPreScale : SkBlendMode → Bool → Bool)
    (key : Key) (env : Env) (src dst d b : Color) (h : CanBuild key = true)
    (hcov : key.coverage = .MaskLCD16) (hbm : key.blendMode = .kSrcOver)
    (hP : shouldPreScale .kSrcOver true = false)
    (h1 : shade key env 0 (unpack_8888 (uniform32 env.uniforms.paint_color)) = .ok src)
    (ha : src.a ≤ 255)
    (h3 : loadDst key env 1 = .ok dst)
    (hd : d = if (true && decide (key.alphaType = .kOpaque_SkAlphaType)) = true
              then { dst with a := splat 0xff } else dst)
    (h4 : blend key src d = .ok b) :
    d.a ≤ 255
      ∧ b.a = src.a + div255 (d.a * (255 - src.a))
      ∧ d.a ≤ b.a
      ∧ select (lt b.a d.a)
            (min (unpack_565 (load16 (env.arg 2))).r
              (min (unpack_565 (load16 (env.arg 2))).g (unpack_565 (load16 (env.arg 2))).b))
            (max (unpack_565 (load16 (env.arg 2))).r
              (max (unpack_565 (load16 (env.arg 2))).g (unpack_565 (load16 (env.arg 2))).b))
          = Max.max (unpack_565 (load16 (env.arg 2))).r
              (Max.max (unpack_565 (load16 (env.arg 2))).g (unpack_565 (load16 (env.arg 2))).b)
      ∧ load_coverage key env 2 b (some d)
          = .ok (some { r := (unpack_565 (load16 (env.arg 2))).r
                        g := (unpack_565 (load16 (env.arg 2))).g
                        b := (unpack_565 (load16 (env.arg 2))).b
                        a := Max.max (unpack_565 (load16 (env.arg 2))).r
                               (Max.max (unpack_565 (load16 (env.arg 2))).g
                                 (unpack_565 (load16 (env.arg 2))).b) }, 3)
      ∧ Builder shouldPreScale key env
          = storeDst key
              (if (true && decide (key.alphaType = .kOpaque_SkAlphaType)) = true
               then { r := lerp_unorm8 d.r b.r (unpack_565 (load16 (env.arg 2))).r
                      g := lerp_unorm8 d.g b.g (unpack_565 (load16 (env.arg 2))).g
                      b := lerp_unorm8 d.b b.b (unpack_565 (load16 (env.arg 2))).b
                      a := splat 0xff }
               else { r := lerp_unorm8 d.r b.r (unpack_565 (load16 (env.arg 2))).r
                      g := lerp_unorm8 d.g b.g (unpack_565 (load16 (env.arg 2))).g
                      b := lerp_unorm8 d.b b.b (unpack_565 (load16 (env.arg 2))).b
                      a := lerp_unorm8 d.a b.a
                             (Max.max (unpack_565 (load16 (env.arg 2))).r
                               (Max.max (unpack_565 (load16 (env.arg 2))).g
                                 (unpack_565 (load16 (env.arg 2))).b)) }) := by
  obtain ⟨-, -, -, hda⟩ := loadDst_le key env 1 dst h3
  have hda2 : d.a ≤ 255 := by
    rw [hd]
    split
    · show splat 0xff ≤ 255
      decide
    · exact hda
  obtain ⟨-, bo, bb⟩ := blend_alpha key src d b h4 ha hda2
  have hba := bo hbm
  have hge : d.a ≤ b.a := by
    rw [hba]
    exact srcover_alpha_ge src.a d.a ha hda2
  have hnlt : ¬ b.a < d.a := by omega
  have hl := load_coverage_LCD key env 2 b d hcov (by omega) (by omega)
  rw [if_neg hnlt] at hl
  have hsel : select (lt b.a d.a)
            (min (unpack_565 (load16 (env.arg 2))).r
              (min (unpack_565 (load16 (env.arg 2))).g (unpack_565 (load16 (env.arg 2))).b))
            (max (unpack_565 (load16 (env.arg 2))).r
              (max (unpack_565 (load16 (env.arg 2))).g (unpack_565 (load16 (env.arg 2))).b))
          = Max.max (unpack_565 (load16 (env.arg 2))).r
              (Max.max (unpack_565 (load16 (env.arg 2))).g
                (unpack_565 (load16 (env.arg 2))).b) := by
    have hl2 := hl
    simp only [load_coverage, hcov, arg, Except.ok.injEq, Prod.mk.injEq, Option.some.injEq,
      Color.mk.injEq, true_and, and_true] at hl2
    exact hl2
  refine ⟨hda2, hba, hge, hsel, hl, ?_⟩
  have hm : mask3D key env 2 src = (src, 2) := by simp [mask3D, hcov]
  have h2 : preScaleCoverage shouldPreScale key env (mask3D key env 2 src).2
      (mask3D key env 2 src).1 = .ok (src, 2, true) := by
    simp [preScaleCoverage, hcov, hbm, hP, hm]
  have h5 : lerpCoverage key env 2 true b d
      = .ok { r := lerp_unorm8 d.r b.r (unpack_565 (load16 (env.arg 2))).r
              g := lerp_unorm8 d.g b.g (unpack_565 (load16 (env.arg 2))).g
              b := lerp_unorm8 d.b b.b (unpack_565 (load16 (env.arg 2))).b
              a := lerp_unorm8 d.a b.a
                     (Max.max (unpack_565 (load16 (env.arg 2))).r
                       (Max.max (unpack_565 (load16 (env.arg 2))).g
                         (unpack_565 (load16 (env.arg 2))).b)) } := by
    simp only [lerpCoverage, if_true, hl]
  subst hd
  rw [Builder_eq_of_stages shouldPreScale key env src src b _ dst 2 true h h1 h2 h3 h4 h5]

/-- An instance of C33: a transparent paint over an opaque destination with LCD
coverage (0, 255, 0): the blend leaves alpha 255, which is not below the
destination alpha 255, and the alpha coverage is the greatest of the three, 255. -/
theorem LCD_SrcOver_alpha_coverage_is_max_witness :
    blend ((premulKey .kSrcOver none).withCoverage .MaskLCD16) ⟨0, 0, 0, 0⟩ ⟨0, 0, 0, 255⟩
        = .ok ⟨0, 0, 0, 255⟩
      ∧ load_coverage ((premulKey .kSrcOver none).withCoverage .MaskLCD16)
          (pixelEnv 0 0 0xFF000000 0x07E0) 2 ⟨0, 0, 0, 255⟩ (some ⟨0, 0, 0, 255⟩)
        = .ok (some ⟨0, 255, 0, 255⟩, 3) :=
  ⟨rfl,
   (LCD_SrcOver_alpha_coverage_is_max (fun m rgb => decide (m = .kSrcOver) && !rgb)
      ((premulKey .kSrcOver none).withCoverage .MaskLCD16)
      (pixelEnv 0 0 0xFF000000 0x07E0) ⟨0, 0, 0, 0⟩ ⟨0, 0, 0, 255⟩ ⟨0, 0, 0, 255⟩
      ⟨0, 0, 0, 255⟩ rfl rfl rfl rfl rfl (by decide) rfl rfl rfl).2.2.2.2.1⟩

end Builder

/-! ## The raster clip -/

/-- C36: the assignment of a BW clip to a clip that holds a non-empty antialiased
clip breaks the invariant that `validate` asserts.  Both clips are valid before;
`operator=` sets `fIsBW` and `fBW` and leaves `fAA` as it was, so the clip
assigned to is BW with a non-empty `fAA`, and `validate`, which `operator=`
itself runs last in a debug build, fails; `translate` by (0, 0) assigns and
fails likewise.  The other writers clear `fAA`: after `setRect`, after
`setEmpty`, after the copy constructor and after `translate` by another offset
the clip written is valid. -/
theorem assign_BW_over_AA_breaks_validate :
    aaClip.validate = true
      ∧ (SkRasterClip.ctorRect ⟨0, 0, 2, 2⟩).validate = true
      ∧ (aaClip.assign (SkRasterClip.ctorRect ⟨0, 0, 2, 2⟩)).fIsBW = true
      ∧ (aaClip.assign (SkRasterClip.ctorRect ⟨0, 0, 2, 2⟩)).fAA.isEmpty = false
      ∧ (aaClip.assign (SkRasterClip.ctorRect ⟨0, 0, 2, 2⟩)).validate = false
      ∧ ((SkRasterClip.ctorRect ⟨0, 0, 2, 2⟩).translate 0 0 (some aaClip)).map
          SkRasterClip.validate = some false
      ∧ (aaClip.setRect ⟨0, 0, 2, 2⟩).1.validate = true
      ∧ aaClip.setEmpty.1.validate = true
      ∧ (SkRasterClip.ctorCopy (SkRasterClip.ctorRect ⟨0, 0, 2, 2⟩)).validate = true
      ∧ ((SkRasterClip.ctorRect ⟨0, 0, 2, 2⟩).translate 1 0 (some aaClip)).map
          SkRasterClip.validate = some true := by
  refine ⟨by decide, by decide, by decide, by decide, by decide, by decide, by decide, by decide,
    by decide, by decide⟩

/-- C37: the clip constructed from a region is BW, and its cached empty flag is
true exactly when the region is empty; its cached rect flag is the negation of
the empty flag, so for the region of the two rectangles (0,0,2,1) and (5,0,6,1),
which is not empty and not a rectangle, the rect flag is true while
`computeIsRect` is false: `validate`, which the constructor runs last in a debug
build, fails on the clip it has just built. -/
theorem region_constructor_rect_flag :
    (∀ rgn : SkRegion,
        (SkRasterClip.ctorRegion rgn).fIsBW = true
          ∧ (SkRasterClip.ctorRegion rgn).fBW = rgn
          ∧ ((SkRasterClip.ctorRegion rgn).fIsEmpty = true ↔ rgn.pixels = ∅)
          ∧ ((SkRasterClip.ctorRegion rgn).fIsRect = true ↔ rgn.pixels ≠ ∅))
      ∧ twoRects.isEmpty = false
      ∧ twoRects.isRect = false
      ∧ twoRects.isComplex = true
      ∧ (SkRasterClip.ctorRegion twoRects).fIsRect = true
      ∧ (SkRasterClip.ctorRegion twoRects).computeIsRect = false
      ∧ (SkRasterClip.ctorRegion twoRects).validate = false := by
  refine ⟨fun rgn => ⟨rfl, rfl, ?_, ?_⟩, by decide, by decide, by decide, by decide, by decide,
    by decide⟩
  · simp [SkRasterClip.ctorRegion, SkRasterClip.computeIsEmpty, SkRegion.isEmpty]
  · simp [SkRasterClip.ctorRegion, SkRasterClip.computeIsEmpty, SkRegion.isEmpty]

/-- On a clip in the BW state `setConservativeRect(r, clipR, isInverse)` does what
its name says: the clip stays BW and its region is `clipR` intersected with
`roundOut(r)` when `isInverse` is false, and `clipR` minus `roundOut(r)` when
`isInverse` is true; the call returns true exactly when that result is not
empty, the cached empty flag is the negation of the returned flag, and
`getBounds` gives the bounds of that result. -/
theorem setConservativeRect_of_BW (c : SkRasterClip) (r : SkRect) (clipR : SkIRect)
    (isInverse : Bool) (hbw : c.fIsBW = true) :
    (c.setConservativeRect r clipR isInverse).1.fIsBW = true
      ∧ (c.setConservativeRect r clipR isInverse).1.fBW.pixels
          = (if isInverse then clipR.pixels \ r.roundOut.pixels
             else clipR.pixels ∩ r.roundOut.pixels)
      ∧ (∀ x y : Int, (x, y) ∈ (c.setConservativeRect r clipR isInverse).1.fBW.pixels
          ↔ ((x, y) ∈ clipR.pixels
              ∧ (if isInverse then (x, y) ∉ r.roundOut.pixels else (x, y) ∈ r.roundOut.pixels)))
      ∧ ((c.setConservativeRect r clipR isInverse).2 = true
          ↔ (if isInverse then clipR.pixels \ r.roundOut.pixels
             else clipR.pixels ∩ r.roundOut.pixels) ≠ ∅)
      ∧ (c.setConservativeRect r clipR isInverse).1.fIsEmpty
          = !(c.setConservativeRect r clipR isInverse).2
      ∧ (c.setConservativeRect r clipR isInverse).1.getBounds
          = pixelBounds (if isInverse then clipR.pixels \ r.roundOut.pixels
                         else clipR.pixels ∩ r.roundOut.pixels) := by
  cases isInverse <;>
    simp [SkRasterClip.setConservativeRect, SkRasterClip.updateCacheAndReturnNonEmpty,
      SkRasterClip.computeIsEmpty, SkRasterClip.computeIsRect, SkRasterClip.getBounds,
      SkRegion.setRect, SkRegion.op, SkRegion.Op.apply, SkRegion.isEmpty, SkRegion.getBounds, hbw]

/-- An instance: the BW clip of the rectangle (0,0,2,2), set to the clip
rectangle (0,0,4,4) and the rectangle (1/2, 1/2, 3/2, 3/2), not inverse. -/
theorem setConservativeRect_of_BW_witness :
    ((SkRasterClip.ctorRect ⟨0, 0, 2, 2⟩).setConservativeRect ⟨1 / 2, 1 / 2, 3 / 2, 3 / 2⟩
        ⟨0, 0, 4, 4⟩ false).1.fIsBW = true
      ∧ ((SkRasterClip.ctorRect ⟨0, 0, 2, 2⟩).setConservativeRect ⟨1 / 2, 1 / 2, 3 / 2, 3 / 2⟩
        ⟨0, 0, 4, 4⟩ false).1.fBW.pixels
          = (SkIRect.mk 0 0 4 4).pixels ∩ (SkRect.roundOut ⟨1 / 2, 1 / 2, 3 / 2, 3 / 2⟩).pixels :=
  ⟨(setConservativeRect_of_BW (SkRasterClip.ctorRect ⟨0, 0, 2, 2⟩) ⟨1 / 2, 1 / 2, 3 / 2, 3 / 2⟩
      ⟨0, 0, 4, 4⟩ false rfl).1,
   (setConservativeRect_of_BW (SkRasterClip.ctorRect ⟨0, 0, 2, 2⟩) ⟨1 / 2, 1 / 2, 3 / 2, 3 / 2⟩
      ⟨0, 0, 4, 4⟩ false rfl).2.1⟩

/-- The test of `nearly_integral`, read on the number line: the argument lies
in a half-open interval of width 1/4 that starts 1/8 below an integer. -/
theorem nearly_integral_eq_true_iff (x : ℚ) :
    nearly_integral x = true ↔ ∃ n : ℤ, (n : ℚ) - 1 / 8 ≤ x ∧ x < n + 1 / 8 := by
  simp only [nearly_integral, decide_eq_true_eq]
  constructor
  · intro h
    refine ⟨⌊x + 1 / 4 / 2⌋, ?_, ?_⟩
    · have := Int.floor_le (x + 1 / 4 / 2)
      linarith
    · linarith
  · rintro ⟨n, h1, h2⟩
    have e : ⌊x + 1 / 4 / 2⌋ = n := by
      rw [Int.floor_eq_iff]
      constructor <;> linarith
    rw [e]
    linarith

/-- C39, as amended: over exact (rational) arithmetic, `nearly_integral(x)` returns
true exactly when `n - 1/8 ≤ x < n + 1/8` for some integer `n` (x differs from
its nearest integer by less than 1/8, or lies exactly 1/8 below an integer), and
false otherwise; consequently a scale-translate rect op requested with AA on a BW
clip is treated as BW (the rounded rectangle is applied to the region) when each
of the four device-space edges lies in such an interval, and is applied to the
antialiased clip otherwise. -/
theorem nearly_integral_half_open (x : ℚ)
    (opPath : SkRasterClip → SkRect → SkMatrix → SkIRect → SkRegion.Op → Bool →
      SkRasterClip × Bool)
    (aaOp : SkAAClip → SkRect → SkRegion.Op → Bool → SkAAClip)
    (c : SkRasterClip) (localRect : SkRect) (matrix : SkMatrix) (devBounds : SkIRect)
    (op : SkRegion.Op) :
    (nearly_integral x = true ↔ ∃ n : ℤ, (n : ℚ) - 1 / 8 ≤ x ∧ x < n + 1 / 8)
      ∧ (nearly_integral x = false ↔ ¬ ∃ n : ℤ, (n : ℚ) - 1 / 8 ≤ x ∧ x < n + 1 / 8)
      ∧ ((∃ n : ℤ, |x - n| < 1 / 8) → nearly_integral x = true)
      ∧ (c.fIsBW = true → matrix.isScaleTranslate = true →
          ((∃ n : ℤ, (n : ℚ) - 1 / 8 ≤ (matrix.mapRect localRect).fLeft
                ∧ (matrix.mapRect localRect).fLeft < n + 1 / 8)
            ∧ (∃ n : ℤ, (n : ℚ) - 1 / 8 ≤ (matrix.mapRect localRect).fTop
                ∧ (matrix.mapRect localRect).fTop < n + 1 / 8)
            ∧ (∃ n : ℤ, (n : ℚ) - 1 / 8 ≤ (matrix.mapRect localRect).fRight
                ∧ (matrix.mapRect localRect).fRight < n + 1 / 8)
            ∧ (∃ n : ℤ, (n : ℚ) - 1 / 8 ≤ (matrix.mapRect localRect).fBottom
                ∧ (matrix.mapRect localRect).fBottom < n + 1 / 8)) →
          SkRasterClip.op opPath aaOp c localRect matrix devBounds op true
            = SkRasterClip.updateCacheAndReturnNonEmpty
                { c with fBW := (c.fBW.op (matrix.mapRect localRect).round op).1 } true)
      ∧ (c.fIsBW = true → matrix.isScaleTranslate = true →
          ¬ ((∃ n : ℤ, (n : ℚ) - 1 / 8 ≤ (matrix.mapRect localRect).fLeft
                ∧ (matrix.mapRect localRect).fLeft < n + 1 / 8)
            ∧ (∃ n : ℤ, (n : ℚ) - 1 / 8 ≤ (matrix.mapRect localRect).fTop
                ∧ (matrix.mapRect localRect).fTop < n + 1 / 8)
            ∧ (∃ n : ℤ, (n : ℚ) - 1 / 8 ≤ (matrix.mapRect localRect).fRight
                ∧ (matrix.mapRect localRect).fRight < n + 1 / 8)
            ∧ (∃ n : ℤ, (n : ℚ) - 1 / 8 ≤ (matrix.mapRect localRect).fBottom
                ∧ (matrix.mapRect localRect).fBottom < n + 1 / 8)) →
          SkRasterClip.op opPath aaOp c localRect matrix devBounds op true
            = SkRasterClip.updateCacheAndReturnNonEmpty
                { c.convertToAA with
                  fAA := aaOp c.convertToAA.fAA (matrix.mapRect localRect) op true } true) := by
  refine ⟨nearly_integral_eq_true_iff x, ?_, ?_, ?_, ?_⟩
  · rw [← nearly_integral_eq_true_iff x]
    simp
  · rintro ⟨n, hn⟩
    rw [nearly_integral_eq_true_iff]
    rw [abs_lt] at hn
    exact ⟨n, by linarith, by linarith⟩
  · intro hbw hst hall
    simp only [← nearly_integral_eq_true_iff] at hall
    obtain ⟨h1, h2, h3, h4⟩ := hall
    simp [SkRasterClip.op, hbw, hst, h1, h2, h3, h4]
  · intro hbw hst hall
    simp only [← nearly_integral_eq_true_iff] at hall
    have hn : (nearly_integral (matrix.mapRect localRect).fLeft
        && nearly_integral (matrix.mapRect localRect).fTop
        && nearly_integral (matrix.mapRect localRect).fRight
        && nearly_integral (matrix.mapRect localRect).fBottom) = false := by
      rw [Bool.eq_false_iff]
      intro h
      simp only [Bool.and_eq_true] at h
      exact hall ⟨h.1.1.1, h.1.1.2, h.1.2, h.2⟩
    simp [SkRasterClip.op, hbw, hst, hn]

/-- C39 as stated fails at the lower end of the interval: `nearly_integral(7/8)`
and `nearly_integral(-1/8)` are true, though 7/8 and -1/8 differ from every
integer by at least 1/8 (from the nearest by 1/8 exactly); so the rectangle
(-1/8, -1/8, 7/8, 7/8), none of whose edges is within less than 1/8 of an
integer, requested with AA on the BW clip (0,0,4,4) is treated as BW: the
rounded rectangle (0,0,1,1) is intersected with the region and the clip stays
BW. -/
theorem nearly_integral_one_eighth_below :
    nearly_integral (7 / 8) = true
      ∧ nearly_integral (-1 / 8) = true
      ∧ (∀ n : ℤ, ¬ |(7 / 8 : ℚ) - n| < 1 / 8)
      ∧ (∀ n : ℤ, ¬ |(-1 / 8 : ℚ) - n| < 1 / 8)
      ∧ |(7 / 8 : ℚ) - 1| = 1 / 8
      ∧ (SkRect.round ⟨-1 / 8, -1 / 8, 7 / 8, 7 / 8⟩) = ⟨0, 0, 1, 1⟩
      ∧ (SkRasterClip.op (fun c _ _ _ _ _ => (c, false)) (fun _ _ _ _ => halfPixel)
            (SkRasterClip.ctorRect ⟨0, 0, 4, 4⟩) ⟨-1 / 8, -1 / 8, 7 / 8, 7 / 8⟩ identityMatrix
            ⟨0, 0, 4, 4⟩ .kIntersect_Op true).1.fIsBW = true
      ∧ (SkRasterClip.op (fun c _ _ _ _ _ => (c, false)) (fun _ _ _ _ => halfPixel)
            (SkRasterClip.ctorRect ⟨0, 0, 4, 4⟩) ⟨-1 / 8, -1 / 8, 7 / 8, 7 / 8⟩ identityMatrix
            ⟨0, 0, 4, 4⟩ .kIntersect_Op true).1.fBW.pixels = {(0, 0)} := by
  have h7 : nearly_integral (7 / 8) = true := by
    rw [nearly_integral_eq_true_iff]
    exact ⟨1, by norm_num, by norm_num⟩
  have h1 : nearly_integral (-1 / 8) = true := by
    rw [nearly_integral_eq_true_iff]
    exact ⟨0, by norm_num, by norm_num⟩
  have hr : SkRect.round ⟨-1 / 8, -1 / 8, 7 / 8, 7 / 8⟩ = ⟨0, 0, 1, 1⟩ := by
    have e0 : ⌊(-1 / 8 : ℚ) + 1 / 2⌋ = 0 := by
      rw [Int.floor_eq_iff]
      constructor <;> norm_num
    have e1 : ⌊(7 / 8 : ℚ) + 1 / 2⌋ = 1 := by
      rw [Int.floor_eq_iff]
      constructor <;> norm_num
    simp only [SkRect.round, e0, e1]
  have hop : SkRasterClip.op (fun c _ _ _ _ _ => (c, false)) (fun _ _ _ _ => halfPixel)
      (SkRasterClip.ctorRect ⟨0, 0, 4, 4⟩) ⟨-1 / 8, -1 / 8, 7 / 8, 7 / 8⟩ identityMatrix
      ⟨0, 0, 4, 4⟩ .kIntersect_Op true
      = SkRasterClip.updateCacheAndReturnNonEmpty
          { SkRasterClip.ctorRect ⟨0, 0, 4, 4⟩ with
            fBW := ((SkRasterClip.ctorRect ⟨0, 0, 4, 4⟩).fBW.op ⟨0, 0, 1, 1⟩
                      .kIntersect_Op).1 } true := by
    have hbw : (SkRasterClip.ctorRect ⟨0, 0, 4, 4⟩).fIsBW = true := rfl
    simp only [SkRasterClip.op, identityMatrix, hbw, h7, h1, hr, Bool.not_true, Bool.and_self,
      Bool.false_eq_true, if_false, if_true, Bool.not_false]
  refine ⟨h7, h1, ?_, ?_, by norm_num [abs_of_neg], hr, ?_, ?_⟩
  · intro n hn
    rw [abs_lt] at hn
    obtain ⟨l, u⟩ := hn
    have l2 : (n : ℚ) < 1 := by linarith
    have u2 : (0 : ℚ) < n := by linarith
    have l3 : n < 1 := by exact_mod_cast l2
    have u3 : 0 < n := by exact_mod_cast u2
    omega
  · intro n hn
    rw [abs_lt] at hn
    obtain ⟨l, u⟩ := hn
    have l2 : (n : ℚ) < 0 := by linarith
    have u2 : (-1 : ℚ) < n := by linarith
    have l3 : n < 0 := by exact_mod_cast l2
    have u3 : -1 < n := by exact_mod_cast u2
    omega
  · rw [hop]
    decide
  · rw [hop]
    decide
